import Mathlib

/-!
# cuet-cricbuzz: live scoring engine

A shallow embedding of `src/services/scoringService.js` (the ball recorder, the undo
journal) and of the scoring handlers of `src/pages/admin/LiveScoring.jsx`.

The Supabase tables are lists of rows kept in insertion order, so that
`order('created_at')` is the list order.  Row ids generated by the database are drawn from
the counter `DB.nextId`; `new Date()` reads the logical clock `DB.clock`.  Integer columns
are `Int`, the derived decimal columns (`total_overs`, `run_rate`, `strike_rate`,
`overs_bowled`, `economy_rate`) are exact rationals.  A service function returns the
database it leaves behind together with its `{ data, error }` result, because the writes
made before a failure stay in place.
-/

namespace CuetCricbuzz

/-! ## Data model -/

abbrev RowId := Nat

abbrev Timestamp := Nat

/-- The non-null values of `extra_type`; `null` is `none` of `Option ExtraType`. -/
inductive ExtraType
  | wide | no_ball | bye | leg_bye | no_ball_bye | no_ball_leg_bye
  deriving DecidableEq

/-- The dismissal kinds offered by the wicket dialog. -/
inductive WicketType
  | caught | bowled | lbw | run_out | stumped | hit_wicket
  deriving DecidableEq

/-- Values of `innings.status`.  The services only ever write `in_progress` and
`completed`; `awaiting_setup` is the extra state named by the design document. -/
inductive InningsStatus
  | awaiting_setup | in_progress | completed
  deriving DecidableEq

inductive MatchStatus
  | upcoming | live | completed
  deriving DecidableEq

/-- Values written to `matches.result_type` by `calculateMatchWinner`. -/
inductive ResultType
  | won_by_wickets | won_by_runs | tied
  deriving DecidableEq

inductive ActionType
  | wicket | ball
  deriving DecidableEq

/-- The `result_text` written by `calculateMatchWinner`: "by n wickets", "by n runs" or
"Match Tied". -/
inductive ResultText
  | by_wickets (n : Int) | by_runs (n : Int) | match_tied
  deriving DecidableEq

structure MatchRow where
  id : RowId
  team1_id : RowId
  team2_id : RowId
  current_inning : Int
  overs_per_side : Int
  status : MatchStatus
  winner_id : Option RowId
  result_type : Option ResultType
  result_margin : Option Int
  archived : Bool
  ended_at : Option Timestamp
  result_text : Option ResultText := none
  deriving DecidableEq

structure Innings where
  id : RowId
  match_id : RowId
  inning_number : Int
  batting_team_id : RowId
  bowling_team_id : RowId
  total_runs : Int
  total_wickets : Int
  total_balls : Int
  total_overs : ℚ
  extras : Int
  wides : Int
  no_balls : Int
  byes : Int
  leg_byes : Int
  run_rate : ℚ
  status : InningsStatus
  ended_at : Option Timestamp
  deriving DecidableEq

structure BattingEntry where
  id : RowId
  innings_id : RowId
  player_id : RowId
  batting_position : Int
  runs_scored : Int
  balls_faced : Int
  fours : Int
  sixes : Int
  strike_rate : ℚ
  is_out : Bool
  dismissal_type : Option WicketType
  bowler_id : Option RowId
  fielder_id : Option RowId
  is_on_strike : Bool
  deriving DecidableEq

structure BowlingEntry where
  id : RowId
  innings_id : RowId
  player_id : RowId
  balls_bowled : Int
  runs_conceded : Int
  wickets_taken : Int
  overs_bowled : ℚ
  economy_rate : ℚ
  is_current_bowler : Bool
  deriving DecidableEq

structure Partnership where
  id : RowId
  innings_id : RowId
  batsman1_id : RowId
  batsman2_id : RowId
  runs_scored : Int
  balls_faced : Int
  wicket_number : Int
  is_current : Bool
  ended_at : Option Timestamp
  deriving DecidableEq

structure Ball where
  id : RowId
  innings_id : RowId
  over_number : Int
  ball_number : Int
  batsman_id : RowId
  bowler_id : RowId
  non_striker_id : RowId
  runs_scored : Int
  extras : Int
  extra_type : Option ExtraType
  is_wicket : Bool
  wicket_type : Option WicketType
  fielder_id : Option RowId
  is_boundary : Bool
  total_runs : Int
  total_wickets : Int
  deriving DecidableEq

/-- The argument object of `recordBall`; the defaults are those of its destructuring. -/
structure BallData where
  inningsId : RowId
  batsmanId : RowId
  bowlerId : RowId
  nonStrikerId : RowId
  runs : Int
  extras : Int := 0
  extraType : Option ExtraType := none
  isWicket : Bool := false
  wicketType : Option WicketType := none
  fielderId : Option RowId := none
  physicalRuns : Option Int := none
  deriving DecidableEq

/-- The `state_before` column of the journal. -/
structure StateBefore where
  innings : Innings
  runs : Int
  extras : Int
  isWicket : Bool
  batsmanId : RowId
  bowlerId : RowId
  deriving DecidableEq

structure ActionHistoryEntry where
  id : RowId
  match_id : RowId
  innings_id : RowId
  action_type : ActionType
  state_before : StateBefore
  action_data : BallData
  deriving DecidableEq

/-- The tables the scoring service reads and writes. -/
structure DB where
  matchRows : List MatchRow := []
  innings : List Innings := []
  batting : List BattingEntry := []
  bowling : List BowlingEntry := []
  partnerships : List Partnership := []
  balls : List Ball := []
  history : List ActionHistoryEntry := []
  nextId : RowId := 0
  clock : Timestamp := 0
  deriving DecidableEq

/-- The `error` member of a service result. -/
inductive Err
  | noActionToUndo
  | noBallToUndo
  | rowNotFound
  | typeError
  | expectedTwoBatsmen
  deriving DecidableEq

/-- The `message` of an error object; the two undo refusals carry literal messages. -/
def Err.message : Err → String
  | .noActionToUndo => "No action to undo"
  | .noBallToUndo => "No ball to undo"
  | .rowNotFound => "JSON object requested, multiple (or no) rows returned"
  | .typeError => "Cannot read properties of null"
  | .expectedTwoBatsmen => "Expected exactly 2 batsmen"

/-! ## Query helpers -/

/-- PostgREST `.single()`: the row when exactly one row is selected, `null` (with an
error) otherwise. -/
def single {α : Type} : List α → Option α
  | [x] => some x
  | _ => none

/-- JavaScript `%` on integers: the remainder takes the sign of the dividend. -/
def jsMod (a b : Int) : Int := Int.tmod a b

/-- The test `!['wide', 'no_ball', 'no_ball_bye', 'no_ball_leg_bye'].includes(extraType)`
bound to `countAsBall`. -/
def countAsBall : Option ExtraType → Bool
  | some .wide => false
  | some .no_ball => false
  | some .no_ball_bye => false
  | some .no_ball_leg_bye => false
  | _ => true

/-- The same test bound to `countsAsBallFaced`. -/
def countsAsBallFaced : Option ExtraType → Bool
  | some .wide => false
  | some .no_ball => false
  | some .no_ball_bye => false
  | some .no_ball_leg_bye => false
  | _ => true

/-- The expression `Math.floor(balls / 6) + (balls % 6) / 10`; integer division by the
positive literal 6 is the floor. -/
def oversDecimal (balls : Int) : ℚ := ((balls / 6 : Int) : ℚ) + ((jsMod balls 6 : Int) : ℚ) / 10

/-- The expression `overs > 0 ? runs / overs : 0`. -/
def ratePerOver (runs : Int) (overs : ℚ) : ℚ := if overs > 0 then (runs : ℚ) / overs else 0

/-- The expression `newBalls > 0 ? (newRuns / newBalls) * 100 : 0`. -/
def strikeRate (runs balls : Int) : ℚ := if balls > 0 then (runs : ℚ) / (balls : ℚ) * 100 else 0

def findInnings (db : DB) (inningsId : RowId) : Option Innings :=
  single (db.innings.filter (fun i => i.id == inningsId))

def findBatting (db : DB) (inningsId playerId : RowId) : Option BattingEntry :=
  single (db.batting.filter (fun b => b.innings_id == inningsId && b.player_id == playerId))

def findBowling (db : DB) (inningsId playerId : RowId) : Option BowlingEntry :=
  single (db.bowling.filter (fun b => b.innings_id == inningsId && b.player_id == playerId))

def currentPartnership (db : DB) (inningsId : RowId) : Option Partnership :=
  single (db.partnerships.filter (fun p => p.innings_id == inningsId && p.is_current))

/-- The not-out batting rows of an innings (`.eq('is_out', false)`). -/
def currentBatsmen (batting : List BattingEntry) (inningsId : RowId) : List BattingEntry :=
  batting.filter (fun b => b.innings_id == inningsId && !b.is_out)

/-- The two writes `update({ is_on_strike: false }).eq('id', striker.id)` and
`update({ is_on_strike: true }).eq('id', nonStriker.id)`, in that order. -/
def setStrike (batting : List BattingEntry) (strikerId nonStrikerId : RowId) :
    List BattingEntry :=
  (batting.map (fun b => if b.id == strikerId then { b with is_on_strike := false } else b)).map
    (fun b => if b.id == nonStrikerId then { b with is_on_strike := true } else b)

/-- The strike swap block shared by `recordBall` and `undoLastAction`: with exactly two
not-out batsmen, one on strike and one not, exchange the flags; otherwise do nothing. -/
def rotateStrike (batting : List BattingEntry) (inningsId : RowId) : List BattingEntry :=
  let cur := currentBatsmen batting inningsId
  if cur.length == 2 then
    match cur.find? (fun b => b.is_on_strike), cur.find? (fun b => !b.is_on_strike) with
    | some striker, some nonStriker => setStrike batting striker.id nonStriker.id
    | _, _ => batting
  else batting

/-! ## recordBall -/

/-- The journal row written by `recordBall` before anything else. -/
def journalEntry (db : DB) (innings : Innings) (ballData : BallData) : ActionHistoryEntry :=
  { id := db.nextId
    match_id := innings.match_id
    innings_id := ballData.inningsId
    action_type := if ballData.isWicket then .wicket else .ball
    state_before :=
      { innings := innings
        runs := ballData.runs
        extras := ballData.extras
        isWicket := ballData.isWicket
        batsmanId := ballData.batsmanId
        bowlerId := ballData.bowlerId }
    action_data := ballData }

/-- The row inserted into `balls`; `id` is the id the database gives it. -/
def ballRow (id : RowId) (innings : Innings) (ballData : BallData) : Ball :=
  { id := id
    innings_id := ballData.inningsId
    over_number := innings.total_balls / 6 + 1
    ball_number := jsMod innings.total_balls 6 + 1
    batsman_id := ballData.batsmanId
    bowler_id := ballData.bowlerId
    non_striker_id := ballData.nonStrikerId
    runs_scored := ballData.runs
    extras := ballData.extras
    extra_type := ballData.extraType
    is_wicket := ballData.isWicket
    wicket_type := ballData.wicketType
    fielder_id := ballData.fielderId
    is_boundary := ballData.runs == 4 || ballData.runs == 6
    total_runs := innings.total_runs + (ballData.runs + ballData.extras)
    total_wickets := innings.total_wickets + (if ballData.isWicket then 1 else 0) }

/-- The batting update of `recordBall`, computed from the row read as `batsmanBefore` and
applied to a row selected by `innings_id` and `player_id`. -/
def batsmanAfterBall (batsmanBefore : BattingEntry) (ballData : BallData)
    (b : BattingEntry) : BattingEntry :=
  let newRuns := batsmanBefore.runs_scored + ballData.runs
  let newBalls :=
    if countsAsBallFaced ballData.extraType then batsmanBefore.balls_faced + 1
    else batsmanBefore.balls_faced
  { b with
    runs_scored := newRuns
    balls_faced := newBalls
    fours := if ballData.runs == 4 then batsmanBefore.fours + 1 else batsmanBefore.fours
    sixes := if ballData.runs == 6 then batsmanBefore.sixes + 1 else batsmanBefore.sixes
    strike_rate := strikeRate newRuns newBalls
    is_out := ballData.isWicket
    dismissal_type := if ballData.isWicket then ballData.wicketType else none
    bowler_id := if ballData.isWicket then some ballData.bowlerId else none
    fielder_id := if ballData.isWicket then ballData.fielderId else none }

/-- The bowling update of `recordBall`: every figure for a legal delivery, only
`runs_conceded` and `economy_rate` for a wide or a no-ball. -/
def bowlerAfterBall (bowlerBefore : BowlingEntry) (ballData : BallData)
    (b : BowlingEntry) : BowlingEntry :=
  let totalRuns := ballData.runs + ballData.extras
  if countAsBall ballData.extraType then
    let newBallsBowled := bowlerBefore.balls_bowled + 1
    let newRunsConceded := bowlerBefore.runs_conceded + totalRuns
    let overs := oversDecimal newBallsBowled
    { b with
      balls_bowled := newBallsBowled
      runs_conceded := newRunsConceded
      wickets_taken :=
        if ballData.isWicket then bowlerBefore.wickets_taken + 1 else bowlerBefore.wickets_taken
      overs_bowled := overs
      economy_rate := ratePerOver newRunsConceded overs }
  else
    let newRunsConceded := bowlerBefore.runs_conceded + totalRuns
    let overs := oversDecimal bowlerBefore.balls_bowled
    { b with
      runs_conceded := newRunsConceded
      economy_rate := ratePerOver newRunsConceded overs }

/-- The increments `(widesInc, noBallsInc, byesInc, legByesInc)` chosen by the
`if (extraType === ...)` chain, used by `recordBall` and again by `undoLastAction`. -/
def extraIncrements (extraType : Option ExtraType) (extras : Int) : Int × Int × Int × Int :=
  match extraType with
  | some .wide => (1, 0, 0, 0)
  | some .no_ball => (0, 1, 0, 0)
  | some .bye => (0, 0, extras, 0)
  | some .leg_bye => (0, 0, 0, extras)
  | some .no_ball_bye => (0, 1, extras - 1, 0)
  | some .no_ball_leg_bye => (0, 1, 0, extras - 1)
  | none => (0, 0, 0, 0)

/-- The innings update of `recordBall`, computed from the row read at the start. -/
def inningsAfterBall (innings : Innings) (ballData : BallData) (i : Innings) : Innings :=
  let totalBalls := innings.total_balls
  let newTotalBalls := if countAsBall ballData.extraType then totalBalls + 1 else totalBalls
  let newOvers := oversDecimal newTotalBalls
  let newTotalRuns := innings.total_runs + (ballData.runs + ballData.extras)
  let inc := extraIncrements ballData.extraType ballData.extras
  { i with
    total_runs := newTotalRuns
    total_wickets := innings.total_wickets + (if ballData.isWicket then 1 else 0)
    total_balls := newTotalBalls
    total_overs := newOvers
    extras := innings.extras + ballData.extras
    wides := innings.wides + inc.1
    no_balls := innings.no_balls + inc.2.1
    byes := innings.byes + inc.2.2.1
    leg_byes := innings.leg_byes + inc.2.2.2
    run_rate := ratePerOver newTotalRuns newOvers }

/-- The partnership update of `recordBall`: nothing unless exactly one partnership of the
innings is current. -/
def partnershipsAfterBall (ps : List Partnership) (ballData : BallData) : List Partnership :=
  match single (ps.filter (fun p => p.innings_id == ballData.inningsId && p.is_current)) with
  | some cur =>
    ps.map (fun p =>
      if p.innings_id == ballData.inningsId && p.is_current then
        { p with
          runs_scored := cur.runs_scored + (ballData.runs + ballData.extras)
          balls_faced :=
            if countAsBall ballData.extraType then cur.balls_faced + 1 else cur.balls_faced }
      else p)
  | none => ps

/-- The closing write `update({ is_current: false, ended_at: now })` on a wicket. -/
def endCurrentPartnership (ps : List Partnership) (inningsId : RowId) (now : Timestamp) :
    List Partnership :=
  ps.map (fun p =>
    if p.innings_id == inningsId && p.is_current then
      { p with is_current := false, ended_at := some now }
    else p)

/-- The flag `shouldRotateStrike = !isWicket && (runsForStrikeRotation % 2 !== 0)` with
`runsForStrikeRotation = physicalRuns !== null ? physicalRuns : runs`. -/
def shouldRotateStrike (ballData : BallData) : Bool :=
  !ballData.isWicket && (jsMod (ballData.physicalRuns.getD ballData.runs) 2 != 0)

/-- The writes of `recordBall` that follow the two stat reads: bowler, innings,
partnership, strike rotation, and the closing of the partnership on a wicket. -/
def recordBallTail (db : DB) (innings : Innings) (bowlerBefore : BowlingEntry)
    (ballData : BallData) : DB :=
  let bowling := db.bowling.map (fun b =>
    if b.innings_id == ballData.inningsId && b.player_id == ballData.bowlerId then
      bowlerAfterBall bowlerBefore ballData b
    else b)
  let inningsRows := db.innings.map (fun i =>
    if i.id == ballData.inningsId then inningsAfterBall innings ballData i else i)
  let partnerships := partnershipsAfterBall db.partnerships ballData
  let batting :=
    if shouldRotateStrike ballData then rotateStrike db.batting ballData.inningsId
    else db.batting
  let partnerships :=
    if ballData.isWicket then endCurrentPartnership partnerships ballData.inningsId db.clock
    else partnerships
  { db with
    bowling := bowling
    innings := inningsRows
    partnerships := partnerships
    batting := batting
    clock := db.clock + 1 }

/-- The service function `recordBall`.  The journal row and the ball row are inserted
before the striker and bowler rows are read; a missing (or duplicated) row makes the
read return `null` and the next property access throw, which the `catch` turns into an
error result with the earlier writes still in place. -/
def recordBall (db : DB) (ballData : BallData) : DB × Except Err Ball :=
  match findInnings db ballData.inningsId with
  | none => (db, .error .rowNotFound)
  | some innings =>
    let db1 : DB :=
      { db with history := db.history ++ [journalEntry db innings ballData]
                nextId := db.nextId + 1 }
    let ball := ballRow db1.nextId innings ballData
    let db2 : DB := { db1 with balls := db1.balls ++ [ball], nextId := db1.nextId + 1 }
    match findBatting db2 ballData.inningsId ballData.batsmanId with
    | none => (db2, .error .typeError)
    | some batsmanBefore =>
      let db3 : DB :=
        { db2 with batting := db2.batting.map (fun b =>
            if b.innings_id == ballData.inningsId && b.player_id == ballData.batsmanId then
              batsmanAfterBall batsmanBefore ballData b
            else b) }
      match findBowling db3 ballData.inningsId ballData.bowlerId with
      | none => (db3, .error .typeError)
      | some bowlerBefore => (recordBallTail db3 innings bowlerBefore ballData, .ok ball)

/-! ## initializeInnings, addNewBatsman -/

/-- Modelled from the spec: the column defaults of `batting_innings`, whose schema is not
part of the sources: counters start at 0, `is_out` is false and the dismissal columns are
null. -/
def newBattingEntry (id inningsId playerId : RowId) (position : Int) (onStrike : Bool) :
    BattingEntry :=
  { id := id, innings_id := inningsId, player_id := playerId, batting_position := position
    runs_scored := 0, balls_faced := 0, fours := 0, sixes := 0, strike_rate := 0
    is_out := false, dismissal_type := none, bowler_id := none, fielder_id := none
    is_on_strike := onStrike }

/-- Modelled from the spec: the column defaults of `bowling_innings` (schema not part of
the sources): all figures start at 0. -/
def newBowlingEntry (id inningsId playerId : RowId) : BowlingEntry :=
  { id := id, innings_id := inningsId, player_id := playerId
    balls_bowled := 0, runs_conceded := 0, wickets_taken := 0
    overs_bowled := 0, economy_rate := 0, is_current_bowler := true }

/-- Modelled from the spec: the column defaults of `partnerships` (schema not part of the
sources): runs and balls start at 0 and `ended_at` is null. -/
def newPartnership (id inningsId batsman1 batsman2 : RowId) (wicketNumber : Int) :
    Partnership :=
  { id := id, innings_id := inningsId, batsman1_id := batsman1, batsman2_id := batsman2
    runs_scored := 0, balls_faced := 0, wicket_number := wicketNumber
    is_current := true, ended_at := none }

/-- The service function `initializeInnings`: two batting rows (the first on strike), one
bowling row marked current, one current partnership with `wicket_number` 1. -/
def initializeInnings (db : DB) (inningsId batsman1Id batsman2Id bowlerId : RowId) : DB :=
  { db with
    batting := db.batting ++
      [newBattingEntry db.nextId inningsId batsman1Id 1 true,
       newBattingEntry (db.nextId + 1) inningsId batsman2Id 2 false]
    bowling := db.bowling ++ [newBowlingEntry (db.nextId + 2) inningsId bowlerId]
    partnerships := db.partnerships ++
      [newPartnership (db.nextId + 3) inningsId batsman1Id batsman2Id 1]
    nextId := db.nextId + 4 }

/-- The greatest `batting_position` among the rows, as read by
`order('batting_position', { ascending: false }).limit(1)`. -/
def maxBattingPosition : List BattingEntry → Option Int
  | [] => none
  | b :: bs =>
    match maxBattingPosition bs with
    | none => some b.batting_position
    | some m => some (max b.batting_position m)

/-- The service function `addNewBatsman`: every not-out batsman of the innings is taken
off strike, the new batsman is inserted on strike, and when exactly one other not-out
batsman exists a new current partnership with that batsman is inserted. -/
def addNewBatsman (db : DB) (inningsId playerId : RowId) : DB × Except Err BattingEntry :=
  let nextPosition :=
    match maxBattingPosition (db.batting.filter (fun b => b.innings_id == inningsId)) with
    | some m => m + 1
    | none => 3
  let batting := db.batting.map (fun b =>
    if b.innings_id == inningsId && !b.is_out then { b with is_on_strike := false } else b)
  let data := newBattingEntry db.nextId inningsId playerId nextPosition true
  let db1 : DB := { db with batting := batting ++ [data], nextId := db.nextId + 1 }
  match single (db1.batting.filter (fun b =>
      b.innings_id == inningsId && !b.is_out && b.player_id != playerId)) with
  | some otherBatsman =>
    match findInnings db1 inningsId with
    | some innings =>
      ({ db1 with
         partnerships := db1.partnerships ++
           [newPartnership db1.nextId inningsId playerId otherBatsman.player_id
             (innings.total_wickets + 1)]
         nextId := db1.nextId + 1 }, .ok data)
    | none => (db1, .error .typeError)
  | none => (db1, .ok data)

/-! ## undoLastAction -/

/-- The batting write of `undoLastAction`, computed from the row read as `batsman`. -/
def batsmanAfterUndo (batsman : BattingEntry) (lastBall : Ball) (b : BattingEntry) :
    BattingEntry :=
  let newRuns := batsman.runs_scored - lastBall.runs_scored
  let newBalls :=
    if countsAsBallFaced lastBall.extra_type then batsman.balls_faced - 1
    else batsman.balls_faced
  { b with
    runs_scored := newRuns
    balls_faced := newBalls
    fours := if lastBall.runs_scored == 4 then batsman.fours - 1 else batsman.fours
    sixes := if lastBall.runs_scored == 6 then batsman.sixes - 1 else batsman.sixes
    strike_rate := strikeRate newRuns newBalls
    is_out := if lastBall.is_wicket then false else batsman.is_out
    dismissal_type := if lastBall.is_wicket then none else batsman.dismissal_type
    bowler_id := if lastBall.is_wicket then none else batsman.bowler_id
    fielder_id := if lastBall.is_wicket then none else batsman.fielder_id }

/-- The expression `balls > 0 ? Math.floor(balls / 6) + (balls % 6) / 10 : 0`. -/
def oversDecimalGuarded (balls : Int) : ℚ := if balls > 0 then oversDecimal balls else 0

/-- The bowling write of `undoLastAction`, computed from the row read as `bowler`. -/
def bowlerAfterUndo (bowler : BowlingEntry) (lastBall : Ball) (b : BowlingEntry) :
    BowlingEntry :=
  let totalRuns := lastBall.runs_scored + lastBall.extras
  if countAsBall lastBall.extra_type then
    let newBallsBowled := bowler.balls_bowled - 1
    let newRunsConceded := bowler.runs_conceded - totalRuns
    let overs := oversDecimalGuarded newBallsBowled
    { b with
      balls_bowled := newBallsBowled
      runs_conceded := newRunsConceded
      wickets_taken :=
        if lastBall.is_wicket then bowler.wickets_taken - 1 else bowler.wickets_taken
      overs_bowled := overs
      economy_rate := ratePerOver newRunsConceded overs }
  else
    let newRunsConceded := bowler.runs_conceded - totalRuns
    let overs := oversDecimalGuarded bowler.balls_bowled
    { b with
      runs_conceded := newRunsConceded
      economy_rate := ratePerOver newRunsConceded overs }

/-- The innings write of `undoLastAction`, computed from the row read as `innings`. -/
def inningsAfterUndo (innings : Innings) (lastBall : Ball) (i : Innings) : Innings :=
  let newTotalBalls :=
    if countAsBall lastBall.extra_type then innings.total_balls - 1 else innings.total_balls
  let newOvers := oversDecimalGuarded newTotalBalls
  let newTotalRuns := innings.total_runs - (lastBall.runs_scored + lastBall.extras)
  let inc := extraIncrements lastBall.extra_type lastBall.extras
  { i with
    total_runs := newTotalRuns
    total_wickets :=
      if lastBall.is_wicket then innings.total_wickets - 1 else innings.total_wickets
    total_balls := newTotalBalls
    total_overs := newOvers
    extras := innings.extras - lastBall.extras
    wides := innings.wides - inc.1
    no_balls := innings.no_balls - inc.2.1
    byes := innings.byes - inc.2.2.1
    leg_byes := innings.leg_byes - inc.2.2.2
    run_rate := ratePerOver newTotalRuns newOvers }

/-- Step 4 of `undoLastAction`: the partnership read as current (if any) is rewritten,
selected by its id. -/
def partnershipsAfterUndo (ps : List Partnership) (cur : Option Partnership) (lastBall : Ball) :
    List Partnership :=
  match cur with
  | some cp =>
    ps.map (fun p =>
      if p.id == cp.id then
        { p with
          runs_scored := cp.runs_scored - (lastBall.runs_scored + lastBall.extras)
          balls_faced :=
            if countAsBall lastBall.extra_type then cp.balls_faced - 1 else cp.balls_faced }
      else p)
  | none => ps

/-- Whether `a` sorts strictly after `b` under `order('ended_at', { ascending: false })`,
where PostgreSQL puts `null` first. -/
def endedAfterInOrder (a b : Option Timestamp) : Bool :=
  match a, b with
  | none, _ => false
  | some _, none => true
  | some x, some y => x < y

/-- The first row under `order('ended_at', { ascending: false }).limit(1)`; among rows
with equal `ended_at` the earliest inserted. -/
def latestEnded : List Partnership → Option Partnership
  | [] => none
  | p :: ps =>
    match latestEnded ps with
    | none => some p
    | some q => if endedAfterInOrder p.ended_at q.ended_at then some q else some p

/-- Steps 6 to 8 of `undoLastAction`: reverse the strike rotation when the journalled
call carried `physicalRuns`, delete the ball row, delete the journal row. -/
def undoFinish (db : DB) (inningsId : RowId) (lastAction : ActionHistoryEntry)
    (lastBall : Ball) : DB :=
  let batting :=
    match lastAction.action_data.physicalRuns with
    | some physicalRuns =>
      if jsMod physicalRuns 2 != 0 && !lastBall.is_wicket then
        rotateStrike db.batting inningsId
      else db.batting
    | none => db.batting
  { db with
    batting := batting
    balls := db.balls.filter (fun b => b.id != lastBall.id)
    history := db.history.filter (fun h => h.id != lastAction.id) }

/-- Step 5 of `undoLastAction`, run when the undone ball was a wicket: reopen the most
recently ended partnership, delete the partnership read as current in step 4 and the
batsman it introduced.  The batsman deletes read `currentPartnership.batsman1_id` without
a null test, so with no current partnership they throw after the reopening write. -/
def undoWicket (db : DB) (inningsId : RowId) (currentPartnership : Option Partnership) :
    DB × Option Err :=
  match latestEnded (db.partnerships.filter (fun p =>
      p.innings_id == inningsId && !p.is_current)) with
  | none => (db, none)
  | some endedPartnership =>
    let ps : List Partnership :=
      match currentPartnership with
      | some cur => db.partnerships.filter (fun p => p.id != cur.id)
      | none => db.partnerships
    let ps : List Partnership := ps.map (fun p =>
      if p.id == endedPartnership.id then { p with is_current := true, ended_at := none }
      else p)
    let db1 : DB := { db with partnerships := ps }
    match currentPartnership with
    | none => (db1, some .typeError)
    | some cur =>
      let keep (removed : RowId) (b : BattingEntry) : Bool :=
        !(b.innings_id == inningsId && b.player_id == removed &&
          b.player_id != endedPartnership.batsman1_id &&
          b.player_id != endedPartnership.batsman2_id)
      ({ db1 with
         batting := (db1.batting.filter (keep cur.batsman1_id)).filter (keep cur.batsman2_id) },
       none)

/-- The service function `undoLastAction`. -/
def undoLastAction (db : DB) (inningsId : RowId) : DB × Except Err Bool :=
  match (db.history.filter (fun h => h.innings_id == inningsId)).getLast? with
  | none => (db, .error .noActionToUndo)
  | some lastAction =>
    match (db.balls.filter (fun b => b.innings_id == inningsId)).getLast? with
    | none => (db, .error .noBallToUndo)
    | some lastBall =>
      match findInnings db inningsId with
      | none => (db, .error .rowNotFound)
      | some innings =>
        match findBatting db inningsId lastBall.batsman_id with
        | none => (db, .error .rowNotFound)
        | some batsman =>
          let db1 : DB :=
            { db with batting := db.batting.map (fun b =>
                if b.id == batsman.id then batsmanAfterUndo batsman lastBall b else b) }
          match findBowling db1 inningsId lastBall.bowler_id with
          | none => (db1, .error .rowNotFound)
          | some bowler =>
            let db2 : DB :=
              { db1 with
                bowling := db1.bowling.map (fun b =>
                  if b.id == bowler.id then bowlerAfterUndo bowler lastBall b else b)
                innings := db1.innings.map (fun i =>
                  if i.id == inningsId then inningsAfterUndo innings lastBall i else i) }
            let cur := currentPartnership db2 inningsId
            let db3 : DB :=
              { db2 with partnerships := partnershipsAfterUndo db2.partnerships cur lastBall }
            if lastBall.is_wicket then
              match undoWicket db3 inningsId cur with
              | (db4, some e) => (db4, .error e)
              | (db4, none) => (undoFinish db4 inningsId lastAction lastBall, .ok true)
            else (undoFinish db3 inningsId lastAction lastBall, .ok true)

/-! ## The scoring page: handleScoreBall, handleAdvancedScoringSubmit -/

inductive DeliveryType
  | normal | no_ball | wide
  deriving DecidableEq

inductive RunsType
  | bat | bye | leg_bye
  deriving DecidableEq

/-- The `advancedScoring` state of the page. -/
structure AdvancedScoring where
  deliveryType : DeliveryType
  runsType : RunsType
  baseRuns : Int
  overthrows : Int
  penaltyRuns : Int
  deriving DecidableEq

/-- The arguments `(runs, extraType, extras, physicalRuns)` of a `handleScoreBall` call. -/
structure ScoreCall where
  runs : Int
  extraType : Option ExtraType := none
  extras : Int := 0
  physicalRuns : Option Int := none
  deriving DecidableEq

/-- The part of the page state `handleScoreBall` reads. -/
structure PageState where
  innings : Innings
  batsmen : List BattingEntry
  bowler : Option BowlingEntry

/-- What the page shows in its error banner. -/
inductive UiError
  | setupNotComplete
  | cannotFindBatsmen
  | failedToRecord (e : Err)
  | selectWhoIsOut
  | failedToRecordWicket (e : Err)
  | uncaughtTypeError
  deriving DecidableEq

/-- The classification made by `handleAdvancedScoringSubmit`: the arguments it passes to
`handleScoreBall`. -/
def advancedScoringCall (a : AdvancedScoring) : ScoreCall :=
  let physicalRuns := a.baseRuns + a.overthrows
  match a.deliveryType with
  | .wide =>
    { runs := 0, extraType := some .wide
      extras := 1 + a.baseRuns + a.overthrows + a.penaltyRuns
      physicalRuns := some physicalRuns }
  | .no_ball =>
    match a.runsType with
    | .bat =>
      { runs := a.baseRuns + a.overthrows, extraType := some .no_ball
        extras := 1 + a.penaltyRuns, physicalRuns := some physicalRuns }
    | .bye =>
      { runs := 0, extraType := some .no_ball_bye
        extras := 1 + a.baseRuns + a.overthrows + a.penaltyRuns
        physicalRuns := some physicalRuns }
    | .leg_bye =>
      { runs := 0, extraType := some .no_ball_leg_bye
        extras := 1 + a.baseRuns + a.overthrows + a.penaltyRuns
        physicalRuns := some physicalRuns }
  | .normal =>
    match a.runsType with
    | .bat =>
      { runs := a.baseRuns + a.overthrows, extraType := none
        extras := a.penaltyRuns, physicalRuns := some physicalRuns }
    | .bye =>
      { runs := 0, extraType := some .bye
        extras := a.baseRuns + a.overthrows + a.penaltyRuns
        physicalRuns := some physicalRuns }
    | .leg_bye =>
      { runs := 0, extraType := some .leg_bye
        extras := a.baseRuns + a.overthrows + a.penaltyRuns
        physicalRuns := some physicalRuns }

/-- The guards of `handleScoreBall` and the object it passes to `recordBall` when they
pass. -/
def handleScoreBallData (page : PageState) (c : ScoreCall) : Except UiError BallData :=
  match page.bowler with
  | none => .error .setupNotComplete
  | some bowler =>
    if page.batsmen.length < 2 then .error .setupNotComplete
    else
      let activeBatsmen := page.batsmen.filter (fun b => !b.is_out)
      match activeBatsmen.find? (fun b => b.is_on_strike),
          activeBatsmen.find? (fun b => !b.is_on_strike) with
      | some striker, some nonStriker =>
        .ok
          { inningsId := page.innings.id
            batsmanId := striker.player_id
            bowlerId := bowler.player_id
            nonStrikerId := nonStriker.player_id
            runs := c.runs
            extras := c.extras
            extraType := c.extraType
            isWicket := false
            physicalRuns := c.physicalRuns }
      | _, _ => .error .cannotFindBatsmen

/-- The test `!extraType || (extraType !== 'wide' && extraType !== 'no_ball')`. -/
def isLegalDelivery : Option ExtraType → Bool
  | some .wide => false
  | some .no_ball => false
  | _ => true

/-- The result of a `handleScoreBall` call: the database afterwards, the error banner,
and whether the "Over complete" prompt was raised. -/
structure ScoreOutcome where
  db : DB
  error : Option UiError
  overComplete : Bool

/-- The page handler `handleScoreBall`. -/
def handleScoreBall (db : DB) (page : PageState) (c : ScoreCall) : ScoreOutcome :=
  match handleScoreBallData page c with
  | .error e => { db := db, error := some e, overComplete := false }
  | .ok ballData =>
    match recordBall db ballData with
    | (db1, .error e) => { db := db1, error := some (.failedToRecord e), overComplete := false }
    | (db1, .ok _) =>
      { db := db1
        error := none
        overComplete :=
          isLegalDelivery c.extraType &&
            (match page.bowler with
             | some bowler => jsMod (bowler.balls_bowled + 1) 6 == 0
             | none => false) }

/-- The page handler `handleAdvancedScoringSubmit`. -/
def handleAdvancedScoringSubmit (db : DB) (page : PageState) (a : AdvancedScoring) :
    ScoreOutcome :=
  handleScoreBall db page (advancedScoringCall a)

/-- The `wicketData` state of the page: who is out, how, and the fielder (`''` read as
none). -/
structure WicketData where
  outBatsmanId : Option RowId
  type : WicketType
  fielderId : Option RowId

/-- The page handler `handleWicketSubmit`, as far as the database, the error banner and
the "Over complete" prompt go: the handler has no over test, so the prompt is never
raised; the dialog it opens afterwards (new batsman or forced end of innings) is not part
of the outcome.  With no bowler loaded, `bowler.player_id` throws before anything is
written. -/
def handleWicketSubmit (db : DB) (page : PageState) (w : WicketData) : ScoreOutcome :=
  match w.outBatsmanId with
  | none => { db := db, error := some .selectWhoIsOut, overComplete := false }
  | some outBatsmanId =>
    let activeBatsmen := page.batsmen.filter (fun b => !b.is_out)
    match activeBatsmen.find? (fun b => b.is_on_strike),
        activeBatsmen.find? (fun b => !b.is_on_strike) with
    | some striker, some nonStriker =>
      match page.bowler with
      | none => { db := db, error := some .uncaughtTypeError, overComplete := false }
      | some bowler =>
        match recordBall db
            { inningsId := page.innings.id
              batsmanId := outBatsmanId
              bowlerId := bowler.player_id
              nonStrikerId :=
                if outBatsmanId == striker.player_id then nonStriker.player_id
                else striker.player_id
              runs := 0
              isWicket := true
              wicketType := some w.type
              fielderId := w.fielderId } with
        | (db1, .error e) =>
          { db := db1, error := some (.failedToRecordWicket e), overComplete := false }
        | (db1, .ok _) => { db := db1, error := none, overComplete := false }
    | _, _ => { db := db, error := some .cannotFindBatsmen, overComplete := false }

/-! ## changeBowler, switchStrike -/

/-- The service function `changeBowler`: every current bowler of the innings is unmarked;
then the row of the new bowler is marked current when exactly one such row exists, and a
new row marked current is inserted otherwise. -/
def changeBowler (db : DB) (inningsId newBowlerId : RowId) : DB × Except Err BowlingEntry :=
  let db1 : DB :=
    { db with bowling := db.bowling.map (fun b =>
        if b.innings_id == inningsId && b.is_current_bowler then
          { b with is_current_bowler := false }
        else b) }
  match findBowling db1 inningsId newBowlerId with
  | some existingBowler =>
    let db2 : DB :=
      { db1 with bowling := db1.bowling.map (fun b =>
          if b.id == existingBowler.id then { b with is_current_bowler := true } else b) }
    match single (db2.bowling.filter (fun b => b.id == existingBowler.id)) with
    | some data => (db2, .ok data)
    | none => (db2, .error .rowNotFound)
  | none =>
    let data := newBowlingEntry db1.nextId inningsId newBowlerId
    ({ db1 with bowling := db1.bowling ++ [data], nextId := db1.nextId + 1 }, .ok data)

/-- The service function `switchStrike`: with exactly two not-out batsmen the strike flags
are exchanged; when both carry the same flag the first is put on strike and the second
taken off. -/
def switchStrike (db : DB) (inningsId : RowId) : DB × Except Err Bool :=
  match currentBatsmen db.batting inningsId with
  | [b0, b1] =>
    match [b0, b1].find? (fun b => b.is_on_strike),
        [b0, b1].find? (fun b => !b.is_on_strike) with
    | some striker, some nonStriker =>
      ({ db with batting := setStrike db.batting striker.id nonStriker.id }, .ok true)
    | _, _ =>
      ({ db with
         batting :=
           (db.batting.map (fun b =>
             if b.id == b0.id then { b with is_on_strike := true } else b)).map
             (fun b => if b.id == b1.id then { b with is_on_strike := false } else b) },
       .ok true)
  | _ => (db, .error .expectedTwoBatsmen)

/-! ## endInnings, calculateMatchWinner, endMatch -/

def findMatch (db : DB) (matchId : RowId) : Option MatchRow :=
  single (db.matchRows.filter (fun m => m.id == matchId))

/-- The innings of a match under `order('inning_number', { ascending: true })`; rows with
equal `inning_number` keep their insertion order. -/
def inningsOfMatch (db : DB) (matchId : RowId) : List Innings :=
  (db.innings.filter (fun i => i.match_id == matchId)).insertionSort
    (fun a b => a.inning_number ≤ b.inning_number)

/-- The values `(winnerId, resultType, resultMargin, resultText)` chosen by
`calculateMatchWinner` from the first and the second innings. -/
def matchResult (firstInnings secondInnings : Innings) :
    Option RowId × ResultType × Int × ResultText :=
  if secondInnings.total_runs > firstInnings.total_runs then
    (some secondInnings.batting_team_id, .won_by_wickets,
      10 - secondInnings.total_wickets, .by_wickets (10 - secondInnings.total_wickets))
  else if firstInnings.total_runs > secondInnings.total_runs then
    (some firstInnings.batting_team_id, .won_by_runs,
      firstInnings.total_runs - secondInnings.total_runs,
      .by_runs (firstInnings.total_runs - secondInnings.total_runs))
  else (none, .tied, 0, .match_tied)

/-- The write "Update match with winner" of `calculateMatchWinner`. -/
def completeWithResult (now : Timestamp) (result : Option RowId × ResultType × Int × ResultText)
    (m : MatchRow) : MatchRow :=
  { m with
    status := .completed
    winner_id := result.1
    result_type := some result.2.1
    result_margin := some result.2.2.1
    result_text := some result.2.2.2
    ended_at := some now }

/-- The write of `calculateMatchWinner` when there are not two innings: status and
`ended_at` only. -/
def completeWithoutResult (now : Timestamp) (m : MatchRow) : MatchRow :=
  { m with status := .completed, ended_at := some now }

/-- The private function `calculateMatchWinner`.  With fewer than two innings the match
is only marked completed; otherwise the totals of the first two innings decide. -/
def calculateMatchWinner (db : DB) (matchId : RowId) : DB :=
  match inningsOfMatch db matchId with
  | firstInnings :: secondInnings :: _ =>
    { db with
      matchRows := db.matchRows.map (fun m =>
        if m.id == matchId then
          completeWithResult db.clock (matchResult firstInnings secondInnings) m
        else m)
      clock := db.clock + 1 }
  | _ =>
    { db with
      matchRows := db.matchRows.map (fun m =>
        if m.id == matchId then completeWithoutResult db.clock m else m)
      clock := db.clock + 1 }

/-- Modelled from the spec: the column defaults of `innings` (schema not part of the
sources): totals, extras and rates start at 0 and `ended_at` is null. -/
def newInnings (id matchId : RowId) (inningNumber : Int) (battingTeam bowlingTeam : RowId)
    (status : InningsStatus) : Innings :=
  { id := id, match_id := matchId, inning_number := inningNumber
    batting_team_id := battingTeam, bowling_team_id := bowlingTeam
    total_runs := 0, total_wickets := 0, total_balls := 0, total_overs := 0
    extras := 0, wides := 0, no_balls := 0, byes := 0, leg_byes := 0, run_rate := 0
    status := status, ended_at := none }

/-- The `data` of a successful `endInnings`: `{ nextInning: 2, inningsId }` or
`{ matchComplete: true }`. -/
inductive EndInningsData
  | nextInning (inningsId : RowId)
  | matchComplete
  deriving DecidableEq

/-- The service function `endInnings`. -/
def endInnings (db : DB) (matchId inningsId : RowId) : DB × Except Err EndInningsData :=
  let db1 : DB :=
    { db with
      innings := db.innings.map (fun i =>
        if i.id == inningsId then { i with status := .completed, ended_at := some db.clock }
        else i)
      clock := db.clock + 1 }
  match findMatch db1 matchId with
  | none => (db1, .error .rowNotFound)
  | some m =>
    if m.current_inning == 1 then
      match findInnings db1 inningsId with
      | none => (db1, .error .typeError)
      | some completedInnings =>
        let newInning :=
          newInnings db1.nextId matchId 2 completedInnings.bowling_team_id
            completedInnings.batting_team_id .in_progress
        ({ db1 with
           matchRows := db1.matchRows.map (fun r =>
             if r.id == matchId then { r with current_inning := 2 } else r)
           innings := db1.innings ++ [newInning]
           nextId := db1.nextId + 1 },
         .ok (.nextInning newInning.id))
    else (calculateMatchWinner db1 matchId, .ok .matchComplete)

/-- The service function `endMatch`. -/
def endMatch (db : DB) (matchId : RowId) : DB × Except Err Bool :=
  let db1 : DB :=
    { db with
      innings := db.innings.map (fun i =>
        if i.match_id == matchId && i.status == .in_progress then
          { i with status := .completed, ended_at := some db.clock }
        else i)
      clock := db.clock + 1 }
  (calculateMatchWinner db1 matchId, .ok true)

/-! ## pointsTableService: calculateNRR, getPointsTable -/

/-- The function `calculateNRR`, on exact rationals. -/
def calculateNRR (runsScored oversFaced runsConceded oversBowled : ℚ) : ℚ :=
  if oversFaced = 0 ∧ oversBowled = 0 then 0
  else
    let runRate := if oversFaced > 0 then runsScored / oversFaced else 0
    let concededRate := if oversBowled > 0 then runsConceded / oversBowled else 0
    runRate - concededRate

/-- A row of the `teams` query; the display columns `short_name` and `logo` are left
out. -/
structure TeamRow where
  id : RowId
  name : String
  deriving DecidableEq

/-- A row of the `matches` query of `getPointsTable` with its embedded `innings`. -/
structure MatchWithInnings where
  row : MatchRow
  innings : List Innings

/-- The value kept in `standings[team.id]`. -/
structure Standing where
  team : TeamRow
  played : Int
  won : Int
  lost : Int
  tied : Int
  noResult : Int
  runsScored : Int
  oversFaced : ℚ
  runsConceded : Int
  oversBowled : ℚ
  points : Int
  nrr : ℚ

/-- A row of the returned table: the standing with `nrr` formatted and the `position`
added. -/
structure PointsTableRow extends Standing where
  position : Nat

/-- The completed, non-archived matches with the innings rows of each, as selected by the
first query of `getPointsTable`. -/
def completedMatches (db : DB) : List MatchWithInnings :=
  (db.matchRows.filter (fun m => m.status == .completed && !m.archived)).map (fun m =>
    { row := m, innings := db.innings.filter (fun i => i.match_id == m.id) })

/-- The entry `standings[team.id] = { ... }` created for a team. -/
def initialStanding (team : TeamRow) : Standing :=
  { team := team, played := 0, won := 0, lost := 0, tied := 0, noResult := 0
    runsScored := 0, oversFaced := 0, runsConceded := 0, oversBowled := 0
    points := 0, nrr := 0 }

/-- The guarded update `if (standings[teamId]) standings[teamId] = f(...)` seen on one
entry: the entry of that team is rewritten, any other entry is left alone. -/
def bumpRow (teamId : RowId) (f : Standing → Standing) (s : Standing) : Standing :=
  if s.team.id == teamId then f s else s

/-- The guarded update `if (standings[teamId]) ...` on the whole object. -/
def bump (standings : List Standing) (teamId : RowId) (f : Standing → Standing) :
    List Standing :=
  standings.map (bumpRow teamId f)

def addPlayed (s : Standing) : Standing := { s with played := s.played + 1 }

def addTied (s : Standing) : Standing := { s with tied := s.tied + 1, points := s.points + 1 }

def addWon (s : Standing) : Standing := { s with won := s.won + 1, points := s.points + 2 }

def addLost (s : Standing) : Standing := { s with lost := s.lost + 1 }

def addBatted (inning : Innings) (s : Standing) : Standing :=
  { s with
    runsScored := s.runsScored + inning.total_runs
    oversFaced := s.oversFaced + inning.total_overs }

def addBowled (inning : Innings) (s : Standing) : Standing :=
  { s with
    runsConceded := s.runsConceded + inning.total_runs
    oversBowled := s.oversBowled + inning.total_overs }

/-- The body of `matches.forEach(match => ...)`. -/
def processMatch (standings : List Standing) (m : MatchWithInnings) : List Standing :=
  let s1 := bump standings m.row.team1_id addPlayed
  let s2 := bump s1 m.row.team2_id addPlayed
  let s3 :=
    if m.row.result_type == some .tied then
      bump (bump s2 m.row.team1_id addTied) m.row.team2_id addTied
    else
      match m.row.winner_id with
      | some winnerId =>
        let loserId := if winnerId == m.row.team1_id then m.row.team2_id else m.row.team1_id
        bump (bump s2 winnerId addWon) loserId addLost
      | none => s2
  m.innings.foldl
    (fun s inning =>
      bump (bump s inning.batting_team_id (addBatted inning)) inning.bowling_team_id
        (addBowled inning))
    s3

/-- The win/loss/tie branch of `processMatch` seen on one entry. -/
def resultStep (m : MatchRow) (s : Standing) : Standing :=
  if m.result_type == some .tied then
    bumpRow m.team2_id addTied (bumpRow m.team1_id addTied s)
  else
    match m.winner_id with
    | some winnerId =>
      bumpRow (if winnerId == m.team1_id then m.team2_id else m.team1_id) addLost
        (bumpRow winnerId addWon s)
    | none => s

/-- The body of `match.innings.forEach` seen on one entry. -/
def inningsStep (s : Standing) (inning : Innings) : Standing :=
  bumpRow inning.bowling_team_id (addBowled inning)
    (bumpRow inning.batting_team_id (addBatted inning) s)

/-- The whole of `processMatch` seen on one entry. -/
def matchStep (s : Standing) (m : MatchWithInnings) : Standing :=
  m.innings.foldl inningsStep
    (resultStep m.row (bumpRow m.row.team2_id addPlayed (bumpRow m.row.team1_id addPlayed s)))

/-- The comparator of the final sort read as "`a` may stand before `b`":
`(b.points !== a.points ? b.points - a.points : b.nrr - a.nrr) <= 0`. -/
def rankBefore (a b : Standing) : Prop :=
  if b.points ≠ a.points then b.points < a.points else b.nrr ≤ a.nrr

instance (a b : Standing) : Decidable (rankBefore a b) := by
  unfold rankBefore
  infer_instance

/-- The number shown by `toFixed(3)`: the nearest multiple of 1/1000, a tie going away
from zero. -/
def toFixed3 (q : ℚ) : ℚ :=
  if q < 0 then -((⌊-q * 1000 + 1 / 2⌋ : Int) : ℚ) / 1000
  else ((⌊q * 1000 + 1 / 2⌋ : Int) : ℚ) / 1000

/-- The function `getPointsTable`, from the database and the rows of the `teams` query in
the order the query returns them.  The teams' ids being UUID keys, `Object.values` lists
the standings in that order; the sort is stable. -/
def getPointsTable (db : DB) (teams : List TeamRow) : List PointsTableRow :=
  let standings := (completedMatches db).foldl processMatch (teams.map initialStanding)
  let standings := standings.map (fun team =>
    { team with
      nrr := calculateNRR team.runsScored team.oversFaced team.runsConceded team.oversBowled })
  let pointsTableArray :=
    (standings.filter (fun team => team.played > 0)).insertionSort rankBefore
  pointsTableArray.mapIdx (fun index team =>
    { toStanding := { team with nrr := toFixed3 team.nrr }, position := index + 1 })

/-! ## Scoring sessions -/

/-- One call made by the scoring page during an innings. -/
inductive ScoringOp
  | ball (ballData : BallData)
  | bowler (inningsId newBowlerId : RowId)
  | batsman (inningsId playerId : RowId)
  | strike (inningsId : RowId)
  | undo (inningsId : RowId)

/-- The database left by one call, whether it succeeded or failed. -/
def ScoringOp.run (db : DB) : ScoringOp → DB
  | .ball ballData => (recordBall db ballData).1
  | .bowler inningsId newBowlerId => (changeBowler db inningsId newBowlerId).1
  | .batsman inningsId playerId => (addNewBatsman db inningsId playerId).1
  | .strike inningsId => (switchStrike db inningsId).1
  | .undo inningsId => (undoLastAction db inningsId).1

/-- The database left by a sequence of calls. -/
def runOps (db : DB) (ops : List ScoringOp) : DB := ops.foldl ScoringOp.run db

/-- The bowling entries of an innings that are marked current. -/
def currentBowlers (db : DB) (inningsId : RowId) : List BowlingEntry :=
  db.bowling.filter (fun b => b.innings_id == inningsId && b.is_current_bowler)

/-- The players of the bowling entries of an innings, one item per entry. -/
def bowlersOf (db : DB) (inningsId : RowId) : List RowId :=
  (db.bowling.filter (fun b => b.innings_id == inningsId)).map (fun b => b.player_id)

/-- Row ids of the bowling table are pairwise distinct and below the id counter, as for
ids handed out by the database. -/
def bowlingIdsFresh (db : DB) : Prop :=
  (db.bowling.map (fun b => b.id)).Nodup ∧ ∀ b ∈ db.bowling, b.id < db.nextId

/-- The current-bowler invariant of an innings, together with the freshness of bowling
row ids it is maintained with: exactly one entry of the innings is marked current, and no
player has two entries in the innings. -/
def bowlerInvariant (db : DB) (inningsId : RowId) : Prop :=
  bowlingIdsFresh db ∧ (currentBowlers db inningsId).length = 1 ∧
    (bowlersOf db inningsId).Nodup

/-- The page state `fetchInningsData` loads through `getCurrentInnings` for an innings:
the innings row, all batting rows of the innings, and the bowler marked current
(`.single()`).  Batting rows are taken in table order, which is the order of
`batting_position` for rows made by `initializeInnings` and `addNewBatsman`. -/
def pageLoaded (db : DB) (inningsId : RowId) : Option PageState :=
  (findInnings db inningsId).map (fun innings =>
    { innings := innings
      batsmen := db.batting.filter (fun b => b.innings_id == inningsId)
      bowler := single (currentBowlers db inningsId) })

/-- The not-out batting entries of an innings that are on strike. -/
def strikers (db : DB) (inningsId : RowId) : List BattingEntry :=
  (currentBatsmen db.batting inningsId).filter (fun b => b.is_on_strike)

/-- The partnerships of an innings that are marked current. -/
def currentPartnerships (db : DB) (inningsId : RowId) : List Partnership :=
  db.partnerships.filter (fun p => p.innings_id == inningsId && p.is_current)

/-- The ledger of an innings: its ball rows, oldest first. -/
def ledger (db : DB) (inningsId : RowId) : List Ball :=
  db.balls.filter (fun b => b.innings_id == inningsId)

/-- The replay of a ledger as the spec words it: the sum of `runs_scored + extras` over
the rows. -/
def replayRuns (rows : List Ball) : Int :=
  (rows.map (fun b => b.runs_scored + b.extras)).sum

/-- The replay of a ledger as the spec words it: the number of rows whose `extra_type` is
none, bye or leg_bye. -/
def replayLegalBalls (rows : List Ball) : Int :=
  ((rows.filter (fun b =>
    b.extra_type == none || b.extra_type == some .bye || b.extra_type == some .leg_bye)).length :
    Int)

/-- The replay of a ledger as the spec words it: the number of rows with `is_wicket`. -/
def replayWickets (rows : List Ball) : Int :=
  ((rows.filter (fun b => b.is_wicket)).length : Int)

/-- The replay of a ledger as the spec words it: the sum of `runs_scored` over the rows. -/
def replayBatRuns (rows : List Ball) : Int :=
  (rows.map (fun b => b.runs_scored)).sum

/-- The rows of a ledger that carry a given `batsman_id`. -/
def facedBy (rows : List Ball) (playerId : RowId) : List Ball :=
  rows.filter (fun b => b.batsman_id == playerId)

/-- The rows of a ledger that carry a given `bowler_id`. -/
def bowledBy (rows : List Ball) (playerId : RowId) : List Ball :=
  rows.filter (fun b => b.bowler_id == playerId)

/-- Whether a call belongs to a session without undo in which every `recordBall`
succeeded: a delivery that is recorded, a bowler change, a strike switch, or a new
batsman who has no batting row in the innings yet. -/
def replayStep (db : DB) : ScoringOp → Bool
  | .ball ballData => (recordBall db ballData).2.toBool
  | .bowler _ _ => true
  | .batsman inningsId playerId =>
    db.batting.all (fun b => !(b.innings_id == inningsId && b.player_id == playerId))
  | .strike _ => true
  | .undo _ => false

/-- Whether every call of a session is a `replayStep` in the database it is made on. -/
def replaySession (db : DB) : List ScoringOp → Bool
  | [] => true
  | op :: ops => replayStep db op && replaySession (op.run db) ops

/-- An innings nothing has been scored on: no ball row, no batting row and no bowling row
refers to it, and its own row (if there is one) has zero runs, balls and wickets. -/
def freshInnings (db : DB) (inningsId : RowId) : Bool :=
  db.balls.all (fun b => b.innings_id != inningsId) &&
  db.batting.all (fun b => b.innings_id != inningsId) &&
  db.bowling.all (fun b => b.innings_id != inningsId) &&
  db.innings.all (fun i =>
    i.id != inningsId || (i.total_runs == 0 && i.total_balls == 0 && i.total_wickets == 0))

/-- The replay law of an innings: the totals of its innings row, the figures of each of
its batting rows and the figures of each of its bowling rows are the replay of the
ledger. -/
def replayLaw (db : DB) (inningsId : RowId) : Prop :=
  (∀ i ∈ db.innings, i.id = inningsId →
    i.total_runs = replayRuns (ledger db inningsId) ∧
    i.total_balls = replayLegalBalls (ledger db inningsId) ∧
    i.total_wickets = replayWickets (ledger db inningsId)) ∧
  (∀ b ∈ db.batting, b.innings_id = inningsId →
    b.runs_scored = replayBatRuns (facedBy (ledger db inningsId) b.player_id) ∧
    b.balls_faced = replayLegalBalls (facedBy (ledger db inningsId) b.player_id)) ∧
  (∀ b ∈ db.bowling, b.innings_id = inningsId →
    b.runs_conceded = replayRuns (bowledBy (ledger db inningsId) b.player_id) ∧
    b.balls_bowled = replayLegalBalls (bowledBy (ledger db inningsId) b.player_id))

instance (db : DB) (inningsId : RowId) : Decidable (replayLaw db inningsId) := by
  unfold replayLaw
  infer_instance

/-- Every batsman and every bowler named by a ledger row of the innings has exactly one
row in the innings. -/
def ledgerPlayersKnown (db : DB) (inningsId : RowId) : Prop :=
  ∀ b ∈ ledger db inningsId,
    (findBatting db inningsId b.batsman_id).isSome = true ∧
    (findBowling db inningsId b.bowler_id).isSome = true

instance (db : DB) (inningsId : RowId) : Decidable (ledgerPlayersKnown db inningsId) := by
  unfold ledgerPlayersKnown
  infer_instance

/-- The replay law together with the fact it is maintained with. -/
def replayInvariant (db : DB) (inningsId : RowId) : Prop :=
  replayLaw db inningsId ∧ ledgerPlayersKnown db inningsId

/-! ## Scenarios -/

/-- A live match with a first innings that has been started but not yet set up. -/
def dbEmptyInnings : DB :=
  { matchRows :=
      [{ id := 1, team1_id := 1, team2_id := 2, current_inning := 1, overs_per_side := 20
         status := .live, winner_id := none, result_type := none, result_margin := none
         archived := false, ended_at := none }]
    innings :=
      [{ id := 1, match_id := 1, inning_number := 1, batting_team_id := 1
         bowling_team_id := 2, total_runs := 0, total_wickets := 0, total_balls := 0
         total_overs := 0, extras := 0, wides := 0, no_balls := 0, byes := 0, leg_byes := 0
         run_rate := 0, status := .in_progress, ended_at := none }]
    nextId := 100 }

/-- The innings after `initializeInnings` with openers 10 (on strike) and 11 and bowler
20. -/
def dbStart : DB := initializeInnings dbEmptyInnings 1 10 11 20

/-- The page state loaded from `dbStart`. -/
def pageStart : PageState :=
  { innings :=
      { id := 1, match_id := 1, inning_number := 1, batting_team_id := 1
        bowling_team_id := 2, total_runs := 0, total_wickets := 0, total_balls := 0
        total_overs := 0, extras := 0, wides := 0, no_balls := 0, byes := 0, leg_byes := 0
        run_rate := 0, status := .in_progress, ended_at := none }
    batsmen := dbStart.batting
    bowler := dbStart.bowling.head? }

/-- A wide on which the batsmen ran two: credit 0, extras 3. -/
def wideForTwo : BallData :=
  { inningsId := 1, batsmanId := 10, bowlerId := 20, nonStrikerId := 11
    runs := 0, extras := 3, extraType := some .wide, physicalRuns := some 2 }

/-- A no-ball hit for four: credit 4, extras 1. -/
def noBallForFour : BallData :=
  { inningsId := 1, batsmanId := 10, bowlerId := 20, nonStrikerId := 11
    runs := 4, extras := 1, extraType := some .no_ball, physicalRuns := some 4 }

/-- The plain run button "1": `handleScoreBall(1)`, which passes `physicalRuns: null`. -/
def plainSingle : BallData :=
  { inningsId := 1, batsmanId := 10, bowlerId := 20, nonStrikerId := 11, runs := 1 }

/-- The simple extras button "Leg Bye": `handleScoreBall(0, 'leg_bye', 1, 1)`. -/
def legByeOne : BallData :=
  { inningsId := 1, batsmanId := 10, bowlerId := 20, nonStrikerId := 11
    runs := 0, extras := 1, extraType := some .leg_bye, physicalRuns := some 1 }

/-- The wicket dialog with the striker bowled, as sent by `handleWicketSubmit`. -/
def strikerBowled : BallData :=
  { inningsId := 1, batsmanId := 10, bowlerId := 20, nonStrikerId := 11
    runs := 0, isWicket := true, wicketType := some .bowled }

/-- The first ball of the over after `plainSingle`, faced by batsman 11: the run button
"0". -/
def dotToEleven : BallData :=
  { inningsId := 1, batsmanId := 11, bowlerId := 20, nonStrikerId := 10, runs := 0 }

/-- The set-up innings of `dbStart` with its status already `completed`. -/
def dbCompleted : DB :=
  { dbStart with innings := dbStart.innings.map (fun i => { i with status := .completed }) }

/-- The set-up innings of `dbStart` with batsman 11 already out and no bowling row
marked current. -/
def dbOneOutNoCurrentBowler : DB :=
  { dbStart with
    batting := dbStart.batting.map (fun b =>
      if b.player_id == 11 then { b with is_out := true } else b)
    bowling := dbStart.bowling.map (fun b => { b with is_current_bowler := false }) }

/-- A page whose batsmen list holds the two openers, one of them already out, and a
current bowler. -/
def pageOneOut : PageState :=
  { pageStart with
    batsmen := pageStart.batsmen.map (fun b =>
      if b.player_id == 10 then { b with is_out := true } else b) }

/-- A second innings row for match 1, team 2 batting, with the given total and wickets. -/
def secondInningsRow (runs wickets : Int) : Innings :=
  { newInnings 2 1 2 2 1 .in_progress with total_runs := runs, total_wickets := wickets }

/-- Match 1 with first innings 145 all out (completed) and second innings 148 for 4. -/
def dbChase : DB :=
  { dbEmptyInnings with
    matchRows := dbEmptyInnings.matchRows.map (fun m => { m with current_inning := 2 })
    innings :=
      [{ newInnings 1 1 1 1 2 .completed with total_runs := 145, total_wickets := 10 },
       secondInningsRow 148 4] }

/-- Match 1 with both innings on 150, for 7 and for 3 wickets. -/
def dbLevel : DB :=
  { dbEmptyInnings with
    matchRows := dbEmptyInnings.matchRows.map (fun m => { m with current_inning := 2 })
    innings :=
      [{ newInnings 1 1 1 1 2 .completed with total_runs := 150, total_wickets := 7 },
       secondInningsRow 150 3] }

/-- A session on innings 1: a single, a change to bowler 21, a change back to bowler 20, a
change to the bowler who is already current, an undo, a wicket, a new batsman and a
strike switch. -/
def sessionOps : List ScoringOp :=
  [.ball plainSingle, .bowler 1 21, .bowler 1 20, .bowler 1 20, .undo 1,
   .ball strikerBowled, .batsman 1 12, .strike 1]

/-- A completed match row between two teams. -/
def finishedMatch (id team1 team2 : RowId) (winner : Option RowId) (result : ResultType)
    (archived : Bool) : MatchRow :=
  { id := id, team1_id := team1, team2_id := team2, current_inning := 2, overs_per_side := 20
    status := .completed, winner_id := winner, result_type := some result
    result_margin := none, archived := archived, ended_at := none }

/-- A completed innings row with its total and overs. -/
def finishedInnings (id matchId : RowId) (number : Int) (batting bowling : RowId)
    (runs : Int) (overs : ℚ) : Innings :=
  { newInnings id matchId number batting bowling .completed with
    total_runs := runs, total_overs := overs }

/-- A season of three completed matches: team 1 beat team 2 by runs, teams 2 and 3 tied,
and an archived match won by team 3 that the table must ignore. -/
def dbSeason : DB :=
  { matchRows :=
      [finishedMatch 1 1 2 (some 1) .won_by_runs false,
       finishedMatch 2 2 3 none .tied false,
       finishedMatch 3 3 1 (some 3) .won_by_wickets true]
    innings :=
      [finishedInnings 11 1 1 1 2 150 20, finishedInnings 12 1 2 2 1 140 20,
       finishedInnings 21 2 1 2 3 120 20, finishedInnings 22 2 2 3 2 120 20,
       finishedInnings 31 3 1 1 3 90 20, finishedInnings 32 3 2 3 1 91 15]
    nextId := 100 }

def seasonTeams : List TeamRow :=
  [{ id := 1, name := "Alpha" }, { id := 2, name := "Bravo" }, { id := 3, name := "Charlie" },
   { id := 4, name := "Delta" }]

/-- The run button "0" with batsman 10 on strike. -/
def dotBall : BallData :=
  { inningsId := 1, batsmanId := 10, bowlerId := 20, nonStrikerId := 11, runs := 0 }

/-- The innings of `dbStart` after five dot balls from bowler 20. -/
def dbFiveDots : DB := runOps dbStart (List.replicate 5 (.ball dotBall))

/-- The innings of `dbStart` after eight dot balls. -/
def dbEightDots : DB := runOps dbStart (List.replicate 8 (.ball dotBall))

/-- The advanced-scoring dialog set to a no-ball with one bye run. -/
def noBallByeOne : AdvancedScoring :=
  { deliveryType := .no_ball, runsType := .bye, baseRuns := 1, overthrows := 0
    penaltyRuns := 0 }

/-- The wicket dialog with batsman 10 bowled. -/
def tenBowled : WicketData := { outBatsmanId := some 10, type := .bowled, fielderId := none }

/-- A normal delivery with no run off the bat and the 5 penalty runs of the
advanced-scoring dialog: `handleScoreBall(0, null, 5, 0)`. -/
def penaltyFive : BallData :=
  { inningsId := 1, batsmanId := 10, bowlerId := 20, nonStrikerId := 11
    runs := 0, extras := 5, extraType := none, physicalRuns := some 0 }

/-- The wicket dialog with the non-striker 11 run out, as sent by `handleWicketSubmit`. -/
def nonStrikerRunOut : BallData :=
  { inningsId := 1, batsmanId := 11, bowlerId := 20, nonStrikerId := 10
    runs := 0, isWicket := true, wicketType := some .run_out }

/-- The wicket dialog with batsman 12 bowled while batting with 11. -/
def twelveBowled : BallData :=
  { inningsId := 1, batsmanId := 12, bowlerId := 20, nonStrikerId := 11
    runs := 0, isWicket := true, wicketType := some .bowled }

/-- Match 1 of `dbStart` played over a single over per side. -/
def dbOneOver : DB :=
  { dbStart with matchRows := dbStart.matchRows.map (fun m => { m with overs_per_side := 1 }) }

/-- A match ended by hand after a single innings: completed, with no winner and no result
type, as `endMatch` leaves it. -/
def dbAbandoned : DB :=
  { matchRows :=
      [{ id := 1, team1_id := 1, team2_id := 2, current_inning := 1, overs_per_side := 20
         status := .completed, winner_id := none, result_type := none, result_margin := none
         archived := false, ended_at := none }]
    innings := [finishedInnings 11 1 1 1 2 150 20]
    nextId := 100 }

/-- A session without undo on the freshly set-up innings: a single, a dot ball to batsman
11, a change to bowler 21, a no-ball hit for four, the striker bowled, batsman 12 coming
in, and a strike switch. -/
def replayOps : List ScoringOp :=
  [.ball plainSingle, .ball dotToEleven, .bowler 1 21, .ball noBallForFour,
   .ball strikerBowled, .batsman 1 12, .strike 1]

/-! ## Theorems -/

/-! ### Queries over updated tables -/

theorem single_map {α β : Type} (f : α → β) (l : List α) :
    single (l.map f) = (single l).map f := by
  match l with
  | [] => rfl
  | [_] => rfl
  | _ :: _ :: _ => rfl

theorem single_eq_some {α : Type} {l : List α} {x : α} (h : single l = some x) : l = [x] := by
  match l, h with
  | [_], h => simp only [single, Option.some.injEq] at h; rw [h]

/-- Selecting after an update that does not change the selection key of any row of the
table is updating the selected rows. -/
theorem filter_map_of_key_mem {α : Type} (p : α → Bool) (f : α → α) (l : List α)
    (hf : ∀ x ∈ l, p (f x) = p x) : (l.map f).filter p = (l.filter p).map f := by
  induction l with
  | nil => rfl
  | cons x xs ih =>
    have hx := hf x (List.mem_cons_self _ _)
    have ih := ih (fun y hy => hf y (List.mem_cons_of_mem _ hy))
    simp only [List.map_cons, List.filter_cons, hx, ih]
    split <;> simp

theorem filter_map_of_key {α : Type} (p : α → Bool) (f : α → α) (hf : ∀ x, p (f x) = p x)
    (l : List α) : (l.map f).filter p = (l.filter p).map f :=
  filter_map_of_key_mem p f l (fun x _ => hf x)

theorem single_filter_map_of_key {α : Type} (p : α → Bool) (f : α → α)
    (hf : ∀ x, p (f x) = p x) (l : List α) :
    single ((l.map f).filter p) = (single (l.filter p)).map f := by
  rw [filter_map_of_key p f hf, single_map]

/-- JavaScript's `n % 2 !== 0` holds exactly for the odd integers, negative ones
included. -/
theorem jsMod_two_ne_zero_iff (n : Int) : jsMod n 2 ≠ 0 ↔ Odd n := by
  unfold jsMod
  rw [← Int.not_even_iff_odd, even_iff_two_dvd, Int.dvd_iff_tmod_eq_zero]

theorem shouldRotateStrike_iff (d : BallData) :
    shouldRotateStrike d = true ↔ d.isWicket = false ∧ Odd (d.physicalRuns.getD d.runs) := by
  unfold shouldRotateStrike
  rw [← jsMod_two_ne_zero_iff]
  simp

/-- Rows of a table with pairwise distinct ids are determined by their id. -/
theorem eq_of_id_eq {l : List BattingEntry} (hids : (l.map (fun b => b.id)).Nodup)
    {x y : BattingEntry} (hx : x ∈ l) (hy : y ∈ l) (h : x.id = y.id) : x = y :=
  List.inj_on_of_nodup_map hids hx hy h

/-- The strike swap rewrites nothing but `is_on_strike`, row by row. -/
theorem rotateStrike_eq_map (batting : List BattingEntry) (inningsId : RowId) :
    ∃ f : BattingEntry → BattingEntry,
      rotateStrike batting inningsId = batting.map f ∧
      ∀ b, ∃ s, f b = { b with is_on_strike := s } := by
  unfold rotateStrike
  dsimp only
  split
  · split
    · rename_i striker nonStriker _ _
      refine ⟨fun b =>
        (fun b => if b.id == nonStriker.id then { b with is_on_strike := true } else b)
          ((fun b => if b.id == striker.id then { b with is_on_strike := false } else b) b),
        ?_, ?_⟩
      · simp [setStrike, List.map_map, Function.comp_def]
      · intro b
        dsimp only
        split_ifs <;> exact ⟨_, rfl⟩
    · exact ⟨id, by simp, fun b => ⟨b.is_on_strike, rfl⟩⟩
  · exact ⟨id, by simp, fun b => ⟨b.is_on_strike, rfl⟩⟩

/-- What a successful `recordBall` read and wrote, table by table. -/
theorem recordBall_ok {db db' : DB} {d : BallData} {ball : Ball}
    (h : recordBall db d = (db', .ok ball)) :
    ∃ innings batsmanBefore bowlerBefore,
      findInnings db d.inningsId = some innings ∧
      findBatting db d.inningsId d.batsmanId = some batsmanBefore ∧
      findBowling db d.inningsId d.bowlerId = some bowlerBefore ∧
      ball = ballRow (db.nextId + 1) innings d ∧
      db'.innings = db.innings.map (fun i =>
        if i.id == d.inningsId then inningsAfterBall innings d i else i) ∧
      db'.batting =
        (if shouldRotateStrike d then
          rotateStrike (db.batting.map (fun b =>
            if b.innings_id == d.inningsId && b.player_id == d.batsmanId then
              batsmanAfterBall batsmanBefore d b
            else b)) d.inningsId
        else
          db.batting.map (fun b =>
            if b.innings_id == d.inningsId && b.player_id == d.batsmanId then
              batsmanAfterBall batsmanBefore d b
            else b)) ∧
      db'.bowling = db.bowling.map (fun b =>
        if b.innings_id == d.inningsId && b.player_id == d.bowlerId then
          bowlerAfterBall bowlerBefore d b
        else b) ∧
      db'.partnerships =
        (if d.isWicket then
          endCurrentPartnership (partnershipsAfterBall db.partnerships d) d.inningsId db.clock
        else partnershipsAfterBall db.partnerships d) ∧
      db'.balls = db.balls ++ [ball] ∧
      db'.history = db.history ++ [journalEntry db innings d] ∧
      db'.matchRows = db.matchRows ∧
      db'.nextId = db.nextId + 2 ∧
      db'.clock = db.clock + 1 := by
  unfold recordBall at h
  split at h
  · cases h
  · rename_i innings hi
    dsimp only at h
    split at h
    · cases h
    · rename_i batsmanBefore hb
      split at h
      · cases h
      · rename_i bowlerBefore hw
        injection h with h1 h2
        injection h2 with h2
        subst h1 h2
        exact ⟨innings, batsmanBefore, bowlerBefore, hi, hb, hw, rfl, rfl, rfl, rfl, rfl, rfl,
          rfl, rfl, rfl, rfl⟩

/-- The call `recordBall` succeeds as soon as the innings id, the batsman id and the
bowler id each select exactly one row; nothing else is tested. -/
theorem recordBall_succeeds {db : DB} {d : BallData} {innings : Innings}
    {batsmanBefore : BattingEntry} {bowlerBefore : BowlingEntry}
    (hi : findInnings db d.inningsId = some innings)
    (hb : findBatting db d.inningsId d.batsmanId = some batsmanBefore)
    (hw : findBowling db d.inningsId d.bowlerId = some bowlerBefore) :
    ∃ db', recordBall db d = (db', .ok (ballRow (db.nextId + 1) innings d)) := by
  have hb2 : ∀ (h : List ActionHistoryEntry) (bs : List Ball) (n : RowId),
      findBatting { db with history := h, balls := bs, nextId := n } d.inningsId d.batsmanId =
        some batsmanBefore := fun _ _ _ => hb
  have hw3 : ∀ (h : List ActionHistoryEntry) (bs : List Ball) (n : RowId)
      (bt : List BattingEntry),
      findBowling { db with history := h, balls := bs, nextId := n, batting := bt }
        d.inningsId d.bowlerId = some bowlerBefore := fun _ _ _ _ => hw
  unfold recordBall
  rw [hi]
  dsimp only
  rw [hb2]
  dsimp only
  rw [hw3]
  exact ⟨_, rfl⟩

/-- After a successful `recordBall` the innings row, the striker's row and the bowler's
row are the rows read before, rewritten by the three stat updates (and by the strike swap,
which touches `is_on_strike` only). -/
theorem recordBall_ok_lookups {db db' : DB} {d : BallData} {ball : Ball}
    (h : recordBall db d = (db', .ok ball)) :
    ∃ innings batsmanBefore bowlerBefore s,
      findInnings db d.inningsId = some innings ∧
      findBatting db d.inningsId d.batsmanId = some batsmanBefore ∧
      findBowling db d.inningsId d.bowlerId = some bowlerBefore ∧
      ball = ballRow (db.nextId + 1) innings d ∧
      findInnings db' d.inningsId = some (inningsAfterBall innings d innings) ∧
      findBatting db' d.inningsId d.batsmanId =
        some { batsmanAfterBall batsmanBefore d batsmanBefore with is_on_strike := s } ∧
      findBowling db' d.inningsId d.bowlerId = some (bowlerAfterBall bowlerBefore d bowlerBefore) := by
  obtain ⟨innings, batsmanBefore, bowlerBefore, hi, hb, hw, hball, hI, hB, hW, -⟩ :=
    recordBall_ok h
  have hi' : findInnings db' d.inningsId = some (inningsAfterBall innings d innings) := by
    have hid : innings.id = d.inningsId := by
      have := single_eq_some hi
      have hm : innings ∈ db.innings.filter (fun i => i.id == d.inningsId) := by
        rw [this]; exact List.mem_singleton_self _
      simpa using (List.mem_filter.mp hm).2
    unfold findInnings at hi ⊢
    rw [hI, single_filter_map_of_key, hi]
    · simp [hid]
    · intro x
      by_cases hx : x.id = d.inningsId <;> simp [hx, inningsAfterBall]
  have hkey : batsmanBefore.innings_id = d.inningsId ∧ batsmanBefore.player_id = d.batsmanId := by
    have := single_eq_some hb
    have hm : batsmanBefore ∈ db.batting.filter
        (fun b => b.innings_id == d.inningsId && b.player_id == d.batsmanId) := by
      rw [this]; exact List.mem_singleton_self _
    simpa using (List.mem_filter.mp hm).2
  have hb1 : single ((db.batting.map (fun b =>
      if b.innings_id == d.inningsId && b.player_id == d.batsmanId then
        batsmanAfterBall batsmanBefore d b
      else b)).filter (fun b => b.innings_id == d.inningsId && b.player_id == d.batsmanId)) =
      some (batsmanAfterBall batsmanBefore d batsmanBefore) := by
    unfold findBatting at hb
    rw [single_filter_map_of_key, hb]
    · simp [hkey.1, hkey.2]
    · intro x
      by_cases hx : x.innings_id = d.inningsId ∧ x.player_id = d.batsmanId
      · simp [hx.1, hx.2, batsmanAfterBall]
      · have hx' : ¬ ((x.innings_id == d.inningsId && x.player_id == d.batsmanId) = true) := by
          simpa using hx
        rw [if_neg hx']
  have hb' : ∃ s, findBatting db' d.inningsId d.batsmanId =
      some { batsmanAfterBall batsmanBefore d batsmanBefore with is_on_strike := s } := by
    unfold findBatting
    rw [hB]
    split
    · obtain ⟨f, hf, hfs⟩ := rotateStrike_eq_map (db.batting.map (fun b =>
        if b.innings_id == d.inningsId && b.player_id == d.batsmanId then
          batsmanAfterBall batsmanBefore d b
        else b)) d.inningsId
      obtain ⟨s, hs⟩ := hfs (batsmanAfterBall batsmanBefore d batsmanBefore)
      refine ⟨s, ?_⟩
      rw [hf, single_filter_map_of_key, hb1, Option.map_some', hs]
      intro x
      obtain ⟨t, ht⟩ := hfs x
      rw [ht]
    · exact ⟨(batsmanAfterBall batsmanBefore d batsmanBefore).is_on_strike, hb1⟩
  have hwkey : bowlerBefore.innings_id = d.inningsId ∧ bowlerBefore.player_id = d.bowlerId := by
    have := single_eq_some hw
    have hm : bowlerBefore ∈ db.bowling.filter
        (fun b => b.innings_id == d.inningsId && b.player_id == d.bowlerId) := by
      rw [this]; exact List.mem_singleton_self _
    simpa using (List.mem_filter.mp hm).2
  have hw' : findBowling db' d.inningsId d.bowlerId =
      some (bowlerAfterBall bowlerBefore d bowlerBefore) := by
    unfold findBowling at hw ⊢
    rw [hW, single_filter_map_of_key, hw]
    · simp [hwkey.1, hwkey.2]
    · intro x
      by_cases hx : x.innings_id = d.inningsId ∧ x.player_id = d.bowlerId
      · simp only [hx.1, hx.2, beq_self_eq_true, Bool.and_self, if_true]
        unfold bowlerAfterBall
        dsimp only
        split <;> simp [hx.1, hx.2]
      · have hx' : ¬ ((x.innings_id == d.inningsId && x.player_id == d.bowlerId) = true) := by
          simpa using hx
        rw [if_neg hx']
  obtain ⟨s, hs⟩ := hb'
  exact ⟨innings, batsmanBefore, bowlerBefore, s, hi, hb, hw, hball, hi', hs, hw'⟩

/-- C2: a successful `recordBall` adds exactly 1 to the innings' `total_balls`, to the
striker's `balls_faced` and to the bowler's `balls_bowled` when the extra type is none,
bye or leg_bye, and leaves all three unchanged when it is wide, no_ball, no_ball_bye or
no_ball_leg_bye, whatever the runs. -/
theorem recordBall_legal_ball_counts (db db' : DB) (d : BallData) (ball : Ball)
    (h : recordBall db d = (db', .ok ball)) :
    ∃ i i' s s' w w',
      findInnings db d.inningsId = some i ∧ findInnings db' d.inningsId = some i' ∧
      findBatting db d.inningsId d.batsmanId = some s ∧
      findBatting db' d.inningsId d.batsmanId = some s' ∧
      findBowling db d.inningsId d.bowlerId = some w ∧
      findBowling db' d.inningsId d.bowlerId = some w' ∧
      ((d.extraType = none ∨ d.extraType = some .bye ∨ d.extraType = some .leg_bye) →
        i'.total_balls = i.total_balls + 1 ∧ s'.balls_faced = s.balls_faced + 1 ∧
          w'.balls_bowled = w.balls_bowled + 1) ∧
      ((d.extraType = some .wide ∨ d.extraType = some .no_ball ∨
          d.extraType = some .no_ball_bye ∨ d.extraType = some .no_ball_leg_bye) →
        i'.total_balls = i.total_balls ∧ s'.balls_faced = s.balls_faced ∧
          w'.balls_bowled = w.balls_bowled) := by
  obtain ⟨i, s, w, t, hi, hs, hw, -, hi', hs', hw'⟩ := recordBall_ok_lookups h
  refine ⟨i, _, s, _, w, _, hi, hi', hs, hs', hw, hw', ?_, ?_⟩
  · intro he
    rcases he with he | he | he <;>
      simp [inningsAfterBall, batsmanAfterBall, bowlerAfterBall, countAsBall,
        countsAsBallFaced, he]
  · intro he
    rcases he with he | he | he | he <;>
      simp [inningsAfterBall, batsmanAfterBall, bowlerAfterBall, countAsBall,
        countsAsBallFaced, he]

/-- C2, witness: the leg bye on the freshly set-up innings is recorded and is counted as
a ball for the innings, the striker and the bowler. -/
theorem recordBall_legal_ball_counts_witness :
    ∃ db' ball, recordBall dbStart legByeOne = (db', .ok ball) ∧
      ∃ i' s' w', findInnings db' 1 = some i' ∧ findBatting db' 1 10 = some s' ∧
        findBowling db' 1 20 = some w' ∧
        i'.total_balls = 1 ∧ s'.balls_faced = 1 ∧ w'.balls_bowled = 1 := by
  refine ⟨_, _, rfl, ?_⟩
  obtain ⟨i, i', s, s', w, w', hi, hi', hs, hs', hw, hw', hlegal, -⟩ :=
    recordBall_legal_ball_counts dbStart _ legByeOne _ rfl
  have h0 : i.total_balls = 0 ∧ s.balls_faced = 0 ∧ w.balls_bowled = 0 := by
    cases hi; cases hs; cases hw; exact ⟨rfl, rfl, rfl⟩
  obtain ⟨h1, h2, h3⟩ := hlegal (Or.inr (Or.inr rfl))
  exact ⟨i', s', w', hi', hs', hw', by rw [h1, h0.1]; rfl, by rw [h2, h0.2.1]; rfl,
    by rw [h3, h0.2.2]; rfl⟩

/-- C3: a successful `recordBall` adds `runs + extras` to the innings' `total_runs` and 1
(on a wicket) or 0 to `total_wickets`, and the ball row it appends carries the totals the
innings has after the update. -/
theorem recordBall_totals (db db' : DB) (d : BallData) (ball : Ball)
    (h : recordBall db d = (db', .ok ball)) :
    ∃ i i',
      findInnings db d.inningsId = some i ∧ findInnings db' d.inningsId = some i' ∧
      i'.total_runs = i.total_runs + (d.runs + d.extras) ∧
      i'.total_wickets = i.total_wickets + (if d.isWicket then 1 else 0) ∧
      db'.balls = db.balls ++ [ball] ∧
      ball.total_runs = i'.total_runs ∧ ball.total_wickets = i'.total_wickets := by
  obtain ⟨i, s, w, t, hi, -, -, hball, hi', -, -⟩ := recordBall_ok_lookups h
  obtain ⟨_, _, _, -, -, -, -, -, -, -, -, hballs, -⟩ := recordBall_ok h
  refine ⟨i, _, hi, hi', ?_, ?_, hballs, ?_, ?_⟩ <;>
    simp [inningsAfterBall, hball, ballRow]

/-- The object `handleScoreBall` passes to `recordBall` carries the arguments of the call
unchanged and is never a wicket. -/
theorem handleScoreBallData_fields (page : PageState) (c : ScoreCall) (d : BallData)
    (h : handleScoreBallData page c = .ok d) :
    d.runs = c.runs ∧ d.extras = c.extras ∧ d.extraType = c.extraType ∧
      d.physicalRuns = c.physicalRuns ∧ d.isWicket = false ∧
      d.inningsId = page.innings.id := by
  unfold handleScoreBallData at h
  split at h
  · cases h
  · split at h
    · cases h
    · dsimp only at h
      split at h
      · injection h with h
        subst h
        simp
      · cases h

/-- When its guards pass, `handleScoreBall` leaves the database that `recordBall` leaves
on the object built from the call. -/
theorem handleScoreBall_calls_recordBall (db : DB) (page : PageState) (c : ScoreCall)
    (d : BallData) (h : handleScoreBallData page c = .ok d) :
    (handleScoreBall db page c).db = (recordBall db d).1 := by
  unfold handleScoreBall
  rw [h]
  dsimp only
  split <;> rename_i heq <;> rw [heq]

/-- C1: whenever `handleAdvancedScoringSubmit` reaches `recordBall`, the object `d` it
hands over carries the batsman credit and the extras credit of the run-attribution table,
for every delivery type, runs type, base runs, overthrows and penalty runs. -/
theorem advancedScoring_attribution (db : DB) (page : PageState) (dt : DeliveryType)
    (rt : RunsType) (base overthrow penalty : Int) (d : BallData) :
    handleScoreBallData page
      (advancedScoringCall
        { deliveryType := dt, runsType := rt, baseRuns := base, overthrows := overthrow
          penaltyRuns := penalty }) = .ok d →
    (handleAdvancedScoringSubmit db page
        { deliveryType := dt, runsType := rt, baseRuns := base, overthrows := overthrow
          penaltyRuns := penalty }).db = (recordBall db d).1 ∧
    (d.runs, d.extras) =
      match dt, rt with
      | .normal, .bat => (base + overthrow, penalty)
      | .normal, .bye => (0, base + overthrow + penalty)
      | .normal, .leg_bye => (0, base + overthrow + penalty)
      | .wide, _ => (0, 1 + base + overthrow + penalty)
      | .no_ball, .bat => (base + overthrow, 1 + penalty)
      | .no_ball, .bye => (0, 1 + base + overthrow + penalty)
      | .no_ball, .leg_bye => (0, 1 + base + overthrow + penalty) := by
  intro h
  refine ⟨handleScoreBall_calls_recordBall db page _ d h, ?_⟩
  obtain ⟨h1, h2, -⟩ := handleScoreBallData_fields _ _ _ h
  rw [h1, h2]
  cases dt <;> cases rt <;> rfl

/-- C1, witnesses: on the freshly set-up innings a wide with base runs 2 reaches
`recordBall` with credit 0 and extras 3, and a no-ball off the bat for 4 with credit 4 and
extras 1. -/
theorem advancedScoring_attribution_witness :
    (∃ d, handleScoreBallData pageStart
        (advancedScoringCall
          { deliveryType := .wide, runsType := .bat, baseRuns := 2, overthrows := 0
            penaltyRuns := 0 }) = .ok d ∧ (d.runs, d.extras) = (0, 3)) ∧
    (∃ d, handleScoreBallData pageStart
        (advancedScoringCall
          { deliveryType := .no_ball, runsType := .bat, baseRuns := 4, overthrows := 0
            penaltyRuns := 0 }) = .ok d ∧ (d.runs, d.extras) = (4, 1)) :=
  ⟨⟨_, rfl, (advancedScoring_attribution dbStart pageStart .wide .bat 2 0 0 _ rfl).2⟩,
   ⟨_, rfl, (advancedScoring_attribution dbStart pageStart .no_ball .bat 4 0 0 _ rfl).2⟩⟩

/-- With exactly two not-out batsmen, one of them on strike, the strike swap block
negates the flag of these two rows and leaves every other row as it is. -/
theorem rotateStrike_swap (l : List BattingEntry) (inningsId : RowId) (a b : BattingEntry)
    (hids : (l.map (fun x => x.id)).Nodup) (hcur : currentBatsmen l inningsId = [a, b])
    (hne : a.is_on_strike ≠ b.is_on_strike) :
    rotateStrike l inningsId =
      l.map (fun x =>
        if x.id = a.id ∨ x.id = b.id then { x with is_on_strike := !x.is_on_strike } else x) := by
  have hsub : [a, b].Sublist l := by
    rw [← hcur]; exact List.filter_sublist _
  have ha : a ∈ l := hsub.subset (by simp)
  have hb : b ∈ l := hsub.subset (by simp)
  have hab : a.id ≠ b.id := by
    have := (hsub.map (fun x => x.id)).nodup hids
    simpa using this
  unfold rotateStrike
  rw [hcur]
  cases hsa : a.is_on_strike <;> cases hsb : b.is_on_strike
  · exact absurd (hsa.trans hsb.symm) hne
  · simp only [List.length_cons, List.length_nil, beq_self_eq_true, if_true, List.find?, hsa,
      hsb, Bool.not_false, Bool.not_true, setStrike, List.map_map]
    apply List.map_congr_left
    intro x hx
    simp only [Function.comp_apply, beq_iff_eq]
    by_cases h1 : x.id = a.id
    · have := eq_of_id_eq hids hx ha h1
      subst this
      simp [hab, Ne.symm hab, hsa]
    · by_cases h2 : x.id = b.id
      · have := eq_of_id_eq hids hx hb h2
        subst this
        simp [hsb, h1]
      · simp [h1, h2]
  · simp only [List.length_cons, List.length_nil, beq_self_eq_true, if_true, List.find?, hsa,
      hsb, Bool.not_false, Bool.not_true, setStrike, List.map_map]
    apply List.map_congr_left
    intro x hx
    simp only [Function.comp_apply, beq_iff_eq]
    by_cases h1 : x.id = a.id
    · have := eq_of_id_eq hids hx ha h1
      subst this
      simp [hab, Ne.symm hab, hsa]
    · by_cases h2 : x.id = b.id
      · have := eq_of_id_eq hids hx hb h2
        subst this
        simp [hsb, h1]
      · simp [h1, h2]
  · exact absurd (hsa.trans hsb.symm) hne

/-- C4: for a delivery recorded on an innings with exactly two not-out batsmen `a` and
`b`, exactly one of them on strike, and bowled to one of them, the `is_on_strike` flags of
`a` and `b` are exchanged when the delivery is not a wicket and the physical-runs value
(`physicalRuns` when supplied, otherwise the credited runs) is odd; otherwise no batting
row's flag changes.  Rows are compared position by position, the ids being unchanged. -/
theorem recordBall_strike_rotation (db db' : DB) (d : BallData) (ball : Ball)
    (a b : BattingEntry)
    (h : recordBall db d = (db', .ok ball))
    (hids : (db.batting.map (fun x => x.id)).Nodup)
    (hcur : currentBatsmen db.batting d.inningsId = [a, b])
    (hne : a.is_on_strike ≠ b.is_on_strike)
    (hbat : d.batsmanId = a.player_id ∨ d.batsmanId = b.player_id) :
    db'.batting.map (fun x => x.id) = db.batting.map (fun x => x.id) ∧
    ((d.isWicket = false ∧ Odd (d.physicalRuns.getD d.runs)) →
      db'.batting.map (fun x => x.is_on_strike) =
        db.batting.map (fun x =>
          if x.id = a.id ∨ x.id = b.id then !x.is_on_strike else x.is_on_strike)) ∧
    (¬ (d.isWicket = false ∧ Odd (d.physicalRuns.getD d.runs)) →
      db'.batting.map (fun x => x.is_on_strike) =
        db.batting.map (fun x => x.is_on_strike)) := by
  obtain ⟨innings, batsmanBefore, bowlerBefore, -, hb, -, -, -, hB, -⟩ := recordBall_ok h
  have hgid : ∀ x : BattingEntry,
      (if (x.innings_id == d.inningsId && x.player_id == d.batsmanId) = true then
        batsmanAfterBall batsmanBefore d x else x).id = x.id := by
    intro x; split <;> rfl
  have hgs : ∀ x : BattingEntry,
      (if (x.innings_id == d.inningsId && x.player_id == d.batsmanId) = true then
        batsmanAfterBall batsmanBefore d x else x).is_on_strike = x.is_on_strike := by
    intro x; split <;> rfl
  have hBid : (db.batting.map (fun x =>
      if (x.innings_id == d.inningsId && x.player_id == d.batsmanId) = true then
        batsmanAfterBall batsmanBefore d x else x)).map (fun x => x.id) =
      db.batting.map (fun x => x.id) := by
    rw [List.map_map]; exact List.map_congr_left (fun x _ => hgid x)
  have hBs : (db.batting.map (fun x =>
      if (x.innings_id == d.inningsId && x.player_id == d.batsmanId) = true then
        batsmanAfterBall batsmanBefore d x else x)).map (fun x => x.is_on_strike) =
      db.batting.map (fun x => x.is_on_strike) := by
    rw [List.map_map]; exact List.map_congr_left (fun x _ => hgs x)
  refine ⟨?_, ?_, ?_⟩
  · rw [hB]
    split
    · obtain ⟨f, hf, hfs⟩ := rotateStrike_eq_map (db.batting.map (fun x =>
        if (x.innings_id == d.inningsId && x.player_id == d.batsmanId) = true then
          batsmanAfterBall batsmanBefore d x else x)) d.inningsId
      rw [hf, ← hBid, List.map_map]
      apply List.map_congr_left
      intro x _
      obtain ⟨s, hs⟩ := hfs x
      simp only [Function.comp_apply, hs]
    · exact hBid
  · intro hrot
    rw [hB, if_pos ((shouldRotateStrike_iff d).2 hrot)]
    have hfilt := single_eq_some hb
    have hmem : ∀ x ∈ currentBatsmen db.batting d.inningsId,
        x ∈ db.batting ∧ x.innings_id = d.inningsId ∧ x.is_out = false := by
      intro x hx
      have := List.mem_filter.mp hx
      refine ⟨this.1, ?_⟩
      simpa using this.2
    rw [hcur] at hmem
    have hkeyout : ∀ x ∈ db.batting,
        x.innings_id = d.inningsId → x.player_id = d.batsmanId → x.is_out = false := by
      intro x hx h1 h2
      have hxf : x ∈ db.batting.filter
          (fun b => b.innings_id == d.inningsId && b.player_id == d.batsmanId) :=
        List.mem_filter.mpr ⟨hx, by simp [h1, h2]⟩
      rw [hfilt, List.mem_singleton] at hxf
      rcases hbat with hp | hp
      · obtain ⟨ha1, ha2, ha3⟩ := hmem a (by simp)
        have haf : a ∈ db.batting.filter
            (fun b => b.innings_id == d.inningsId && b.player_id == d.batsmanId) :=
          List.mem_filter.mpr ⟨ha1, by simp [ha2, hp]⟩
        rw [hfilt, List.mem_singleton] at haf
        rw [hxf, ← haf]; exact ha3
      · obtain ⟨ha1, ha2, ha3⟩ := hmem b (by simp)
        have haf : b ∈ db.batting.filter
            (fun b => b.innings_id == d.inningsId && b.player_id == d.batsmanId) :=
          List.mem_filter.mpr ⟨ha1, by simp [ha2, hp]⟩
        rw [hfilt, List.mem_singleton] at haf
        rw [hxf, ← haf]; exact ha3
    have hcurB : currentBatsmen (db.batting.map (fun x =>
        if (x.innings_id == d.inningsId && x.player_id == d.batsmanId) = true then
          batsmanAfterBall batsmanBefore d x else x)) d.inningsId =
        [a, b].map (fun x =>
          if (x.innings_id == d.inningsId && x.player_id == d.batsmanId) = true then
            batsmanAfterBall batsmanBefore d x else x) := by
      rw [← hcur]
      unfold currentBatsmen
      apply filter_map_of_key_mem
      intro x hx
      by_cases hk : (x.innings_id == d.inningsId && x.player_id == d.batsmanId) = true
      · rw [if_pos hk]
        have hk' : x.innings_id = d.inningsId ∧ x.player_id = d.batsmanId := by simpa using hk
        have := hkeyout x hx hk'.1 hk'.2
        simp [batsmanAfterBall, hrot.1, this]
      · rw [if_neg hk]
    rw [rotateStrike_swap _ d.inningsId _ _ (by rw [hBid]; exact hids) hcurB
      (by rw [hgs, hgs]; exact hne), List.map_map, List.map_map]
    apply List.map_congr_left
    intro x _
    simp only [Function.comp_apply, hgid]
    split
    · dsimp only
      rw [hgs]
    · exact hgs x
  · intro hrot
    rw [hB, if_neg (fun hc => hrot ((shouldRotateStrike_iff d).1 hc))]
    exact hBs

/-- C4, witness: on the freshly set-up innings (batsman 10 on strike, 11 not) the plain
single is recorded and leaves 11 on strike and 10 off strike. -/
theorem recordBall_strike_rotation_witness :
    ∃ db' ball, recordBall dbStart plainSingle = (db', .ok ball) ∧
      db'.batting.map (fun x => (x.player_id, x.is_on_strike)) = [(10, false), (11, true)] ∧
      db'.batting.map (fun x => x.is_on_strike) = [false, true] := by
  refine ⟨_, _, rfl, rfl, ?_⟩
  have hrot := (recordBall_strike_rotation dbStart _ plainSingle _
    (newBattingEntry 100 1 10 1 true) (newBattingEntry 101 1 11 2 false)
    rfl (by decide) rfl (by decide) (Or.inl rfl)).2.1 ⟨rfl, ⟨0, rfl⟩⟩
  rw [hrot]
  rfl

/-- C3, witnesses: on the freshly set-up innings a wide with base runs 2 raises the team
total by 3, and a no-ball off the bat for 4 raises it by 5. -/
theorem recordBall_totals_witness :
    (∃ db' ball, recordBall dbStart wideForTwo = (db', .ok ball) ∧
      ∃ i', findInnings db' 1 = some i' ∧ i'.total_runs = 3 ∧ ball.total_runs = 3) ∧
    (∃ db' ball, recordBall dbStart noBallForFour = (db', .ok ball) ∧
      ∃ i', findInnings db' 1 = some i' ∧ i'.total_runs = 5 ∧ ball.total_runs = 5) := by
  constructor
  · refine ⟨_, _, rfl, ?_⟩
    obtain ⟨i, i', hi, hi', hr, -, -, hb, -⟩ := recordBall_totals dbStart _ wideForTwo _ rfl
    have h0 : i.total_runs = 0 := by cases hi; rfl
    exact ⟨i', hi', by rw [hr, h0]; rfl, by rw [hb, hr, h0]; rfl⟩
  · refine ⟨_, _, rfl, ?_⟩
    obtain ⟨i, i', hi, hi', hr, -, -, hb, -⟩ := recordBall_totals dbStart _ noBallForFour _ rfl
    have h0 : i.total_runs = 0 := by cases hi; rfl
    exact ⟨i', hi', by rw [hr, h0]; rfl, by rw [hb, hr, h0]; rfl⟩

/-! ### undoLastAction -/

/-- C8: on an innings with no journal row `undoLastAction` returns the error whose
message is 'No action to undo', with no data, and leaves every table as it was. -/
theorem undoLastAction_empty_journal (db : DB) (inningsId : RowId)
    (h : ∀ e ∈ db.history, e.innings_id ≠ inningsId) :
    undoLastAction db inningsId = (db, .error .noActionToUndo) ∧
      Err.message .noActionToUndo = "No action to undo" := by
  have hf : db.history.filter (fun e => e.innings_id == inningsId) = [] := by
    rw [List.filter_eq_nil_iff]
    intro e he
    simpa using h e he
  refine ⟨?_, rfl⟩
  unfold undoLastAction
  rw [hf]
  rfl

/-- C8, witness: the freshly set-up innings has an empty journal, so undo is refused and
nothing changes. -/
theorem undoLastAction_empty_journal_witness :
    dbStart.history = [] ∧
      undoLastAction dbStart 1 = (dbStart, .error .noActionToUndo) ∧
      Err.message .noActionToUndo = "No action to undo" :=
  ⟨rfl, undoLastAction_empty_journal dbStart 1 (fun e he => by cases he)⟩

theorem undoWicket_history_balls {db db4 : DB} {inningsId : RowId}
    {cur : Option Partnership} {e : Option Err} (h : undoWicket db inningsId cur = (db4, e)) :
    db4.history = db.history ∧ db4.balls = db.balls := by
  unfold undoWicket at h
  split at h
  · cases h; exact ⟨rfl, rfl⟩
  · dsimp only at h
    split at h <;> (cases h; exact ⟨rfl, rfl⟩)

/-- A successful `undoLastAction` deleted exactly the journal row it read as the latest
row of the innings, and the ball row it read as the latest ball of the innings. -/
theorem undoLastAction_ok {db db' : DB} {inningsId : RowId} {r : Bool}
    (h : undoLastAction db inningsId = (db', .ok r)) :
    ∃ lastAction lastBall,
      (db.history.filter (fun e => e.innings_id == inningsId)).getLast? = some lastAction ∧
      (db.balls.filter (fun b => b.innings_id == inningsId)).getLast? = some lastBall ∧
      db'.history = db.history.filter (fun e => e.id != lastAction.id) ∧
      db'.balls = db.balls.filter (fun b => b.id != lastBall.id) := by
  unfold undoLastAction at h
  split at h
  · cases h
  · rename_i lastAction ha
    split at h
    · cases h
    · rename_i lastBall hb
      split at h
      · cases h
      · split at h
        · cases h
        · dsimp only at h
          split at h
          · cases h
          · refine ⟨lastAction, lastBall, ha, hb, ?_⟩
            split at h
            · split at h
              · cases h
              · rename_i db4 hw
                injection h with h1 _
                subst h1
                have := undoWicket_history_balls hw
                simp only [undoFinish, this.1, this.2]
                exact ⟨trivial, trivial⟩
            · injection h with h1 _
              subst h1
              exact ⟨rfl, rfl⟩

theorem undoWicket_error {db db4 : DB} {inningsId : RowId} {cur : Option Partnership}
    {e : Err} (h : undoWicket db inningsId cur = (db4, some e)) : e = .typeError := by
  unfold undoWicket at h
  split at h
  · cases h
  · dsimp only at h
    split at h
    · cases h; rfl
    · cases h

/-- With a journal row for the innings, `undoLastAction` does not answer 'No action to
undo'. -/
theorem undoLastAction_not_noAction {db : DB} {inningsId : RowId} {e : ActionHistoryEntry}
    (he : e ∈ db.history) (hi : e.innings_id = inningsId) :
    (undoLastAction db inningsId).2 ≠ .error .noActionToUndo := by
  have hne : db.history.filter (fun h => h.innings_id == inningsId) ≠ [] := by
    intro hnil
    have : e ∈ db.history.filter (fun h => h.innings_id == inningsId) :=
      List.mem_filter.mpr ⟨he, by simp [hi]⟩
    rw [hnil] at this
    cases this
  unfold undoLastAction
  split
  · rename_i hnone
    rw [List.getLast?_eq_none_iff] at hnone
    exact absurd hnone hne
  · split
    · simp
    · split
      · simp
      · split
        · simp
        · dsimp only
          split
          · simp
          · split
            · split
              · rename_i e' hw
                have := undoWicket_error hw
                subst this
                simp
              · simp
            · simp

/-- C9 (as amended): the journal keeps one row per recorded delivery until it is undone.
After two deliveries recorded on an innings and one successful `undoLastAction`, the
journal row of the first delivery is still there, and a second `undoLastAction` does not
answer 'No action to undo'. -/
theorem undo_after_two_deliveries (db db1 db2 db3 : DB) (d1 d2 : BallData) (b1 b2 : Ball)
    (r : Bool)
    (h1 : recordBall db d1 = (db1, .ok b1))
    (h2 : recordBall db1 d2 = (db2, .ok b2))
    (hsame : d2.inningsId = d1.inningsId)
    (h3 : undoLastAction db2 d1.inningsId = (db3, .ok r)) :
    (∃ e ∈ db3.history, e.innings_id = d1.inningsId ∧ e.action_data = d1) ∧
      (undoLastAction db3 d1.inningsId).2 ≠ .error .noActionToUndo := by
  obtain ⟨i1, _, _, -, -, -, -, -, -, -, -, -, hh1, -, hn1, -⟩ := recordBall_ok h1
  obtain ⟨i2, _, _, -, -, -, -, -, -, -, -, -, hh2, -, -, -⟩ := recordBall_ok h2
  obtain ⟨lastAction, lastBall, hla, -, hh3, -⟩ := undoLastAction_ok h3
  have hlast : lastAction = journalEntry db1 i2 d2 := by
    rw [hh2, List.filter_append] at hla
    have hf : [journalEntry db1 i2 d2].filter (fun e => e.innings_id == d1.inningsId) =
        [journalEntry db1 i2 d2] := by
      simp [journalEntry, hsame]
    rw [hf, List.getLast?_append_cons, List.getLast?_singleton] at hla
    exact (Option.some.inj hla).symm
  have hmem : journalEntry db i1 d1 ∈ db3.history := by
    rw [hh3, hh2, hh1, hlast]
    apply List.mem_filter.mpr
    refine ⟨by simp, ?_⟩
    simp [journalEntry, hn1]
  exact ⟨⟨_, hmem, rfl, rfl⟩, undoLastAction_not_noAction hmem rfl⟩

/-- C9, witness: a single and a dot ball on the freshly set-up innings, then one undo. -/
theorem undo_after_two_deliveries_witness :
    ∃ db1 b1 db2 b2 db3,
      recordBall dbStart plainSingle = (db1, .ok b1) ∧
      recordBall db1 dotToEleven = (db2, .ok b2) ∧
      undoLastAction db2 1 = (db3, .ok true) ∧
      (∃ e ∈ db3.history, e.innings_id = 1 ∧ e.action_data = plainSingle) ∧
      (undoLastAction db3 1).2 ≠ .error .noActionToUndo :=
  ⟨_, _, _, _, _, rfl, rfl, rfl,
    undo_after_two_deliveries dbStart _ _ _ plainSingle dotToEleven _ _ true rfl rfl rfl rfl⟩

/-- C9, counterexample: after a single and a dot ball the journal holds two rows; the
first undo removes the dot ball and the second undo, far from being refused, succeeds and
removes the single as well. -/
theorem undo_second_level_counterexample :
    ∃ db1 b1 db2 b2 db3 db4,
      recordBall dbStart plainSingle = (db1, .ok b1) ∧
      recordBall db1 dotToEleven = (db2, .ok b2) ∧
      db2.history.length = 2 ∧
      undoLastAction db2 1 = (db3, .ok true) ∧
      db3.balls = [b1] ∧
      undoLastAction db3 1 = (db4, .ok true) ∧
      db4.balls = [] ∧ db4.history = [] ∧ db4 ≠ db3 := by
  refine ⟨_, _, _, _, _, _, rfl, rfl, rfl, rfl, rfl, rfl, rfl, rfl, ?_⟩
  intro h
  have := congrArg (fun d : DB => d.balls.length) h
  revert this
  decide

/-! ### The guards -/

/-- C10, counterexample: `recordBall` records the single all the same (it returns the
ball row and the ledger has grown by it) on an innings whose status is `completed`, and
on an innings with a single not-out batsman and no bowling row marked current. -/
theorem recordBall_on_completed_innings_counterexample :
    ((findInnings dbCompleted 1).map (fun i => i.status) = some .completed ∧
      ∃ db' ball, recordBall dbCompleted plainSingle = (db', .ok ball) ∧
        dbCompleted.balls = [] ∧ db'.balls = [ball]) ∧
    ((currentBatsmen dbOneOutNoCurrentBowler.batting 1).length = 1 ∧
      dbOneOutNoCurrentBowler.bowling.filter (fun b => b.is_current_bowler) = [] ∧
      ∃ db' ball, recordBall dbOneOutNoCurrentBowler plainSingle = (db', .ok ball) ∧
        dbOneOutNoCurrentBowler.balls = [] ∧ db'.balls = [ball]) :=
  ⟨⟨rfl, _, _, rfl, rfl, rfl⟩, ⟨rfl, rfl, _, _, rfl, rfl, rfl⟩⟩

theorem find_pair_length {α : Type} (p q : α → Bool) (hpq : ∀ x, p x = true → q x = false)
    (l : List α) (x y : α) (hx : l.find? p = some x) (hy : l.find? q = some y) :
    2 ≤ l.length := by
  have hx1 := List.find?_some hx
  have hy1 := List.find?_some hy
  have hxm := List.mem_of_find?_eq_some hx
  have hym := List.mem_of_find?_eq_some hy
  match l, hxm, hym with
  | [z], hxm, hym =>
    simp only [List.mem_singleton] at hxm hym
    subst hxm hym
    rw [hpq _ hx1] at hy1
    cases hy1
  | _ :: _ :: _, _, _ => simp

/-- C10 (as amended): the page handler `handleScoreBall` refuses a delivery whenever the
page has no current bowler or fewer than two of its batsmen are not out: it shows an
error, does not call `recordBall`, and so leaves the database (the ball ledger included)
as it was. -/
theorem handleScoreBall_guard (db : DB) (page : PageState) (c : ScoreCall)
    (h : page.bowler = none ∨ (page.batsmen.filter (fun b => !b.is_out)).length < 2) :
    (handleScoreBall db page c).db = db ∧ (handleScoreBall db page c).error ≠ none := by
  have hdata : ∃ e, handleScoreBallData page c = .error e := by
    unfold handleScoreBallData
    split
    · exact ⟨_, rfl⟩
    · rename_i bowler hbowler
      split
      · exact ⟨_, rfl⟩
      · dsimp only
        split
        · rename_i striker nonStriker hs hn
          rcases h with h | h
          · rw [hbowler] at h; cases h
          · have := find_pair_length _ _ (fun x hx => by simp [hx]) _ _ _ hs hn
            omega
        · exact ⟨_, rfl⟩
  obtain ⟨e, he⟩ := hdata
  unfold handleScoreBall
  rw [he]
  exact ⟨rfl, by simp⟩

/-- C10, witness: with one of the two openers out the page refuses the single and the
database is untouched. -/
theorem handleScoreBall_guard_witness :
    (pageOneOut.batsmen.filter (fun b => !b.is_out)).length = 1 ∧
      (handleScoreBall dbStart pageOneOut { runs := 1 }).db = dbStart ∧
      (handleScoreBall dbStart pageOneOut { runs := 1 }).error ≠ none :=
  ⟨rfl, handleScoreBall_guard dbStart pageOneOut { runs := 1 } (Or.inr (by decide))⟩

/-! ### Undo at the failing inputs -/

/-- C6: the plain single (no `physicalRuns` in the call) rotates the strike from batsman
10 to batsman 11, and the undo that follows succeeds but leaves 11 on strike; the same
single sent with `physicalRuns` 1 is undone with the strike back on 10. -/
theorem undo_plain_single_keeps_strike_rotated :
    (∃ db1 ball db2,
      recordBall dbStart plainSingle = (db1, .ok ball) ∧
      undoLastAction db1 1 = (db2, .ok true) ∧
      dbStart.batting.map (fun x => (x.player_id, x.is_on_strike)) =
        [(10, true), (11, false)] ∧
      db1.batting.map (fun x => (x.player_id, x.is_on_strike)) =
        [(10, false), (11, true)] ∧
      db2.batting.map (fun x => (x.player_id, x.is_on_strike)) =
        [(10, false), (11, true)]) ∧
    (∃ db1 ball db2,
      recordBall dbStart { plainSingle with physicalRuns := some 1 } = (db1, .ok ball) ∧
      undoLastAction db1 1 = (db2, .ok true) ∧
      db1.batting.map (fun x => (x.player_id, x.is_on_strike)) =
        [(10, false), (11, true)] ∧
      db2.batting.map (fun x => (x.player_id, x.is_on_strike)) =
        [(10, true), (11, false)]) :=
  ⟨⟨_, _, _, rfl, rfl, rfl, rfl, rfl⟩, ⟨_, _, _, rfl, rfl, rfl, rfl⟩⟩

/-- C7: after the striker is bowled and no new batsman has been added, `undoLastAction`
throws (no current partnership to read) once the batsman and the partnership have been
restored, so the ball row and the journal row of the wicket stay; when batsman 12 has been
added in between, the undo succeeds, deletes 12 and the new partnership, and reopens the
old one. -/
theorem undo_wicket_without_new_batsman_throws :
    ∃ db1 ball,
      recordBall dbStart strikerBowled = (db1, .ok ball) ∧
      (∃ db2,
        undoLastAction db1 1 = (db2, .error .typeError) ∧
        db2.balls = [ball] ∧ db2.history = db1.history ∧ db2.history.length = 1 ∧
        db2.batting.map (fun x => (x.player_id, x.is_out)) = [(10, false), (11, false)] ∧
        db2.partnerships.map (fun p => (p.id, p.is_current)) = [(103, true)]) ∧
      (∃ db1' entry db3,
        addNewBatsman db1 1 12 = (db1', .ok entry) ∧
        db1'.partnerships.map (fun p => (p.id, p.is_current)) = [(103, false), (107, true)] ∧
        undoLastAction db1' 1 = (db3, .ok true) ∧
        db3.balls = [] ∧ db3.history = [] ∧
        db3.batting.map (fun x => (x.player_id, x.is_out)) = [(10, false), (11, false)] ∧
        db3.partnerships.map (fun p => (p.id, p.is_current)) = [(103, true)]) :=
  ⟨_, _, rfl, ⟨_, rfl, rfl, rfl, rfl, rfl, rfl⟩, ⟨_, _, _, rfl, rfl, rfl, rfl, rfl, rfl, rfl⟩⟩

/-- C5: two deliveries for which record-then-undo does not give back the state before.
After the plain single the striker's row keeps `is_on_strike = false`.  After the wicket
the undo ends in an error and the partnership keeps the ball it was charged
(`balls_faced` 1 instead of 0), while the innings totals do go back. -/
theorem undo_law_failing_inputs :
    (∃ db1 ball db2,
      recordBall dbStart plainSingle = (db1, .ok ball) ∧
      undoLastAction db1 1 = (db2, .ok true) ∧
      (findBatting dbStart 1 10).map (fun x => x.is_on_strike) = some true ∧
      (findBatting db2 1 10).map (fun x => x.is_on_strike) = some false) ∧
    (∃ db1 ball db2,
      recordBall dbStart strikerBowled = (db1, .ok ball) ∧
      undoLastAction db1 1 = (db2, .error .typeError) ∧
      (currentPartnership dbStart 1).map (fun p => p.balls_faced) = some 0 ∧
      (currentPartnership db2 1).map (fun p => p.balls_faced) = some 1 ∧
      (findInnings db2 1).map (fun i => (i.total_wickets, i.total_balls)) = some (0, 0)) :=
  ⟨⟨_, _, _, rfl, rfl, rfl, rfl⟩, ⟨_, _, _, rfl, rfl, rfl, rfl, rfl⟩⟩

/-! ### Failure of recordBall -/

/-- What a failed `recordBall` left behind: nothing when the innings id selects no single
row; the journal row and the ball row when the batsman id selects no single row; these
and the updated batting row when the bowler id selects no single row. -/
theorem recordBall_error {db db' : DB} {d : BallData} {e : Err}
    (h : recordBall db d = (db', .error e)) :
    (findInnings db d.inningsId = none ∧ db' = db) ∨
    (∃ innings, findInnings db d.inningsId = some innings ∧
      db'.history = db.history ++ [journalEntry db innings d] ∧
      db'.balls = db.balls ++ [ballRow (db.nextId + 1) innings d] ∧
      db'.innings = db.innings ∧ db'.bowling = db.bowling ∧
      db'.partnerships = db.partnerships ∧
      ((findBatting db d.inningsId d.batsmanId = none ∧ db'.batting = db.batting) ∨
       (∃ batsmanBefore, findBatting db d.inningsId d.batsmanId = some batsmanBefore ∧
          findBowling db d.inningsId d.bowlerId = none ∧
          db'.batting = db.batting.map (fun b =>
            if b.innings_id == d.inningsId && b.player_id == d.batsmanId then
              batsmanAfterBall batsmanBefore d b
            else b)))) := by
  unfold recordBall at h
  split at h
  · rename_i hi
    injection h with h1 _
    exact Or.inl ⟨hi, h1.symm⟩
  · rename_i innings hi
    dsimp only at h
    refine Or.inr ⟨innings, hi, ?_⟩
    split at h
    · rename_i hb
      injection h with h1 _
      subst h1
      exact ⟨rfl, rfl, rfl, rfl, rfl, Or.inl ⟨hb, rfl⟩⟩
    · rename_i batsmanBefore hb
      split at h
      · rename_i hw
        injection h with h1 _
        subst h1
        exact ⟨rfl, rfl, rfl, rfl, rfl, Or.inr ⟨batsmanBefore, hb, hw, rfl⟩⟩
      · cases h

/-- C11 (as amended): `recordBall` is not atomic.  When it returns an error, the innings
rows, the bowling entries and the partnerships are as before the call; the journal and
the ball ledger are as before only when the innings id selected no single row, and have
otherwise each gained exactly one row; the batting entries are as before unless it was the
bowler's row that could not be read. -/
theorem recordBall_error_frame (db db' : DB) (d : BallData) (e : Err)
    (h : recordBall db d = (db', .error e)) :
    db'.innings = db.innings ∧ db'.bowling = db.bowling ∧
      db'.partnerships = db.partnerships ∧
      (findInnings db d.inningsId = none → db' = db) ∧
      (findInnings db d.inningsId ≠ none →
        db'.history.length = db.history.length + 1 ∧
        db'.balls.length = db.balls.length + 1) ∧
      (findInnings db d.inningsId = none ∨ findBatting db d.inningsId d.batsmanId = none →
        db'.batting = db.batting) := by
  rcases recordBall_error h with ⟨hi, hdb⟩ | ⟨innings, hi, hh, hb, hI, hW, hP, hcase⟩
  · subst hdb
    exact ⟨rfl, rfl, rfl, fun _ => rfl, fun hne => absurd hi hne, fun _ => rfl⟩
  · refine ⟨hI, hW, hP, fun hn => ?_, fun _ => ?_, fun hn => ?_⟩
    · rw [hi] at hn; cases hn
    · rw [hh, hb]; simp
    · rcases hn with hn | hn
      · rw [hi] at hn; cases hn
      · rcases hcase with ⟨-, hbat⟩ | ⟨bb, hbb, -, -⟩
        · exact hbat
        · rw [hbb] at hn; cases hn

/-- C11, witness: a single for a batsman (99) who has no entry in the innings. -/
theorem recordBall_error_frame_witness :
    ∃ db', recordBall dbStart { plainSingle with batsmanId := 99 } = (db', .error .typeError) ∧
      db'.innings = dbStart.innings ∧ db'.bowling = dbStart.bowling ∧
      db'.partnerships = dbStart.partnerships ∧ db'.batting = dbStart.batting ∧
      db'.history.length = dbStart.history.length + 1 ∧
      db'.balls.length = dbStart.balls.length + 1 := by
  refine ⟨_, rfl, ?_⟩
  obtain ⟨h1, h2, h3, -, h5, h6⟩ :=
    recordBall_error_frame dbStart _ { plainSingle with batsmanId := 99 } .typeError rfl
  exact ⟨h1, h2, h3, h6 (Or.inr rfl), (h5 (by decide)).1, (h5 (by decide)).2⟩

/-- C11, counterexample: the single for batsman 99, who has no entry, returns an error,
yet the journal and the ball ledger, empty before, each hold a row afterwards. -/
theorem recordBall_not_atomic_counterexample :
    ∃ db', recordBall dbStart { plainSingle with batsmanId := 99 } = (db', .error .typeError) ∧
      dbStart.history = [] ∧ dbStart.balls = [] ∧
      db'.history.length = 1 ∧ db'.balls.length = 1 ∧ db' ≠ dbStart := by
  refine ⟨_, rfl, rfl, rfl, rfl, rfl, ?_⟩
  intro h
  have := congrArg (fun x : DB => x.balls.length) h
  revert this
  decide

/-! ### The match result -/

/-- Looking a match up after an update of the rows with that id, which leaves ids
alone. -/
theorem findMatch_map (rows : List MatchRow) (matchId : RowId) (f : MatchRow → MatchRow)
    (hf : ∀ r, (f r).id = r.id) (m : MatchRow)
    (hm : single (rows.filter (fun r => r.id == matchId)) = some m) :
    single ((rows.map (fun r => if r.id == matchId then f r else r)).filter
      (fun r => r.id == matchId)) = some (f m) := by
  have hid : m.id = matchId := by
    have hmem : m ∈ rows.filter (fun r => r.id == matchId) := by
      rw [single_eq_some hm]; exact List.mem_singleton_self _
    simpa using (List.mem_filter.mp hmem).2
  rw [single_filter_map_of_key, hm]
  · simp [hid]
  · intro x
    by_cases hx : x.id = matchId
    · simp [hx, hf]
    · simp [hx]

/-- C12: for a match with exactly two innings, `calculateMatchWinner` marks the match
completed and, when the totals differ, records as winner the batting team of the innings
with the larger total: won by wickets with margin 10 minus the second innings' wickets
when the second total is larger, won by runs with the difference of the totals as margin
when the first is larger. -/
theorem calculateMatchWinner_winner (db : DB) (matchId : RowId) (first second : Innings)
    (m : MatchRow)
    (hin : inningsOfMatch db matchId = [first, second])
    (hm : findMatch db matchId = some m) :
    ∃ m', findMatch (calculateMatchWinner db matchId) matchId = some m' ∧
      m'.status = .completed ∧
      (second.total_runs > first.total_runs →
        m'.winner_id = some second.batting_team_id ∧
        m'.result_type = some .won_by_wickets ∧
        m'.result_margin = some (10 - second.total_wickets)) ∧
      (first.total_runs > second.total_runs →
        m'.winner_id = some first.batting_team_id ∧
        m'.result_type = some .won_by_runs ∧
        m'.result_margin = some (first.total_runs - second.total_runs)) := by
  unfold calculateMatchWinner
  rw [hin]
  dsimp only
  unfold findMatch at hm ⊢
  dsimp only
  refine ⟨completeWithResult db.clock (matchResult first second) m,
    findMatch_map db.matchRows matchId
      (completeWithResult db.clock (matchResult first second)) (fun _ => rfl) m hm,
    rfl, ?_, ?_⟩
  · intro hgt
    simp [completeWithResult, matchResult, hgt]
  · intro hgt
    have hng : ¬ second.total_runs > first.total_runs := by omega
    simp [completeWithResult, matchResult, hng, hgt]

/-- C12, witness: first innings 145, second innings 148 for 4: the team batting second
(team 2) wins by 6 wickets. -/
theorem calculateMatchWinner_winner_witness :
    ∃ m', findMatch (calculateMatchWinner dbChase 1) 1 = some m' ∧
      m'.status = .completed ∧ m'.winner_id = some 2 ∧
      m'.result_type = some .won_by_wickets ∧ m'.result_margin = some 6 := by
  obtain ⟨m', hm', hs, hw, -⟩ :=
    calculateMatchWinner_winner dbChase 1 _ (secondInningsRow 148 4) _ rfl rfl
  obtain ⟨h1, h2, h3⟩ := hw (by decide)
  exact ⟨m', hm', hs, h1, h2, h3⟩

/-- C13: for a match with exactly two innings of equal totals, `calculateMatchWinner`
marks the match completed as a tie, with no winner and margin 0, whatever the wickets. -/
theorem calculateMatchWinner_tie (db : DB) (matchId : RowId) (first second : Innings)
    (m : MatchRow)
    (hin : inningsOfMatch db matchId = [first, second])
    (hm : findMatch db matchId = some m)
    (heq : first.total_runs = second.total_runs) :
    ∃ m', findMatch (calculateMatchWinner db matchId) matchId = some m' ∧
      m'.status = .completed ∧ m'.result_type = some .tied ∧ m'.winner_id = none ∧
      m'.result_margin = some 0 := by
  unfold calculateMatchWinner
  rw [hin]
  dsimp only
  unfold findMatch at hm ⊢
  dsimp only
  refine ⟨completeWithResult db.clock (matchResult first second) m,
    findMatch_map db.matchRows matchId
      (completeWithResult db.clock (matchResult first second)) (fun _ => rfl) m hm,
    rfl, ?_, ?_, ?_⟩ <;>
    simp [completeWithResult, matchResult, heq]

/-- C13, witness: both innings total 150 (for 7 and for 3). -/
theorem calculateMatchWinner_tie_witness :
    ∃ m', findMatch (calculateMatchWinner dbLevel 1) 1 = some m' ∧
      m'.status = .completed ∧ m'.result_type = some .tied ∧ m'.winner_id = none ∧
      m'.result_margin = some 0 :=
  calculateMatchWinner_tie dbLevel 1 _ (secondInningsRow 150 3) _ rfl rfl rfl

theorem inningsOfMatch_length (db : DB) (matchId : RowId) :
    (inningsOfMatch db matchId).length =
      (db.innings.filter (fun i => i.match_id == matchId)).length := by
  unfold inningsOfMatch
  exact List.length_insertionSort _ _

/-- C14: on a match with at most one innings (in particular with only one), `endMatch`
succeeds, turns the status of exactly the `in_progress` innings of the match into
`completed`, marks the match completed, and leaves its `winner_id`, `result_type` and
`result_margin` as they were. -/
theorem endMatch_single_innings (db : DB) (matchId : RowId) (m : MatchRow)
    (hone : (db.innings.filter (fun i => i.match_id == matchId)).length ≤ 1)
    (hm : findMatch db matchId = some m) :
    (endMatch db matchId).2 = .ok true ∧
      (endMatch db matchId).1.innings.map (fun i => (i.id, i.status)) =
        db.innings.map (fun i =>
          (i.id, if i.match_id = matchId ∧ i.status = .in_progress then .completed
                 else i.status)) ∧
      ∃ m', findMatch (endMatch db matchId).1 matchId = some m' ∧
        m'.status = .completed ∧ m'.winner_id = m.winner_id ∧
        m'.result_type = m.result_type ∧ m'.result_margin = m.result_margin := by
  have hlen : (inningsOfMatch
      { db with
        innings := db.innings.map (fun i =>
          if i.match_id == matchId && i.status == .in_progress then
            { i with status := .completed, ended_at := some db.clock }
          else i)
        clock := db.clock + 1 } matchId).length ≤ 1 := by
    rw [inningsOfMatch_length]
    dsimp only
    rw [filter_map_of_key, List.length_map]
    · exact hone
    · intro x
      split <;> rfl
  unfold endMatch
  dsimp only
  unfold calculateMatchWinner
  split
  · rename_i heq
    rw [heq] at hlen
    simp at hlen
  · dsimp only
    refine ⟨rfl, ?_, completeWithoutResult (db.clock + 1) m, ?_, rfl, rfl, rfl, rfl⟩
    · rw [List.map_map]
      apply List.map_congr_left
      intro i _
      by_cases h1 : i.match_id = matchId <;> by_cases h2 : i.status = .in_progress <;>
        simp [h1, h2]
    · unfold findMatch at hm ⊢
      exact findMatch_map db.matchRows matchId (completeWithoutResult (db.clock + 1))
        (fun _ => rfl) m hm

/-- C14, witness: the set-up first innings of match 1 is the only one; ending the match
completes the innings and the match and records no winner. -/
theorem endMatch_single_innings_witness :
    (endMatch dbStart 1).2 = .ok true ∧
      (endMatch dbStart 1).1.innings.map (fun i => (i.id, i.status)) = [(1, .completed)] ∧
      ∃ m', findMatch (endMatch dbStart 1).1 1 = some m' ∧
        m'.status = .completed ∧ m'.winner_id = none ∧
        m'.result_type = none ∧ m'.result_margin = none :=
  endMatch_single_innings dbStart 1 _ (by decide) rfl

/-! ### The innings transition -/

/-- What `endInnings` does while the match is in its first inning and the given innings
exists: the tables afterwards, in terms of the rows read. -/
theorem endInnings_first {db : DB} {matchId inningsId : RowId} {m : MatchRow} {i : Innings}
    (hm : findMatch db matchId = some m) (hcur : m.current_inning = 1)
    (hi : findInnings db inningsId = some i) :
    endInnings db matchId inningsId =
      ({ db with
         matchRows := db.matchRows.map (fun r =>
           if r.id == matchId then { r with current_inning := 2 } else r)
         innings := db.innings.map (fun x =>
           if x.id == inningsId then { x with status := .completed, ended_at := some db.clock }
           else x) ++
           [newInnings db.nextId matchId 2 i.bowling_team_id i.batting_team_id .in_progress]
         nextId := db.nextId + 1
         clock := db.clock + 1 },
       .ok (.nextInning db.nextId)) := by
  have hi1 : ∀ c : Timestamp, findInnings
      { db with
        innings := db.innings.map (fun x =>
          if x.id == inningsId then { x with status := .completed, ended_at := some db.clock }
          else x)
        clock := c } inningsId =
      some { i with status := .completed, ended_at := some db.clock } := by
    intro c
    have hid : i.id = inningsId := by
      have hmem : i ∈ db.innings.filter (fun x => x.id == inningsId) := by
        rw [single_eq_some hi]; exact List.mem_singleton_self _
      simpa using (List.mem_filter.mp hmem).2
    unfold findInnings at hi ⊢
    dsimp only
    rw [single_filter_map_of_key, hi]
    · simp [hid]
    · intro x
      split <;> rfl
  have hm1 : ∀ (c : Timestamp) (rows : List Innings),
      findMatch { db with innings := rows, clock := c } matchId = some m := fun _ _ => hm
  unfold endInnings
  dsimp only
  rw [hm1]
  dsimp only
  rw [if_pos (by simp [hcur]), hi1]
  rfl

/-- C18: `endInnings` called while the match's `current_inning` is 1, for an innings that
exists, succeeds; the innings rows afterwards are the rows before (same ids, the given one
now `completed`) followed by exactly one new row, with `inning_number` 2 and the batting
and bowling teams of the given innings exchanged; the match's `current_inning` is 2. -/
theorem endInnings_creates_second (db : DB) (matchId inningsId : RowId) (m : MatchRow)
    (i : Innings)
    (hm : findMatch db matchId = some m) (hcur : m.current_inning = 1)
    (hi : findInnings db inningsId = some i) :
    ∃ old new,
      (endInnings db matchId inningsId).2 = .ok (.nextInning new.id) ∧
      (endInnings db matchId inningsId).1.innings = old ++ [new] ∧
      old.map (fun x => x.id) = db.innings.map (fun x => x.id) ∧
      (∀ x ∈ old, x.id = inningsId → x.status = .completed) ∧
      new.match_id = matchId ∧ new.inning_number = 2 ∧
      new.batting_team_id = i.bowling_team_id ∧ new.bowling_team_id = i.batting_team_id ∧
      ∃ m', findMatch (endInnings db matchId inningsId).1 matchId = some m' ∧
        m'.current_inning = 2 := by
  rw [endInnings_first hm hcur hi]
  refine ⟨_, _, rfl, rfl, ?_, ?_, rfl, rfl, rfl, rfl,
    { m with current_inning := 2 }, ?_, rfl⟩
  · rw [List.map_map]
    apply List.map_congr_left
    intro x _
    dsimp only [Function.comp_apply]
    split <;> rfl
  · intro x hx hid
    obtain ⟨y, -, rfl⟩ := List.mem_map.mp hx
    by_cases hy : y.id = inningsId
    · simp [hy]
    · have : (if (y.id == inningsId) = true then
          { y with status := InningsStatus.completed, ended_at := some db.clock } else y) = y := by
        simp [hy]
      rw [this] at hid
      exact absurd hid hy
  · unfold findMatch at hm ⊢
    exact findMatch_map db.matchRows matchId (fun r => { r with current_inning := 2 })
      (fun _ => rfl) m hm

/-- C18, witness: ending the first innings of match 1 (team 1 batting, team 2 bowling)
creates a second innings for team 2 to bat. -/
theorem endInnings_creates_second_witness :
    ∃ old new,
      (endInnings dbStart 1 1).2 = .ok (.nextInning new.id) ∧
      (endInnings dbStart 1 1).1.innings = old ++ [new] ∧
      old.map (fun x => x.id) = [1] ∧
      (∀ x ∈ old, x.id = 1 → x.status = .completed) ∧
      new.match_id = 1 ∧ new.inning_number = 2 ∧
      new.batting_team_id = 2 ∧ new.bowling_team_id = 1 ∧
      ∃ m', findMatch (endInnings dbStart 1 1).1 1 = some m' ∧ m'.current_inning = 2 :=
  endInnings_creates_second dbStart 1 1 _ _ rfl rfl rfl

/-- C19 (as amended): the second innings created by `endInnings` is inserted with status
`in_progress`.  Its id being new to the batting and bowling tables, it has no batting
entry and no bowling entry, until `initializeInnings` inserts exactly two batting entries
and one bowling entry for it. -/
theorem endInnings_second_without_players (db : DB) (matchId inningsId : RowId) (m : MatchRow)
    (i : Innings) (batsman1 batsman2 bowler : RowId)
    (hm : findMatch db matchId = some m) (hcur : m.current_inning = 1)
    (hi : findInnings db inningsId = some i)
    (hfresh : ∀ x ∈ db.innings, x.id ≠ db.nextId)
    (hbat : ∀ b ∈ db.batting, b.innings_id ≠ db.nextId)
    (hbowl : ∀ b ∈ db.bowling, b.innings_id ≠ db.nextId) :
    (endInnings db matchId inningsId).2 = .ok (.nextInning db.nextId) ∧
      (∃ n, findInnings (endInnings db matchId inningsId).1 db.nextId = some n ∧
        n.status = .in_progress) ∧
      (endInnings db matchId inningsId).1.batting.filter
        (fun b => b.innings_id == db.nextId) = [] ∧
      (endInnings db matchId inningsId).1.bowling.filter
        (fun b => b.innings_id == db.nextId) = [] ∧
      ((initializeInnings (endInnings db matchId inningsId).1 db.nextId batsman1 batsman2
          bowler).batting.filter (fun b => b.innings_id == db.nextId)).length = 2 ∧
      ((initializeInnings (endInnings db matchId inningsId).1 db.nextId batsman1 batsman2
          bowler).bowling.filter (fun b => b.innings_id == db.nextId)).length = 1 := by
  have hb0 : db.batting.filter (fun b => b.innings_id == db.nextId) = [] := by
    rw [List.filter_eq_nil_iff]
    intro b hb
    simpa using hbat b hb
  have hw0 : db.bowling.filter (fun b => b.innings_id == db.nextId) = [] := by
    rw [List.filter_eq_nil_iff]
    intro b hb
    simpa using hbowl b hb
  have hi0 : (db.innings.map (fun x =>
      if x.id == inningsId then { x with status := .completed, ended_at := some db.clock }
      else x)).filter (fun x => x.id == db.nextId) = [] := by
    rw [List.filter_eq_nil_iff]
    intro x hx
    obtain ⟨y, hy, rfl⟩ := List.mem_map.mp hx
    have := hfresh y hy
    split <;> simpa using this
  rw [endInnings_first hm hcur hi]
  refine ⟨rfl,
    ⟨newInnings db.nextId matchId 2 i.bowling_team_id i.batting_team_id .in_progress, ?_, rfl⟩,
    hb0, hw0, ?_, ?_⟩
  · unfold findInnings
    dsimp only
    rw [List.filter_append, hi0]
    simp [newInnings, single]
  · simp [initializeInnings, List.filter_append, hb0, newBattingEntry]
  · simp [initializeInnings, List.filter_append, hw0, newBowlingEntry]

/-- C19, witness: the second innings created when the first innings of match 1 ends. -/
theorem endInnings_second_without_players_witness :
    (endInnings dbStart 1 1).2 = .ok (.nextInning 104) ∧
      (∃ n, findInnings (endInnings dbStart 1 1).1 104 = some n ∧ n.status = .in_progress) ∧
      (endInnings dbStart 1 1).1.batting.filter (fun b => b.innings_id == 104) = [] ∧
      (endInnings dbStart 1 1).1.bowling.filter (fun b => b.innings_id == 104) = [] ∧
      ((initializeInnings (endInnings dbStart 1 1).1 104 30 31 40).batting.filter
        (fun b => b.innings_id == 104)).length = 2 ∧
      ((initializeInnings (endInnings dbStart 1 1).1 104 30 31 40).bowling.filter
        (fun b => b.innings_id == 104)).length = 1 :=
  endInnings_second_without_players dbStart 1 1 _ _ 30 31 40 rfl rfl rfl
    (by decide) (by decide) (by decide)

/-- C19, counterexample: the innings created when the first innings of match 1 ends has
status `in_progress`, not a status different from it. -/
theorem endInnings_second_status_counterexample :
    (endInnings dbStart 1 1).2 = .ok (.nextInning 104) ∧
      (endInnings dbStart 1 1).1.innings.map (fun x => (x.id, x.inning_number, x.status)) =
        [(1, 1, .completed), (104, 2, .in_progress)] :=
  ⟨rfl, rfl⟩

/-! ### The current-bowler invariant -/

/-- A rewrite of bowling rows that leaves id, innings, player and the current flag alone
keeps the invariant, for any id counter that did not decrease. -/
theorem bowlerInvariant_of_map {db db' : DB} {inningsId : RowId}
    (f : BowlingEntry → BowlingEntry)
    (hf : ∀ b, (f b).id = b.id ∧ (f b).innings_id = b.innings_id ∧
      (f b).player_id = b.player_id ∧ (f b).is_current_bowler = b.is_current_bowler)
    (hb : db'.bowling = db.bowling.map f) (hn : db.nextId ≤ db'.nextId)
    (h : bowlerInvariant db inningsId) : bowlerInvariant db' inningsId := by
  obtain ⟨⟨hnd, hlt⟩, hcur, hpl⟩ := h
  have hids : db'.bowling.map (fun b => b.id) = db.bowling.map (fun b => b.id) := by
    rw [hb, List.map_map]
    exact List.map_congr_left (fun b _ => (hf b).1)
  refine ⟨⟨by rw [hids]; exact hnd, ?_⟩, ?_, ?_⟩
  · intro b hb'
    rw [hb] at hb'
    obtain ⟨x, hx, rfl⟩ := List.mem_map.mp hb'
    rw [(hf x).1]
    exact lt_of_lt_of_le (hlt x hx) hn
  · unfold currentBowlers at hcur ⊢
    rw [hb, filter_map_of_key, List.length_map]
    · exact hcur
    · intro x
      rw [(hf x).2.1, (hf x).2.2.2]
  · unfold bowlersOf at hpl ⊢
    rw [hb, filter_map_of_key, List.map_map]
    · have : (fun b : BowlingEntry => b.player_id) ∘ f = fun b => b.player_id := by
        funext x
        exact (hf x).2.2.1
      rw [this]
      exact hpl
    · intro x
      rw [(hf x).2.1]

theorem bowlerAfterBall_keys (bowlerBefore : BowlingEntry) (d : BallData) (b : BowlingEntry) :
    (bowlerAfterBall bowlerBefore d b).id = b.id ∧
      (bowlerAfterBall bowlerBefore d b).innings_id = b.innings_id ∧
      (bowlerAfterBall bowlerBefore d b).player_id = b.player_id ∧
      (bowlerAfterBall bowlerBefore d b).is_current_bowler = b.is_current_bowler := by
  unfold bowlerAfterBall
  dsimp only
  split <;> exact ⟨rfl, rfl, rfl, rfl⟩

theorem bowlerAfterUndo_keys (bowler : BowlingEntry) (lastBall : Ball) (b : BowlingEntry) :
    (bowlerAfterUndo bowler lastBall b).id = b.id ∧
      (bowlerAfterUndo bowler lastBall b).innings_id = b.innings_id ∧
      (bowlerAfterUndo bowler lastBall b).player_id = b.player_id ∧
      (bowlerAfterUndo bowler lastBall b).is_current_bowler = b.is_current_bowler := by
  unfold bowlerAfterUndo
  dsimp only
  split <;> exact ⟨rfl, rfl, rfl, rfl⟩

/-- Whatever its outcome, `recordBall` rewrites bowling rows without touching their id,
innings, player or current flag, and does not lower the id counter. -/
theorem recordBall_bowling (db : DB) (d : BallData) :
    ∃ f : BowlingEntry → BowlingEntry,
      (∀ b, (f b).id = b.id ∧ (f b).innings_id = b.innings_id ∧
        (f b).player_id = b.player_id ∧ (f b).is_current_bowler = b.is_current_bowler) ∧
      (recordBall db d).1.bowling = db.bowling.map f ∧
      db.nextId ≤ (recordBall db d).1.nextId := by
  have hid : ∀ b : BowlingEntry, (id b).id = b.id ∧ (id b).innings_id = b.innings_id ∧
      (id b).player_id = b.player_id ∧ (id b).is_current_bowler = b.is_current_bowler :=
    fun _ => ⟨rfl, rfl, rfl, rfl⟩
  unfold recordBall
  split
  · exact ⟨id, hid, by simp, le_refl _⟩
  · dsimp only
    split
    · exact ⟨id, hid, by simp, by dsimp only; exact Nat.le_add_right_of_le (Nat.le_add_right _ _)⟩
    · split
      · exact ⟨id, hid, by simp, by dsimp only; exact Nat.le_add_right_of_le (Nat.le_add_right _ _)⟩
      · rename_i bowlerBefore _
        refine ⟨fun b =>
          if b.innings_id == d.inningsId && b.player_id == d.bowlerId then
            bowlerAfterBall bowlerBefore d b
          else b, ?_, rfl, ?_⟩
        · intro b
          dsimp only
          split
          · exact bowlerAfterBall_keys _ _ _
          · exact ⟨rfl, rfl, rfl, rfl⟩
        · exact Nat.le_add_right_of_le (Nat.le_add_right _ _)

theorem undoWicket_bowling {db db4 : DB} {inningsId : RowId}
    {cur : Option Partnership} {e : Option Err} (h : undoWicket db inningsId cur = (db4, e)) :
    db4.bowling = db.bowling ∧ db4.nextId = db.nextId := by
  unfold undoWicket at h
  split at h
  · cases h; exact ⟨rfl, rfl⟩
  · dsimp only at h
    split at h <;> (cases h; exact ⟨rfl, rfl⟩)

/-- Whatever its outcome, `undoLastAction` rewrites bowling rows without touching their
id, innings, player or current flag, and keeps the id counter. -/
theorem undoLastAction_bowling (db : DB) (inningsId : RowId) :
    ∃ f : BowlingEntry → BowlingEntry,
      (∀ b, (f b).id = b.id ∧ (f b).innings_id = b.innings_id ∧
        (f b).player_id = b.player_id ∧ (f b).is_current_bowler = b.is_current_bowler) ∧
      (undoLastAction db inningsId).1.bowling = db.bowling.map f ∧
      db.nextId ≤ (undoLastAction db inningsId).1.nextId := by
  have hid : ∀ b : BowlingEntry, (id b).id = b.id ∧ (id b).innings_id = b.innings_id ∧
      (id b).player_id = b.player_id ∧ (id b).is_current_bowler = b.is_current_bowler :=
    fun _ => ⟨rfl, rfl, rfl, rfl⟩
  unfold undoLastAction
  split
  · exact ⟨id, hid, by simp, le_refl _⟩
  · split
    · exact ⟨id, hid, by simp, le_refl _⟩
    · rename_i lastBall _
      split
      · exact ⟨id, hid, by simp, le_refl _⟩
      · split
        · exact ⟨id, hid, by simp, le_refl _⟩
        · dsimp only
          split
          · exact ⟨id, hid, by simp, le_refl _⟩
          · rename_i bowler _
            have hf : ∀ b : BowlingEntry,
                ((fun b : BowlingEntry =>
                  if b.id == bowler.id then bowlerAfterUndo bowler lastBall b else b) b).id = b.id ∧
                ((fun b : BowlingEntry =>
                  if b.id == bowler.id then bowlerAfterUndo bowler lastBall b else b) b).innings_id =
                    b.innings_id ∧
                ((fun b : BowlingEntry =>
                  if b.id == bowler.id then bowlerAfterUndo bowler lastBall b else b) b).player_id =
                    b.player_id ∧
                ((fun b : BowlingEntry =>
                  if b.id == bowler.id then bowlerAfterUndo bowler lastBall b
                  else b) b).is_current_bowler = b.is_current_bowler := by
              intro b
              dsimp only
              split
              · exact bowlerAfterUndo_keys _ _ _
              · exact ⟨rfl, rfl, rfl, rfl⟩
            refine ⟨_, hf, ?_⟩
            split
            · split
              · rename_i hw
                have := undoWicket_bowling hw
                exact ⟨this.1, le_of_eq this.2.symm⟩
              · rename_i hw
                have := undoWicket_bowling hw
                exact ⟨this.1, le_of_eq this.2.symm⟩
            · exact ⟨rfl, le_refl _⟩

theorem addNewBatsman_bowling (db : DB) (inningsId playerId : RowId) :
    (addNewBatsman db inningsId playerId).1.bowling = db.bowling ∧
      db.nextId ≤ (addNewBatsman db inningsId playerId).1.nextId := by
  unfold addNewBatsman
  dsimp only
  split
  · split
    · exact ⟨rfl, by dsimp only; exact Nat.le_add_right_of_le (Nat.le_add_right _ _)⟩
    · exact ⟨rfl, by dsimp only; exact Nat.le_add_right _ _⟩
  · exact ⟨rfl, by dsimp only; exact Nat.le_add_right _ _⟩

theorem switchStrike_bowling (db : DB) (inningsId : RowId) :
    (switchStrike db inningsId).1.bowling = db.bowling ∧
      (switchStrike db inningsId).1.nextId = db.nextId := by
  unfold switchStrike
  split
  · split <;> exact ⟨rfl, rfl⟩
  · exact ⟨rfl, rfl⟩

/-- In a table with distinct ids exactly one row carries a given row's id. -/
theorem filter_id_length {l : List BowlingEntry} (hnd : (l.map (fun b => b.id)).Nodup)
    {e : BowlingEntry} (he : e ∈ l) : (l.filter (fun b => b.id == e.id)).length = 1 := by
  have h1 := List.count_eq_one_of_mem hnd (List.mem_map.mpr ⟨e, he, rfl⟩)
  rw [List.count_eq_countP, List.countP_map, List.countP_eq_length_filter] at h1
  exact h1

/-- With no player entered twice, at most one row is selected by an innings and a
player. -/
theorem filter_player_length_le (l : List BowlingEntry) (j p : RowId)
    (hpl : ((l.filter (fun b => b.innings_id == j)).map (fun b => b.player_id)).Nodup) :
    (l.filter (fun b => b.innings_id == j && b.player_id == p)).length ≤ 1 := by
  have h1 := List.nodup_iff_count_le_one.mp hpl p
  rw [List.count_eq_countP, List.countP_map, List.countP_eq_length_filter,
    List.filter_filter] at h1
  have : l.filter (fun b => b.innings_id == j && b.player_id == p) =
      l.filter (fun a => ((fun x => x == p) ∘ fun b : BowlingEntry => b.player_id) a &&
        (a.innings_id == j)) := by
    apply List.filter_congr
    intro x _
    simp [Bool.and_comm]
  rw [this]
  exact h1

/-- `changeBowler`, on this or on any other innings, keeps the current-bowler
invariant. -/
theorem changeBowler_invariant (db : DB) (j p inningsId : RowId)
    (h : bowlerInvariant db inningsId) : bowlerInvariant (changeBowler db j p).1 inningsId := by
  obtain ⟨⟨hnd, hlt⟩, hcur, hpl⟩ := h
  -- the table after the unmarking write
  have hUid : ∀ b : BowlingEntry,
      (if (b.innings_id == j && b.is_current_bowler) = true then
        { b with is_current_bowler := false } else b).id = b.id := by
    intro b; split <;> rfl
  have hUinn : ∀ b : BowlingEntry,
      (if (b.innings_id == j && b.is_current_bowler) = true then
        { b with is_current_bowler := false } else b).innings_id = b.innings_id := by
    intro b; split <;> rfl
  have hUpl : ∀ b : BowlingEntry,
      (if (b.innings_id == j && b.is_current_bowler) = true then
        { b with is_current_bowler := false } else b).player_id = b.player_id := by
    intro b; split <;> rfl
  generalize hl1 : db.bowling.map (fun b =>
      if (b.innings_id == j && b.is_current_bowler) = true then
        { b with is_current_bowler := false } else b) = l1
  have hids1 : l1.map (fun b => b.id) = db.bowling.map (fun b => b.id) := by
    rw [← hl1, List.map_map]
    exact List.map_congr_left (fun b _ => hUid b)
  have hnd1 : (l1.map (fun b => b.id)).Nodup := by rw [hids1]; exact hnd
  have hlt1 : ∀ b ∈ l1, b.id < db.nextId := by
    intro b hb
    rw [← hl1] at hb
    obtain ⟨x, hx, rfl⟩ := List.mem_map.mp hb
    rw [hUid]
    exact hlt x hx
  have hpl1 : ∀ k, (l1.filter (fun b => b.innings_id == k)).map (fun b => b.player_id) =
      (db.bowling.filter (fun b => b.innings_id == k)).map (fun b => b.player_id) := by
    intro k
    rw [← hl1, filter_map_of_key, List.map_map]
    · exact List.map_congr_left (fun b _ => hUpl b)
    · intro x
      rw [hUinn]
  have hoff : ∀ x ∈ l1, x.innings_id = j → x.is_current_bowler = false := by
    intro x hx hxj
    rw [← hl1] at hx
    obtain ⟨y, -, rfl⟩ := List.mem_map.mp hx
    by_cases hc : (y.innings_id == j && y.is_current_bowler) = true
    · rw [if_pos hc]
    · rw [if_neg hc] at hxj ⊢
      simpa [hxj] using hc
  have hcur1 : inningsId ≠ j →
      (l1.filter (fun b => b.innings_id == inningsId && b.is_current_bowler)).length = 1 := by
    intro hne
    rw [← hl1, filter_map_of_key, List.length_map]
    · exact hcur
    · intro x
      by_cases hc : (x.innings_id == j && x.is_current_bowler) = true
      · rw [if_pos hc]
        have hxj : x.innings_id = j := by
          have := hc
          simp only [Bool.and_eq_true, beq_iff_eq] at this
          exact this.1
        have h1 : (x.innings_id == inningsId) = false := by
          simp only [beq_eq_false_iff_ne, ne_eq]
          rw [hxj]
          exact fun hh => hne hh.symm
        simp [h1]
      · rw [if_neg hc]
  have hcur0 : inningsId = j →
      l1.filter (fun b => b.innings_id == inningsId && b.is_current_bowler) = [] := by
    intro he
    rw [List.filter_eq_nil_iff]
    intro x hx hc
    simp only [Bool.and_eq_true, beq_iff_eq] at hc
    have := hoff x hx (hc.1.trans he)
    rw [this] at hc
    exact absurd hc.2 (by simp)
  unfold changeBowler
  dsimp only
  unfold findBowling
  dsimp only
  rw [hl1]
  split
  · -- an entry exists: it is marked
    rename_i e he
    have hsingle := single_eq_some he
    have hemem : e ∈ l1.filter (fun b => b.innings_id == j && b.player_id == p) := by
      rw [hsingle]; exact List.mem_singleton_self _
    have hel1 : e ∈ l1 := (List.mem_filter.mp hemem).1
    have hej : e.innings_id = j := by
      have := (List.mem_filter.mp hemem).2
      simp only [Bool.and_eq_true, beq_iff_eq] at this
      exact this.1
    have hMid : ∀ b : BowlingEntry,
        (if (b.id == e.id) = true then { b with is_current_bowler := true } else b).id = b.id := by
      intro b; split <;> rfl
    have hMinn : ∀ b : BowlingEntry,
        (if (b.id == e.id) = true then { b with is_current_bowler := true } else b).innings_id =
          b.innings_id := by
      intro b; split <;> rfl
    have hMpl : ∀ b : BowlingEntry,
        (if (b.id == e.id) = true then { b with is_current_bowler := true } else b).player_id =
          b.player_id := by
      intro b; split <;> rfl
    have hinv : bowlerInvariant
        { db with bowling := l1.map (fun b =>
            if (b.id == e.id) = true then { b with is_current_bowler := true } else b) }
        inningsId := by
      refine ⟨⟨?_, ?_⟩, ?_, ?_⟩
      · show ((l1.map _).map _).Nodup
        rw [List.map_map]
        have : l1.map ((fun b : BowlingEntry => b.id) ∘ fun b =>
            if (b.id == e.id) = true then { b with is_current_bowler := true } else b) =
            l1.map (fun b => b.id) := List.map_congr_left (fun b _ => hMid b)
        rw [this]
        exact hnd1
      · intro b hb
        obtain ⟨x, hx, rfl⟩ := List.mem_map.mp hb
        rw [hMid]
        exact hlt1 x hx
      · unfold currentBowlers
        dsimp only
        by_cases hij : inningsId = j
        · rw [List.filter_map, List.length_map]
          have : l1.filter ((fun b : BowlingEntry =>
              b.innings_id == inningsId && b.is_current_bowler) ∘ fun b =>
              if (b.id == e.id) = true then { b with is_current_bowler := true } else b) =
              l1.filter (fun b => b.id == e.id) := by
            apply List.filter_congr
            intro x hx
            dsimp only [Function.comp_apply]
            by_cases hxe : x.id = e.id
            · have hxeq : x = e := List.inj_on_of_nodup_map hnd1 hx hel1 hxe
              subst hxeq
              simp [hej, hij]
            · have hxe' : (x.id == e.id) = false := by simpa using hxe
              rw [hxe']
              simp only [Bool.false_eq_true, if_false]
              by_cases hxj : x.innings_id = j
              · rw [hoff x hx hxj]; simp
              · have : (x.innings_id == inningsId) = false := by
                  simpa [hij] using hxj
                rw [this]; simp
          rw [this]
          exact filter_id_length hnd1 hel1
        · rw [filter_map_of_key_mem, List.length_map]
          · exact hcur1 hij
          · intro x hx
            by_cases hxe : x.id = e.id
            · have hxeq : x = e := List.inj_on_of_nodup_map hnd1 hx hel1 hxe
              subst hxeq
              have : (x.innings_id == inningsId) = false := by
                simp only [beq_eq_false_iff_ne, ne_eq]
                rw [hej]
                exact fun hh => hij hh.symm
              simp [this]
            · have hxe' : (x.id == e.id) = false := by simpa using hxe
              rw [hxe']
              simp
      · unfold bowlersOf
        dsimp only
        rw [filter_map_of_key, List.map_map]
        · have : (l1.filter (fun b => b.innings_id == inningsId)).map
              ((fun b : BowlingEntry => b.player_id) ∘ fun b =>
                if (b.id == e.id) = true then { b with is_current_bowler := true } else b) =
              (l1.filter (fun b => b.innings_id == inningsId)).map (fun b => b.player_id) :=
            List.map_congr_left (fun b _ => hMpl b)
          rw [this, hpl1]
          exact hpl
        · intro x
          rw [hMinn]
    split <;> exact hinv
  · -- no entry: one is inserted
    rename_i hnone
    refine ⟨⟨?_, ?_⟩, ?_, ?_⟩
    · show ((l1 ++ [newBowlingEntry db.nextId j p]).map (fun b => b.id)).Nodup
      rw [List.map_append]
      apply List.Nodup.append hnd1 (by simp)
      intro a ha hb
      obtain ⟨x, hx, rfl⟩ := List.mem_map.mp ha
      simp only [List.map_cons, List.map_nil, List.mem_singleton, newBowlingEntry] at hb
      exact absurd hb (Nat.ne_of_lt (hlt1 x hx))
    · intro b hb
      show b.id < db.nextId + 1
      rcases List.mem_append.mp hb with hb | hb
      · exact Nat.lt_succ_of_lt (hlt1 b hb)
      · simp only [List.mem_singleton] at hb
        subst hb
        exact Nat.lt_succ_self _
    · unfold currentBowlers
      dsimp only
      rw [List.filter_append]
      by_cases hij : inningsId = j
      · rw [hcur0 hij]
        simp [newBowlingEntry, hij]
      · rw [List.length_append, hcur1 hij]
        have : (j == inningsId) = false := by
          simp only [beq_eq_false_iff_ne, ne_eq]
          exact fun hh => hij hh.symm
        simp [newBowlingEntry, this]
    · unfold bowlersOf
      dsimp only
      rw [List.filter_append, List.map_append, hpl1]
      by_cases hij : inningsId = j
      · subst hij
        have hle := filter_player_length_le l1 inningsId p (by rw [hpl1]; exact hpl)
        have hnil : l1.filter (fun b => b.innings_id == inningsId && b.player_id == p) = [] := by
          generalize l1.filter (fun b => b.innings_id == inningsId && b.player_id == p) = F
            at hnone hle
          match F, hnone, hle with
          | [], _, _ => rfl
          | [x], hnone, _ => simp [single] at hnone
          | _ :: _ :: _, _, hle => simp at hle
        apply List.Nodup.append hpl (by simp [newBowlingEntry])
        intro a ha hb
        simp only [newBowlingEntry, beq_self_eq_true, List.filter_cons_of_pos, List.filter_nil,
          List.map_cons, List.map_nil, List.mem_singleton] at hb
        subst hb
        have ha' : a ∈ (l1.filter (fun b => b.innings_id == inningsId)).map
            (fun b => b.player_id) := by
          rw [hpl1]; exact ha
        obtain ⟨x, hx, hxp⟩ := List.mem_map.mp ha'
        have hx' := List.mem_filter.mp hx
        have : x ∈ l1.filter (fun b => b.innings_id == inningsId && b.player_id == a) :=
          List.mem_filter.mpr ⟨hx'.1, by simp [hxp, beq_iff_eq.mp hx'.2]⟩
        rw [hnil] at this
        cases this
      · have : (j == inningsId) = false := by
          simp only [beq_eq_false_iff_ne, ne_eq]
          exact fun hh => hij hh.symm
        simp only [newBowlingEntry, this, Bool.false_eq_true, not_false_eq_true,
          List.filter_cons_of_neg, List.filter_nil, List.map_nil, List.append_nil]
        exact hpl

theorem initializeInnings_invariant (db : DB) (inningsId batsman1 batsman2 bowler : RowId)
    (hfresh : bowlingIdsFresh db) (hnew : ∀ b ∈ db.bowling, b.innings_id ≠ inningsId) :
    bowlerInvariant (initializeInnings db inningsId batsman1 batsman2 bowler) inningsId := by
  obtain ⟨hnd, hlt⟩ := hfresh
  have hnil : ∀ q : BowlingEntry → Bool,
      db.bowling.filter (fun b => b.innings_id == inningsId && q b) = [] := by
    intro q
    rw [List.filter_eq_nil_iff]
    intro b hb
    have := hnew b hb
    simp [this]
  have hnil' : db.bowling.filter (fun b => b.innings_id == inningsId) = [] := by
    rw [List.filter_eq_nil_iff]
    intro b hb
    simpa using hnew b hb
  refine ⟨⟨?_, ?_⟩, ?_, ?_⟩
  · show ((db.bowling ++ [newBowlingEntry (db.nextId + 2) inningsId bowler]).map
      (fun b => b.id)).Nodup
    rw [List.map_append]
    apply List.Nodup.append hnd (by simp)
    intro a ha hb
    obtain ⟨x, hx, rfl⟩ := List.mem_map.mp ha
    simp only [List.map_cons, List.map_nil, List.mem_singleton, newBowlingEntry] at hb
    have := hlt x hx
    rw [hb] at this
    exact absurd this (by simp)
  · intro b hb
    show b.id < db.nextId + 4
    rcases List.mem_append.mp hb with hb | hb
    · exact Nat.lt_add_right 4 (hlt b hb)
    · simp only [List.mem_singleton] at hb
      subst hb
      show db.nextId + 2 < db.nextId + 4
      exact Nat.add_lt_add_left (by decide) _
  · show ((db.bowling ++ [newBowlingEntry (db.nextId + 2) inningsId bowler]).filter
      (fun b => b.innings_id == inningsId && b.is_current_bowler)).length = 1
    rw [List.filter_append, hnil]
    simp [newBowlingEntry]
  · show (((db.bowling ++ [newBowlingEntry (db.nextId + 2) inningsId bowler]).filter
      (fun b => b.innings_id == inningsId)).map (fun b => b.player_id)).Nodup
    rw [List.filter_append, hnil']
    simp [newBowlingEntry]

/-- Every call of a scoring session keeps the current-bowler invariant. -/
theorem ScoringOp.run_invariant (db : DB) (op : ScoringOp) (inningsId : RowId)
    (h : bowlerInvariant db inningsId) : bowlerInvariant (op.run db) inningsId := by
  cases op with
  | ball d =>
    obtain ⟨f, hf, hb, hn⟩ := recordBall_bowling db d
    exact bowlerInvariant_of_map f hf hb hn h
  | bowler j p => exact changeBowler_invariant db j p inningsId h
  | batsman j p =>
    obtain ⟨hb, hn⟩ := addNewBatsman_bowling db j p
    exact bowlerInvariant_of_map id (fun _ => ⟨rfl, rfl, rfl, rfl⟩)
      (by rw [List.map_id]; exact hb) hn h
  | strike j =>
    obtain ⟨hb, hn⟩ := switchStrike_bowling db j
    exact bowlerInvariant_of_map id (fun _ => ⟨rfl, rfl, rfl, rfl⟩)
      (by rw [List.map_id]; exact hb) (le_of_eq hn.symm) h
  | undo j =>
    obtain ⟨f, hf, hb, hn⟩ := undoLastAction_bowling db j
    exact bowlerInvariant_of_map f hf hb hn h

theorem runOps_invariant (ops : List ScoringOp) (db : DB) (inningsId : RowId)
    (h : bowlerInvariant db inningsId) : bowlerInvariant (runOps db ops) inningsId := by
  induction ops generalizing db with
  | nil => exact h
  | cons op ops ih => exact ih (op.run db) (ScoringOp.run_invariant db op inningsId h)

/-- C20: start from a database whose bowling rows have distinct ids below the id counter
and none of which belongs to the innings; after `initializeInnings` and then any sequence
of `recordBall`, `changeBowler`, `addNewBatsman`, `switchStrike` and `undoLastAction`
calls (with any arguments, successful or not), exactly one bowling entry of the innings is
marked current and no player has two bowling entries in the innings. -/
theorem current_bowler_invariant (db : DB) (inningsId batsman1 batsman2 bowler : RowId)
    (ops : List ScoringOp)
    (hfresh : bowlingIdsFresh db) (hnew : ∀ b ∈ db.bowling, b.innings_id ≠ inningsId) :
    (currentBowlers
        (runOps (initializeInnings db inningsId batsman1 batsman2 bowler) ops)
        inningsId).length = 1 ∧
      (bowlersOf (runOps (initializeInnings db inningsId batsman1 batsman2 bowler) ops)
        inningsId).Nodup :=
  (runOps_invariant ops _ inningsId
    (initializeInnings_invariant db inningsId batsman1 batsman2 bowler hfresh hnew)).2

/-- C20, witness: the session `sessionOps` on the first innings of match 1, which changes
the bowler three times (to a new player, back to an earlier one, to the current one). -/
theorem current_bowler_invariant_witness :
    bowlersOf (runOps (initializeInnings dbEmptyInnings 1 10 11 20) sessionOps) 1 = [20, 21] ∧
      (currentBowlers (runOps (initializeInnings dbEmptyInnings 1 10 11 20) sessionOps)
        1).length = 1 ∧
      (bowlersOf (runOps (initializeInnings dbEmptyInnings 1 10 11 20) sessionOps)
        1).Nodup :=
  ⟨rfl, current_bowler_invariant dbEmptyInnings 1 10 11 20 sessionOps
    ⟨List.nodup_nil, fun _ hb => by cases hb⟩ (fun _ hb => by cases hb)⟩

/-! ### The points table -/

/-- C15: `calculateNRR` is the scoring rate minus the conceding rate, a rate with zero
overs counting as 0, for all rational arguments (so in particular for non-negative ones);
with 300 runs in 20 overs scored and 280 in 20 conceded it is 1. -/
theorem calculateNRR_formula (runsScored oversFaced runsConceded oversBowled : ℚ) :
    calculateNRR runsScored oversFaced runsConceded oversBowled =
      (if oversFaced > 0 then runsScored / oversFaced else 0) -
        (if oversBowled > 0 then runsConceded / oversBowled else 0) ∧
    calculateNRR 300 20 280 20 = 1 := by
  constructor
  · unfold calculateNRR
    split
    · rename_i h
      simp [h.1, h.2]
    · rfl
  · unfold calculateNRR
    norm_num

theorem rankBefore_iff (a b : Standing) :
    rankBefore a b ↔ b.points < a.points ∨ (b.points = a.points ∧ b.nrr ≤ a.nrr) := by
  unfold rankBefore
  by_cases h : b.points = a.points
  · simp [h]
  · simp [h]

theorem rankBefore_total (a b : Standing) : rankBefore a b ∨ rankBefore b a := by
  rw [rankBefore_iff, rankBefore_iff]
  rcases lt_trichotomy a.points b.points with h | h | h
  · exact Or.inr (Or.inl h)
  · rcases le_total a.nrr b.nrr with h' | h'
    · exact Or.inr (Or.inr ⟨h, h'⟩)
    · exact Or.inl (Or.inr ⟨h.symm, h'⟩)
  · exact Or.inl (Or.inl h)

theorem rankBefore_trans (a b c : Standing) :
    rankBefore a b → rankBefore b c → rankBefore a c := by
  rw [rankBefore_iff, rankBefore_iff, rankBefore_iff]
  rintro (h1 | ⟨h1, h1'⟩) (h2 | ⟨h2, h2'⟩)
  · exact Or.inl (lt_trans h2 h1)
  · exact Or.inl (by rw [h2]; exact h1)
  · exact Or.inl (by rw [← h1]; exact h2)
  · exact Or.inr ⟨h2.trans h1, le_trans h2' h1'⟩

/-- Formatting with `toFixed(3)` keeps the order of two numbers. -/
theorem toFixed3_mono {x y : ℚ} (h : x ≤ y) : toFixed3 x ≤ toFixed3 y := by
  unfold toFixed3
  have hpos : (0 : ℚ) < 1000 := by norm_num
  by_cases hx : x < 0
  · by_cases hy : y < 0
    · rw [if_pos hx, if_pos hy]
      apply div_le_div_of_nonneg_right _ (le_of_lt hpos)
      rw [neg_le_neg_iff]
      exact_mod_cast Int.floor_le_floor (by linarith)
    · rw [if_pos hx, if_neg hy]
      have h1 : (0 : ℚ) ≤ ((⌊-x * 1000 + 1 / 2⌋ : Int) : ℚ) := by
        exact_mod_cast Int.floor_nonneg.mpr (by linarith)
      have h2 : (0 : ℚ) ≤ ((⌊y * 1000 + 1 / 2⌋ : Int) : ℚ) := by
        exact_mod_cast Int.floor_nonneg.mpr (by linarith)
      calc -((⌊-x * 1000 + 1 / 2⌋ : Int) : ℚ) / 1000 ≤ 0 := by
            apply div_nonpos_of_nonpos_of_nonneg _ (le_of_lt hpos)
            linarith
        _ ≤ ((⌊y * 1000 + 1 / 2⌋ : Int) : ℚ) / 1000 := div_nonneg h2 (le_of_lt hpos)
  · have hy : ¬ y < 0 := by linarith
    rw [if_neg hx, if_neg hy]
    apply div_le_div_of_nonneg_right _ (le_of_lt hpos)
    exact_mod_cast Int.floor_le_floor (by linarith)

/-- C16: the list returned by `getPointsTable` is in descending order of points and,
among rows with equal points, in descending order of (formatted) net run rate, and the
row at index `i` has position `i + 1`. -/
theorem getPointsTable_sorted (db : DB) (teams : List TeamRow) :
    (getPointsTable db teams).Pairwise
        (fun a b => b.points < a.points ∨ (b.points = a.points ∧ b.nrr ≤ a.nrr)) ∧
      ∀ (i : Nat) (h : i < (getPointsTable db teams).length),
        (getPointsTable db teams)[i].position = i + 1 := by
  unfold getPointsTable
  dsimp only
  generalize (List.map
    (fun team : Standing =>
      { team with
        nrr := calculateNRR team.runsScored team.oversFaced team.runsConceded
          team.oversBowled })
    (List.foldl processMatch (List.map initialStanding teams) (completedMatches db))) = st
  haveI : IsTotal Standing rankBefore := ⟨rankBefore_total⟩
  haveI : IsTrans Standing rankBefore := ⟨rankBefore_trans⟩
  have hsorted := List.sorted_insertionSort rankBefore
    (st.filter (fun team => team.played > 0))
  generalize List.insertionSort rankBefore (st.filter (fun team => team.played > 0)) = l
    at hsorted
  constructor
  · rw [List.pairwise_iff_getElem]
    intro i j hi hj hij
    rw [List.getElem_mapIdx, List.getElem_mapIdx]
    rw [List.length_mapIdx] at hi hj
    have := (List.pairwise_iff_getElem.mp hsorted) i j hi hj hij
    rw [rankBefore_iff] at this
    rcases this with h | ⟨h1, h2⟩
    · exact Or.inl h
    · exact Or.inr ⟨h1, toFixed3_mono h2⟩
  · intro i h
    rw [List.getElem_mapIdx]

/-! ### Row by row through the matches -/

theorem foldl_bump_innings (L : List Innings) (S : List Standing) :
    L.foldl
        (fun s inning =>
          bump (bump s inning.batting_team_id (addBatted inning)) inning.bowling_team_id
            (addBowled inning)) S =
      S.map (fun s => L.foldl inningsStep s) := by
  induction L generalizing S with
  | nil => simp
  | cons i L ih =>
    rw [List.foldl_cons, ih]
    simp only [bump, List.map_map]
    apply List.map_congr_left
    intro s _
    rfl

theorem processMatch_eq_map (S : List Standing) (m : MatchWithInnings) :
    processMatch S m = S.map (fun s => matchStep s m) := by
  unfold processMatch
  dsimp only
  rw [foldl_bump_innings]
  by_cases ht : (m.row.result_type == some ResultType.tied) = true
  · rw [if_pos ht]
    simp only [bump, List.map_map]
    apply List.map_congr_left
    intro s _
    simp only [Function.comp_apply, matchStep, resultStep, if_pos ht]
  · rw [if_neg ht]
    cases hw : m.row.winner_id with
    | none =>
      simp only [bump, List.map_map]
      apply List.map_congr_left
      intro s _
      simp only [Function.comp_apply, matchStep, resultStep, if_neg ht, hw]
    | some w =>
      simp only [bump, List.map_map]
      apply List.map_congr_left
      intro s _
      simp only [Function.comp_apply, matchStep, resultStep, if_neg ht, hw]

theorem foldl_processMatch (ms : List MatchWithInnings) (S : List Standing) :
    ms.foldl processMatch S = S.map (fun s => ms.foldl matchStep s) := by
  induction ms generalizing S with
  | nil => simp
  | cons m ms ih =>
    rw [List.foldl_cons, ih, processMatch_eq_map, List.map_map]
    rfl

/-- The fields of an entry that the points-table theorems follow through the matches. -/
theorem bumpRow_addPlayed (X : RowId) (s : Standing) :
    (bumpRow X addPlayed s).team = s.team ∧ (bumpRow X addPlayed s).won = s.won ∧
      (bumpRow X addPlayed s).tied = s.tied ∧ (bumpRow X addPlayed s).points = s.points ∧
      (bumpRow X addPlayed s).runsScored = s.runsScored ∧
      (bumpRow X addPlayed s).oversFaced = s.oversFaced ∧
      (bumpRow X addPlayed s).runsConceded = s.runsConceded ∧
      (bumpRow X addPlayed s).oversBowled = s.oversBowled := by
  unfold bumpRow
  split <;> exact ⟨rfl, rfl, rfl, rfl, rfl, rfl, rfl, rfl⟩

theorem bumpRow_addLost (X : RowId) (s : Standing) :
    (bumpRow X addLost s).team = s.team ∧ (bumpRow X addLost s).won = s.won ∧
      (bumpRow X addLost s).tied = s.tied ∧ (bumpRow X addLost s).points = s.points ∧
      (bumpRow X addLost s).runsScored = s.runsScored ∧
      (bumpRow X addLost s).oversFaced = s.oversFaced ∧
      (bumpRow X addLost s).runsConceded = s.runsConceded ∧
      (bumpRow X addLost s).oversBowled = s.oversBowled := by
  unfold bumpRow
  split <;> exact ⟨rfl, rfl, rfl, rfl, rfl, rfl, rfl, rfl⟩

theorem bumpRow_addTied (X : RowId) (s : Standing) :
    (bumpRow X addTied s).team = s.team ∧ (bumpRow X addTied s).won = s.won ∧
      (bumpRow X addTied s).tied = s.tied + (if (s.team.id == X) = true then 1 else 0) ∧
      (bumpRow X addTied s).points = s.points + (if (s.team.id == X) = true then 1 else 0) ∧
      (bumpRow X addTied s).runsScored = s.runsScored ∧
      (bumpRow X addTied s).oversFaced = s.oversFaced ∧
      (bumpRow X addTied s).runsConceded = s.runsConceded ∧
      (bumpRow X addTied s).oversBowled = s.oversBowled := by
  unfold bumpRow
  split
  · exact ⟨rfl, rfl, rfl, rfl, rfl, rfl, rfl, rfl⟩
  · exact ⟨rfl, rfl, (add_zero _).symm, (add_zero _).symm, rfl, rfl, rfl, rfl⟩

theorem bumpRow_addWon (X : RowId) (s : Standing) :
    (bumpRow X addWon s).team = s.team ∧
      (bumpRow X addWon s).won = s.won + (if (s.team.id == X) = true then 1 else 0) ∧
      (bumpRow X addWon s).tied = s.tied ∧
      (bumpRow X addWon s).points =
        s.points + 2 * (if (s.team.id == X) = true then 1 else 0) ∧
      (bumpRow X addWon s).runsScored = s.runsScored ∧
      (bumpRow X addWon s).oversFaced = s.oversFaced ∧
      (bumpRow X addWon s).runsConceded = s.runsConceded ∧
      (bumpRow X addWon s).oversBowled = s.oversBowled := by
  unfold bumpRow
  split
  · exact ⟨rfl, rfl, rfl, rfl, rfl, rfl, rfl, rfl⟩
  · exact ⟨rfl, (add_zero _).symm, rfl, by simp, rfl, rfl, rfl, rfl⟩

theorem inningsStep_fields (s : Standing) (i : Innings) :
    (inningsStep s i).team = s.team ∧ (inningsStep s i).won = s.won ∧
      (inningsStep s i).tied = s.tied ∧ (inningsStep s i).points = s.points ∧
      (inningsStep s i).runsScored =
        s.runsScored + (if (s.team.id == i.batting_team_id) = true then i.total_runs else 0) ∧
      (inningsStep s i).oversFaced =
        s.oversFaced + (if (s.team.id == i.batting_team_id) = true then i.total_overs else 0) ∧
      (inningsStep s i).runsConceded =
        s.runsConceded +
          (if (s.team.id == i.bowling_team_id) = true then i.total_runs else 0) ∧
      (inningsStep s i).oversBowled =
        s.oversBowled +
          (if (s.team.id == i.bowling_team_id) = true then i.total_overs else 0) := by
  have hteam : (bumpRow i.batting_team_id (addBatted i) s).team = s.team := by
    unfold bumpRow; split <;> rfl
  unfold inningsStep
  generalize hs1 : bumpRow i.batting_team_id (addBatted i) s = s1 at hteam
  have h1 : s1.won = s.won ∧ s1.tied = s.tied ∧ s1.points = s.points ∧
      s1.runsScored =
        s.runsScored + (if (s.team.id == i.batting_team_id) = true then i.total_runs else 0) ∧
      s1.oversFaced =
        s.oversFaced + (if (s.team.id == i.batting_team_id) = true then i.total_overs else 0) ∧
      s1.runsConceded = s.runsConceded ∧ s1.oversBowled = s.oversBowled := by
    rw [← hs1]
    unfold bumpRow
    split
    · exact ⟨rfl, rfl, rfl, rfl, rfl, rfl, rfl⟩
    · exact ⟨rfl, rfl, rfl, (add_zero _).symm, (add_zero _).symm, rfl, rfl⟩
  obtain ⟨a1, a2, a3, a4, a5, a6, a7⟩ := h1
  rw [← a1, ← a2, ← a3, ← a4, ← a5, ← a6, ← a7, ← hteam]
  unfold bumpRow
  split
  · exact ⟨rfl, rfl, rfl, rfl, rfl, rfl, rfl, rfl⟩
  · exact ⟨rfl, rfl, rfl, rfl, rfl, rfl, (add_zero _).symm, (add_zero _).symm⟩

theorem foldl_inningsStep_fields (L : List Innings) (s : Standing) :
    (L.foldl inningsStep s).team = s.team ∧ (L.foldl inningsStep s).won = s.won ∧
      (L.foldl inningsStep s).tied = s.tied ∧ (L.foldl inningsStep s).points = s.points ∧
      (L.foldl inningsStep s).runsScored =
        s.runsScored +
          ((L.filter (fun i => s.team.id == i.batting_team_id)).map
            (fun i => i.total_runs)).sum ∧
      (L.foldl inningsStep s).oversFaced =
        s.oversFaced +
          ((L.filter (fun i => s.team.id == i.batting_team_id)).map
            (fun i => i.total_overs)).sum ∧
      (L.foldl inningsStep s).runsConceded =
        s.runsConceded +
          ((L.filter (fun i => s.team.id == i.bowling_team_id)).map
            (fun i => i.total_runs)).sum ∧
      (L.foldl inningsStep s).oversBowled =
        s.oversBowled +
          ((L.filter (fun i => s.team.id == i.bowling_team_id)).map
            (fun i => i.total_overs)).sum := by
  induction L generalizing s with
  | nil => simp
  | cons i L ih =>
    obtain ⟨h1, h2, h3, h4, h5, h6, h7, h8⟩ := ih (inningsStep s i)
    obtain ⟨g1, g2, g3, g4, g5, g6, g7, g8⟩ := inningsStep_fields s i
    rw [List.foldl_cons]
    refine ⟨h1.trans g1, h2.trans g2, h3.trans g3, h4.trans g4, ?_, ?_, ?_, ?_⟩
    · rw [h5, g5, g1, List.filter_cons]
      split <;> simp [add_assoc]
    · rw [h6, g6, g1, List.filter_cons]
      split <;> simp [add_assoc]
    · rw [h7, g7, g1, List.filter_cons]
      split <;> simp [add_assoc]
    · rw [h8, g8, g1, List.filter_cons]
      split <;> simp [add_assoc]

theorem beq_swap (a b : RowId) : (a == b) = (b == a) := by
  rw [Bool.eq_iff_iff]
  simp only [beq_iff_eq]
  exact eq_comm

theorem some_beq_some (a b : RowId) : (some a == some b) = (a == b) := by
  rw [Bool.eq_iff_iff]
  simp

/-- What the win/loss/tie branch adds to the entry of a team, when the two sides of the
match are different teams. -/
theorem resultStep_fields (m : MatchRow) (s : Standing) (hne : m.team1_id ≠ m.team2_id) :
    (resultStep m s).team = s.team ∧
      (resultStep m s).won = s.won +
        (if (m.result_type != some .tied && m.winner_id == some s.team.id) = true
          then 1 else 0) ∧
      (resultStep m s).tied = s.tied +
        (if (m.result_type == some .tied &&
            (m.team1_id == s.team.id || m.team2_id == s.team.id)) = true
          then 1 else 0) ∧
      (resultStep m s).points = s.points +
        2 * (if (m.result_type != some .tied && m.winner_id == some s.team.id) = true
          then 1 else 0) +
        (if (m.result_type == some .tied &&
            (m.team1_id == s.team.id || m.team2_id == s.team.id)) = true
          then 1 else 0) ∧
      (resultStep m s).runsScored = s.runsScored ∧
      (resultStep m s).oversFaced = s.oversFaced ∧
      (resultStep m s).runsConceded = s.runsConceded ∧
      (resultStep m s).oversBowled = s.oversBowled := by
  unfold resultStep
  by_cases ht : (m.result_type == some ResultType.tied) = true
  · rw [if_pos ht]
    obtain ⟨a1, a2, a3, a4, a5, a6, a7, a8⟩ := bumpRow_addTied m.team1_id s
    obtain ⟨b1, b2, b3, b4, b5, b6, b7, b8⟩ :=
      bumpRow_addTied m.team2_id (bumpRow m.team1_id addTied s)
    have hnt : (m.result_type != some ResultType.tied) = false := by simp [bne, ht]
    rw [b1, b2, b3, b4, b5, b6, b7, b8, a1, a2, a3, a4, a5, a6, a7, a8, ht, hnt,
      beq_swap m.team1_id, beq_swap m.team2_id]
    have hboth : ¬ ((s.team.id == m.team1_id) = true ∧ (s.team.id == m.team2_id) = true) := by
      rintro ⟨h1, h2⟩
      exact hne ((beq_iff_eq.mp h1).symm.trans (beq_iff_eq.mp h2))
    cases h1 : (s.team.id == m.team1_id) <;> cases h2 : (s.team.id == m.team2_id)
    · simp
    · simp
    · simp
    · exact absurd ⟨h1, h2⟩ hboth
  · rw [if_neg ht]
    have hf : (m.result_type == some ResultType.tied) = false := by simpa using ht
    have hnt : (m.result_type != some ResultType.tied) = true := by simp [bne, hf]
    rw [hf, hnt]
    cases hw : m.winner_id with
    | none => simp
    | some w =>
      dsimp only
      obtain ⟨a1, a2, a3, a4, a5, a6, a7, a8⟩ := bumpRow_addWon w s
      obtain ⟨b1, b2, b3, b4, b5, b6, b7, b8⟩ :=
        bumpRow_addLost (if (w == m.team1_id) = true then m.team2_id else m.team1_id)
          (bumpRow w addWon s)
      rw [b1, b2, b3, b4, b5, b6, b7, b8, a1, a2, a3, a4, a5, a6, a7, a8, some_beq_some,
        beq_swap w]
      simp

theorem matchStep_fields (s : Standing) (m : MatchWithInnings)
    (hne : m.row.team1_id ≠ m.row.team2_id) :
    (matchStep s m).team = s.team ∧
      (matchStep s m).won = s.won +
        (if (m.row.result_type != some .tied && m.row.winner_id == some s.team.id) = true
          then 1 else 0) ∧
      (matchStep s m).tied = s.tied +
        (if (m.row.result_type == some .tied &&
            (m.row.team1_id == s.team.id || m.row.team2_id == s.team.id)) = true
          then 1 else 0) ∧
      (matchStep s m).points = s.points +
        2 * (if (m.row.result_type != some .tied && m.row.winner_id == some s.team.id) = true
          then 1 else 0) +
        (if (m.row.result_type == some .tied &&
            (m.row.team1_id == s.team.id || m.row.team2_id == s.team.id)) = true
          then 1 else 0) ∧
      (matchStep s m).runsScored = s.runsScored +
        ((m.innings.filter (fun i => s.team.id == i.batting_team_id)).map
          (fun i => i.total_runs)).sum ∧
      (matchStep s m).oversFaced = s.oversFaced +
        ((m.innings.filter (fun i => s.team.id == i.batting_team_id)).map
          (fun i => i.total_overs)).sum ∧
      (matchStep s m).runsConceded = s.runsConceded +
        ((m.innings.filter (fun i => s.team.id == i.bowling_team_id)).map
          (fun i => i.total_runs)).sum ∧
      (matchStep s m).oversBowled = s.oversBowled +
        ((m.innings.filter (fun i => s.team.id == i.bowling_team_id)).map
          (fun i => i.total_overs)).sum := by
  obtain ⟨p1, p2, p3, p4, p5, p6, p7, p8⟩ := bumpRow_addPlayed m.row.team1_id s
  obtain ⟨q1, q2, q3, q4, q5, q6, q7, q8⟩ :=
    bumpRow_addPlayed m.row.team2_id (bumpRow m.row.team1_id addPlayed s)
  obtain ⟨r1, r2, r3, r4, r5, r6, r7, r8⟩ := resultStep_fields m.row
    (bumpRow m.row.team2_id addPlayed (bumpRow m.row.team1_id addPlayed s)) hne
  obtain ⟨f1, f2, f3, f4, f5, f6, f7, f8⟩ := foldl_inningsStep_fields m.innings
    (resultStep m.row (bumpRow m.row.team2_id addPlayed (bumpRow m.row.team1_id addPlayed s)))
  have hteam := r1.trans (q1.trans p1)
  rw [hteam] at f5 f6 f7 f8
  rw [q1, p1] at r2 r3 r4
  unfold matchStep
  refine ⟨f1.trans hteam, ?_, ?_, ?_, ?_, ?_, ?_, ?_⟩
  · rw [f2, r2, q2, p2]
  · rw [f3, r3, q3, p3]
  · rw [f4, r4, q4, p4]
  · rw [f5, r5, q5, p5]
  · rw [f6, r6, q6, p6]
  · rw [f7, r7, q7, p7]
  · rw [f8, r8, q8, p8]

theorem foldl_matchStep_fields (ms : List MatchWithInnings) (s : Standing)
    (hne : ∀ m ∈ ms, m.row.team1_id ≠ m.row.team2_id) :
    (ms.foldl matchStep s).team = s.team ∧
      (ms.foldl matchStep s).won = s.won +
        (ms.countP (fun m =>
          m.row.result_type != some .tied && m.row.winner_id == some s.team.id) : Nat) ∧
      (ms.foldl matchStep s).tied = s.tied +
        (ms.countP (fun m =>
          m.row.result_type == some .tied &&
            (m.row.team1_id == s.team.id || m.row.team2_id == s.team.id)) : Nat) ∧
      (ms.foldl matchStep s).points = s.points +
        2 * (ms.countP (fun m =>
          m.row.result_type != some .tied && m.row.winner_id == some s.team.id) : Nat) +
        (ms.countP (fun m =>
          m.row.result_type == some .tied &&
            (m.row.team1_id == s.team.id || m.row.team2_id == s.team.id)) : Nat) ∧
      (ms.foldl matchStep s).runsScored = s.runsScored +
        (((ms.flatMap (fun m => m.innings)).filter
          (fun i => s.team.id == i.batting_team_id)).map (fun i => i.total_runs)).sum ∧
      (ms.foldl matchStep s).oversFaced = s.oversFaced +
        (((ms.flatMap (fun m => m.innings)).filter
          (fun i => s.team.id == i.batting_team_id)).map (fun i => i.total_overs)).sum ∧
      (ms.foldl matchStep s).runsConceded = s.runsConceded +
        (((ms.flatMap (fun m => m.innings)).filter
          (fun i => s.team.id == i.bowling_team_id)).map (fun i => i.total_runs)).sum ∧
      (ms.foldl matchStep s).oversBowled = s.oversBowled +
        (((ms.flatMap (fun m => m.innings)).filter
          (fun i => s.team.id == i.bowling_team_id)).map (fun i => i.total_overs)).sum := by
  induction ms generalizing s with
  | nil => simp
  | cons m ms ih =>
    obtain ⟨g1, g2, g3, g4, g5, g6, g7, g8⟩ :=
      matchStep_fields s m (hne m (List.mem_cons_self _ _))
    obtain ⟨h1, h2, h3, h4, h5, h6, h7, h8⟩ :=
      ih (matchStep s m) (fun x hx => hne x (List.mem_cons_of_mem _ hx))
    rw [g1] at h2 h3 h4 h5 h6 h7 h8
    rw [List.foldl_cons]
    refine ⟨h1.trans g1, ?_, ?_, ?_, ?_, ?_, ?_, ?_⟩
    · rw [h2, g2, List.countP_cons]
      push_cast
      ring
    · rw [h3, g3, List.countP_cons]
      push_cast
      ring
    · rw [h4, g4, List.countP_cons, List.countP_cons]
      push_cast
      ring
    · rw [h5, g5, List.flatMap_cons, List.filter_append, List.map_append, List.sum_append]
      ring
    · rw [h6, g6, List.flatMap_cons, List.filter_append, List.map_append, List.sum_append]
      ring
    · rw [h7, g7, List.flatMap_cons, List.filter_append, List.map_append, List.sum_append]
      ring
    · rw [h8, g8, List.flatMap_cons, List.filter_append, List.map_append, List.sum_append]
      ring

theorem mem_mapIdx_elem {α β : Type} {f : Nat → α → β} {l : List α} {b : β}
    (h : b ∈ l.mapIdx f) : ∃ x ∈ l, ∃ i, b = f i x := by
  obtain ⟨i, hi, hb⟩ := List.mem_mapIdx.mp h
  exact ⟨l[i], List.getElem_mem hi, i, hb.symm⟩

/-- Every row of the table is the standing a team reached through the completed matches,
with `nrr` formatted and a position added. -/
theorem getPointsTable_mem {db : DB} {teams : List TeamRow} {r : PointsTableRow}
    (hr : r ∈ getPointsTable db teams) :
    ∃ t ∈ teams, ∃ n : ℚ,
      r.toStanding =
        { (completedMatches db).foldl matchStep (initialStanding t) with nrr := n } ∧
      ((completedMatches db).foldl matchStep (initialStanding t)).played > 0 := by
  unfold getPointsTable at hr
  dsimp only at hr
  obtain ⟨x, hx, i, rfl⟩ := mem_mapIdx_elem hr
  rw [List.mem_insertionSort] at hx
  obtain ⟨hx1, hx2⟩ := List.mem_filter.mp hx
  obtain ⟨s, hs, rfl⟩ := List.mem_map.mp hx1
  rw [foldl_processMatch] at hs
  obtain ⟨s0, hs0, rfl⟩ := List.mem_map.mp hs
  obtain ⟨t, ht, rfl⟩ := List.mem_map.mp hs0
  exact ⟨t, ht, _, rfl, by simpa using hx2⟩

/-- C17: for every row of the table built from completed matches between two different
teams each: `won` counts the non-tied matches whose `winner_id` is the team, `tied` the
tied matches in which the team played, `points` is `2 * won + tied`, `runsScored` and
`oversFaced` are the sums of `total_runs` and `total_overs` over the innings in which the
team batted, `runsConceded` and `oversBowled` the sums over those in which it bowled. -/
theorem getPointsTable_row (db : DB) (teams : List TeamRow) (r : PointsTableRow)
    (hr : r ∈ getPointsTable db teams)
    (hne : ∀ m ∈ completedMatches db, m.row.team1_id ≠ m.row.team2_id) :
    r.won = ((completedMatches db).countP (fun m =>
        m.row.result_type != some .tied && m.row.winner_id == some r.team.id) : Nat) ∧
      r.tied = ((completedMatches db).countP (fun m =>
        m.row.result_type == some .tied &&
          (m.row.team1_id == r.team.id || m.row.team2_id == r.team.id)) : Nat) ∧
      r.points = 2 * r.won + r.tied ∧
      r.runsScored =
        ((((completedMatches db).flatMap (fun m => m.innings)).filter
          (fun i => i.batting_team_id == r.team.id)).map (fun i => i.total_runs)).sum ∧
      r.oversFaced =
        ((((completedMatches db).flatMap (fun m => m.innings)).filter
          (fun i => i.batting_team_id == r.team.id)).map (fun i => i.total_overs)).sum ∧
      r.runsConceded =
        ((((completedMatches db).flatMap (fun m => m.innings)).filter
          (fun i => i.bowling_team_id == r.team.id)).map (fun i => i.total_runs)).sum ∧
      r.oversBowled =
        ((((completedMatches db).flatMap (fun m => m.innings)).filter
          (fun i => i.bowling_team_id == r.team.id)).map (fun i => i.total_overs)).sum := by
  obtain ⟨t, -, n, hrs, -⟩ := getPointsTable_mem hr
  obtain ⟨h1, h2, h3, h4, h5, h6, h7, h8⟩ :=
    foldl_matchStep_fields (completedMatches db) (initialStanding t) hne
  have hteam : r.team = (initialStanding t).team := by rw [hrs]; exact h1
  have hbat : ∀ L : List Innings,
      L.filter (fun i => i.batting_team_id == r.team.id) =
        L.filter (fun i => (initialStanding t).team.id == i.batting_team_id) := by
    intro L
    apply List.filter_congr
    intro i _
    rw [hteam, beq_swap]
  have hbowl : ∀ L : List Innings,
      L.filter (fun i => i.bowling_team_id == r.team.id) =
        L.filter (fun i => (initialStanding t).team.id == i.bowling_team_id) := by
    intro L
    apply List.filter_congr
    intro i _
    rw [hteam, beq_swap]
  have hwon : r.won = (List.foldl matchStep (initialStanding t) (completedMatches db)).won := by
    rw [hrs]
  have htied : r.tied =
      (List.foldl matchStep (initialStanding t) (completedMatches db)).tied := by
    rw [hrs]
  rw [hbat, hbowl, hteam]
  refine ⟨?_, ?_, ?_, ?_, ?_, ?_, ?_⟩
  · rw [hwon, h2]; simp [initialStanding]
  · rw [htied, h3]; simp [initialStanding]
  · rw [hwon, htied, h2, h3, hrs]
    dsimp only
    rw [h4]
    simp [initialStanding]
  · rw [hrs]; dsimp only; rw [h5]; simp [initialStanding]
  · rw [hrs]; dsimp only; rw [h6]; simp [initialStanding]
  · rw [hrs]; dsimp only; rw [h7]; simp [initialStanding]
  · rw [hrs]; dsimp only; rw [h8]; simp [initialStanding]

/-- C17, witness: the season `dbSeason` has two completed, non-archived matches, each
between two different teams, and its table has a row for each of the three teams that
played. -/
theorem getPointsTable_row_witness :
    (completedMatches dbSeason).map (fun m => (m.row.team1_id, m.row.team2_id)) =
        [(1, 2), (2, 3)] ∧
      (getPointsTable dbSeason seasonTeams).length = 3 ∧
      ∀ r ∈ getPointsTable dbSeason seasonTeams,
        r.won = ((completedMatches dbSeason).countP (fun m =>
          m.row.result_type != some .tied && m.row.winner_id == some r.team.id) : Nat) ∧
        r.tied = ((completedMatches dbSeason).countP (fun m =>
          m.row.result_type == some .tied &&
            (m.row.team1_id == r.team.id || m.row.team2_id == r.team.id)) : Nat) ∧
        r.points = 2 * r.won + r.tied := by
  refine ⟨rfl, ?_, ?_⟩
  · unfold getPointsTable
    dsimp only
    rw [List.length_mapIdx, List.length_insertionSort]
    decide
  · intro r hr
    obtain ⟨h1, h2, h3, -⟩ := getPointsTable_row dbSeason seasonTeams r hr (by decide)
    exact ⟨h1, h2, h3⟩

/-! ### Caps, overs and rates -/

/-- The innings row after a successful `recordBall`, field by field against the row read
before. -/
theorem recordBall_innings_row {db db' : DB} {d : BallData} {ball : Ball}
    (h : recordBall db d = (db', .ok ball)) :
    ∃ i i', findInnings db d.inningsId = some i ∧ findInnings db' d.inningsId = some i' ∧
      i' = inningsAfterBall i d i := by
  obtain ⟨i, _, _, _, hi, -, -, -, hi', -, -⟩ := recordBall_ok_lookups h
  exact ⟨i, _, hi, hi', rfl⟩

/-- C25 (as amended): `recordBall` neither completes an innings nor caps its counters.
After a successful call the status and `ended_at` of the innings are what they were,
`total_wickets` has grown by 1 on a wicket and `total_balls` by 1 on a legal delivery,
whatever their values before the call. -/
theorem recordBall_keeps_status (db db' : DB) (d : BallData) (ball : Ball)
    (h : recordBall db d = (db', .ok ball)) :
    ∃ i i', findInnings db d.inningsId = some i ∧ findInnings db' d.inningsId = some i' ∧
      i'.status = i.status ∧ i'.ended_at = i.ended_at ∧
      i'.total_wickets = i.total_wickets + (if d.isWicket then 1 else 0) ∧
      i'.total_balls = i.total_balls + (if countAsBall d.extraType then 1 else 0) := by
  obtain ⟨i, i', hi, hi', rfl⟩ := recordBall_innings_row h
  refine ⟨i, _, hi, hi', rfl, rfl, rfl, ?_⟩
  simp only [inningsAfterBall]
  split <;> simp

/-- C25, witness: the first wicket on the freshly set-up innings. -/
theorem recordBall_keeps_status_witness :
    ∃ db' ball i', recordBall dbStart strikerBowled = (db', .ok ball) ∧
      findInnings db' 1 = some i' ∧ i'.status = .in_progress ∧ i'.total_wickets = 1 ∧
      i'.total_balls = 1 := by
  obtain ⟨i, i', hi, hi', hs, -, hw, hb⟩ :=
    recordBall_keeps_status dbStart _ strikerBowled _ rfl
  cases hi
  exact ⟨_, _, i', rfl, hi', hs, hw, hb⟩

/-- C25, counterexample: eleven wickets recorded on one innings give `total_wickets` 11
with the innings still in progress, and seven dot balls in a one-over match give
`total_balls` 7 with the innings still in progress. -/
theorem recordBall_past_caps_counterexample :
    (findInnings (runOps dbStart (List.replicate 11 (.ball strikerBowled))) 1).map
      (fun i => (i.total_wickets, i.status)) = some (11, .in_progress) ∧
    (findMatch dbOneOver 1).map (fun m => m.overs_per_side) = some 1 ∧
    (findInnings (runOps dbOneOver (List.replicate 7 (.ball dotBall))) 1).map
      (fun i => (i.total_balls, i.status)) = some (7, .in_progress) := by
  decide

theorem jsMod_eq_emod {b : Int} (hb : 0 ≤ b) : jsMod b 6 = b % 6 :=
  Int.tmod_eq_emod hb (by decide)

/-- C26 (as amended): the `total_overs` value `recordBall` stores is the scorecard figure
"overs.balls": the whole overs plus the remaining balls as tenths,
`floor(b/6) + (b mod 6)/10` for the new legal-ball count `b` (9 balls give 1.3). -/
theorem recordBall_total_overs (db db' : DB) (d : BallData) (ball : Ball) (i : Innings)
    (h : recordBall db d = (db', .ok ball))
    (hi : findInnings db d.inningsId = some i) (hb : 0 ≤ i.total_balls) :
    ∃ i', findInnings db' d.inningsId = some i' ∧ 0 ≤ i'.total_balls ∧
      i'.total_overs =
        ((⌊(i'.total_balls : ℚ) / 6⌋ : Int) : ℚ) + ((i'.total_balls % 6 : Int) : ℚ) / 10 := by
  obtain ⟨i0, i', hi0, hi', rfl⟩ := recordBall_innings_row h
  rw [hi] at hi0
  cases hi0
  have hb' : 0 ≤ (inningsAfterBall i d i).total_balls := by
    simp only [inningsAfterBall]
    split <;> omega
  refine ⟨_, hi', hb', ?_⟩
  have hfl : ∀ n : Int, ⌊(n : ℚ) / 6⌋ = n / 6 := fun n => by
    have := Rat.floor_intCast_div_natCast n 6
    simpa using this
  rw [hfl, ← jsMod_eq_emod hb']
  rfl

/-- C26, witness: the ninth dot ball. -/
theorem recordBall_total_overs_witness :
    ∃ db' ball i', recordBall dbEightDots dotBall = (db', .ok ball) ∧
      findInnings db' 1 = some i' ∧ i'.total_balls = 9 ∧ i'.total_overs = 13 / 10 := by
  obtain ⟨i', hi', -, ho⟩ :=
    recordBall_total_overs dbEightDots _ dotBall _ _ rfl rfl (by decide)
  have hb : i'.total_balls = 9 := by cases hi'; rfl
  refine ⟨_, _, i', rfl, hi', hb, ?_⟩
  rw [ho, hb]
  norm_num

/-- C26, counterexample: with eight legal balls bowled, the ninth leaves `total_overs` at
13/10, not at `floor(9/6) + (9 mod 6)/6 = 3/2`. -/
theorem total_overs_nine_balls_counterexample :
    ∃ db' ball i', recordBall dbEightDots dotBall = (db', .ok ball) ∧
      findInnings db' 1 = some i' ∧ i'.total_balls = 9 ∧ i'.total_overs = 13 / 10 ∧
      i'.total_overs ≠ ((⌊((9 : Int) : ℚ) / 6⌋ : Int) : ℚ) + (((9 : Int) % 6 : Int) : ℚ) / 6 := by
  obtain ⟨i0, i', hi0, hi', he⟩ := recordBall_innings_row
    (show recordBall dbEightDots dotBall = (_, .ok _) from rfl)
  have hb : i'.total_balls = 9 := by cases hi'; rfl
  have ho : i'.total_overs = oversDecimal 9 := by cases hi'; rfl
  have h3 : jsMod 9 6 = 3 := by decide
  have h1 : (9 : Int) / 6 = 1 := by decide
  have hv : oversDecimal 9 = 13 / 10 := by
    unfold oversDecimal
    rw [h3, h1]
    norm_num
  refine ⟨_, _, i', rfl, hi', hb, ho.trans hv, ?_⟩
  rw [ho, hv]
  norm_num

/-! ### The extras breakdown -/

/-- C27 (as amended): for a delivery recorded with extra type bye, leg_bye, no_ball_bye or
no_ball_leg_bye (any extras), with extra type wide or no_ball and extras exactly 1, or with
no extra type and extras 0, the increments applied to `wides`, `no_balls`, `byes` and
`leg_byes` sum to the increment applied to `extras`; so an innings whose breakdown summed
to its extras before such a delivery still does afterwards. -/
theorem recordBall_extras_breakdown (db db' : DB) (d : BallData) (ball : Ball)
    (h : recordBall db d = (db', .ok ball))
    (hd : (d.extraType = some .bye ∨ d.extraType = some .leg_bye ∨
            d.extraType = some .no_ball_bye ∨ d.extraType = some .no_ball_leg_bye) ∨
          ((d.extraType = some .wide ∨ d.extraType = some .no_ball) ∧ d.extras = 1) ∨
          (d.extraType = none ∧ d.extras = 0)) :
    ∃ i i', findInnings db d.inningsId = some i ∧ findInnings db' d.inningsId = some i' ∧
      (i'.wides - i.wides) + (i'.no_balls - i.no_balls) + (i'.byes - i.byes) +
          (i'.leg_byes - i.leg_byes) = i'.extras - i.extras ∧
      (i.wides + i.no_balls + i.byes + i.leg_byes = i.extras →
        i'.wides + i'.no_balls + i'.byes + i'.leg_byes = i'.extras) := by
  obtain ⟨i, i', hi, hi', rfl⟩ := recordBall_innings_row h
  have key : (extraIncrements d.extraType d.extras).1 + (extraIncrements d.extraType d.extras).2.1 +
      (extraIncrements d.extraType d.extras).2.2.1 +
      (extraIncrements d.extraType d.extras).2.2.2 = d.extras := by
    rcases hd with (he | he | he | he) | ⟨he | he, hx⟩ | ⟨he, hx⟩ <;>
      simp [extraIncrements, he] <;> omega
  refine ⟨i, _, hi, hi', ?_, ?_⟩
  · simp only [inningsAfterBall]
    omega
  · intro hsum
    simp only [inningsAfterBall]
    omega

/-- C27, witness: the leg bye on the freshly set-up innings. -/
theorem recordBall_extras_breakdown_witness :
    ∃ db' ball i', recordBall dbStart legByeOne = (db', .ok ball) ∧
      findInnings db' 1 = some i' ∧
      i'.wides + i'.no_balls + i'.byes + i'.leg_byes = i'.extras ∧ i'.extras = 1 := by
  obtain ⟨i, i', hi, hi', -, hsum⟩ :=
    recordBall_extras_breakdown dbStart _ legByeOne _ rfl (Or.inl (Or.inr (Or.inl rfl)))
  cases hi
  exact ⟨_, _, i', rfl, hi', hsum rfl, by cases hi'; rfl⟩

/-- C27, counterexample: a normal delivery carrying the 5 penalty runs adds 5 to `extras`
and nothing to the breakdown; a wide on which the batsmen ran two adds 3 to `extras` and 1
to `wides`. -/
theorem extras_breakdown_counterexample :
    (findInnings (recordBall dbStart penaltyFive).1 1).map
      (fun i => (i.extras, i.wides + i.no_balls + i.byes + i.leg_byes)) = some (5, 0) ∧
    (findInnings (recordBall dbStart wideForTwo).1 1).map
      (fun i => (i.extras, i.wides + i.no_balls + i.byes + i.leg_byes)) = some (3, 1) ∧
    (recordBall dbStart penaltyFive).2.toBool = true ∧
    (recordBall dbStart wideForTwo).2.toBool = true := by
  decide

/-! ### Run rate and economy -/

/-- C30, failing input: the single off the first ball of the innings.  With 1 run off 1
ball the innings is stored with `run_rate` 10 and the bowler with `economy_rate` 10, where
runs per over bowled are `1 × 6 / 1 = 6`: both rates divide by the scorecard figure 0.1
instead of by 1/6 of an over. -/
theorem run_rate_first_single_failing_input :
    ∃ db' ball i' w', recordBall dbStart plainSingle = (db', .ok ball) ∧
      findInnings db' 1 = some i' ∧ findBowling db' 1 20 = some w' ∧
      i'.total_runs = 1 ∧ i'.total_balls = 1 ∧ w'.runs_conceded = 1 ∧ w'.balls_bowled = 1 ∧
      i'.run_rate = 10 ∧ w'.economy_rate = 10 ∧
      i'.run_rate ≠ (i'.total_runs : ℚ) * 6 / (i'.total_balls : ℚ) ∧
      w'.economy_rate ≠ (w'.runs_conceded : ℚ) * 6 / (w'.balls_bowled : ℚ) := by
  have hv : ratePerOver 1 (oversDecimal 1) = 10 := by
    have h1 : jsMod 1 6 = 1 := by decide
    have h0 : (1 : Int) / 6 = 0 := by decide
    unfold ratePerOver oversDecimal
    rw [h1, h0]
    norm_num
  refine ⟨_, _, _, _, rfl, rfl, rfl, rfl, rfl, rfl, rfl, hv, hv, ?_, ?_⟩
  · show ratePerOver 1 (oversDecimal 1) ≠ ((1 : Int) : ℚ) * 6 / ((1 : Int) : ℚ)
    rw [hv]; norm_num
  · show ratePerOver 1 (oversDecimal 1) ≠ ((1 : Int) : ℚ) * 6 / ((1 : Int) : ℚ)
    rw [hv]; norm_num

/-! ### The over-complete prompt -/

/-- C24, failing inputs: with five legal balls bowled, a no-ball with a bye run raises
"Over complete" although it is not counted (the count stays 5), because the page's test
lets `no_ball_bye` through where `recordBall` does not; and a wicket on the sixth legal
ball, sent by `handleWicketSubmit`, brings the count to 6 without the prompt. -/
theorem over_complete_prompt_failing_inputs :
    isLegalDelivery (some .no_ball_bye) = true ∧ countAsBall (some .no_ball_bye) = false ∧
    isLegalDelivery (some .no_ball_leg_bye) = true ∧
    countAsBall (some .no_ball_leg_bye) = false ∧
    ∃ page, pageLoaded dbFiveDots 1 = some page ∧
      (findInnings dbFiveDots 1).map (fun i => i.total_balls) = some 5 ∧
      (handleAdvancedScoringSubmit dbFiveDots page noBallByeOne).error = none ∧
      (handleAdvancedScoringSubmit dbFiveDots page noBallByeOne).overComplete = true ∧
      (findInnings (handleAdvancedScoringSubmit dbFiveDots page noBallByeOne).db 1).map
        (fun i => i.total_balls) = some 5 ∧
      (handleWicketSubmit dbFiveDots page tenBowled).error = none ∧
      (handleWicketSubmit dbFiveDots page tenBowled).overComplete = false ∧
      (findInnings (handleWicketSubmit dbFiveDots page tenBowled).db 1).map
        (fun i => i.total_balls) = some 6 := by
  refine ⟨rfl, rfl, rfl, rfl, _, rfl, ?_⟩
  decide

/-- C21, failing input: the non-striker is run out, batsman 12 comes in, and the wicket
is undone.  The undo succeeds and leaves the two openers not out with neither of them on
strike. -/
theorem striker_invariant_failing_input :
    (undoLastAction (runOps dbStart [.ball nonStrikerRunOut, .batsman 1 12]) 1).2 = .ok true ∧
    (currentBatsmen (runOps dbStart [.ball nonStrikerRunOut, .batsman 1 12, .undo 1]).batting
      1).map (fun b => (b.player_id, b.is_on_strike)) = [(10, false), (11, false)] ∧
    (strikers (runOps dbStart [.ball nonStrikerRunOut, .batsman 1 12, .undo 1]) 1).length = 0 :=
  ⟨rfl, by decide, by decide⟩

/-- C22, failing input: batsman 10 is bowled, 12 comes in and is bowled first ball, undo
is pressed twice (the first undo throws after reopening the partnership of 12, the second
succeeds), and batsman 13 is sent in.  Two partnerships of the innings are then current:
the opening one, whose batsman 10 is out, and the new one of 13 and 11. -/
theorem current_partnership_failing_input :
    (undoLastAction (runOps dbStart
      [.ball strikerBowled, .batsman 1 12, .ball twelveBowled]) 1).2 = .error .typeError ∧
    (undoLastAction (runOps dbStart
      [.ball strikerBowled, .batsman 1 12, .ball twelveBowled, .undo 1]) 1).2 = .ok true ∧
    (currentBatsmen (runOps dbStart
      [.ball strikerBowled, .batsman 1 12, .ball twelveBowled, .undo 1, .undo 1]).batting
      1).map (fun b => b.player_id) = [11] ∧
    (currentPartnerships (runOps dbStart
      [.ball strikerBowled, .batsman 1 12, .ball twelveBowled, .undo 1, .undo 1,
       .batsman 1 13]) 1).map (fun p => (p.batsman1_id, p.batsman2_id)) =
      [(10, 11), (13, 11)] :=
  ⟨rfl, rfl, by decide, by decide⟩

/-! ### Matches without a result in the points table -/

/-- C29, failing input: one match completed with no winner and no result type.  Both
teams are listed with `played` 1 and with `won`, `lost`, `tied` and `noResult` all 0. -/
theorem points_table_no_result_failing_input :
    (completedMatches dbAbandoned).map
      (fun m => (m.row.team1_id, m.row.team2_id, m.row.winner_id, m.row.result_type)) =
      [(1, 2, none, none)] ∧
    (getPointsTable dbAbandoned seasonTeams).length = 2 ∧
    ∀ r ∈ getPointsTable dbAbandoned seasonTeams,
      r.played = 1 ∧ r.won = 0 ∧ r.lost = 0 ∧ r.tied = 0 ∧ r.noResult = 0 := by
  refine ⟨rfl, ?_, ?_⟩
  · unfold getPointsTable
    dsimp only
    rw [List.length_mapIdx, List.length_insertionSort]
    decide
  · intro r hr
    obtain ⟨t, ht, n, hr, hp⟩ := getPointsTable_mem hr
    have hfields : r.played = ((completedMatches dbAbandoned).foldl matchStep
          (initialStanding t)).played ∧
        r.won = ((completedMatches dbAbandoned).foldl matchStep (initialStanding t)).won ∧
        r.lost = ((completedMatches dbAbandoned).foldl matchStep (initialStanding t)).lost ∧
        r.tied = ((completedMatches dbAbandoned).foldl matchStep (initialStanding t)).tied ∧
        r.noResult =
          ((completedMatches dbAbandoned).foldl matchStep (initialStanding t)).noResult := by
      rw [hr]
      exact ⟨rfl, rfl, rfl, rfl, rfl⟩
    obtain ⟨h1, h2, h3, h4, h5⟩ := hfields
    rw [h1, h2, h3, h4, h5]
    have hcases : t = { id := 1, name := "Alpha" } ∨ t = { id := 2, name := "Bravo" } ∨
        t = { id := 3, name := "Charlie" } ∨ t = { id := 4, name := "Delta" } := by
      simpa [seasonTeams] using ht
    rcases hcases with rfl | rfl | rfl | rfl
    · decide
    · decide
    · exact absurd hp (by decide)
    · exact absurd hp (by decide)

/-! ### Recording and undoing a delivery -/

theorem getLast?_filter_append_singleton {α : Type} (p : α → Bool) (l : List α) (x : α)
    (hx : p x = true) : ((l ++ [x]).filter p).getLast? = some x := by
  rw [List.filter_append]
  have : [x].filter p = [x] := by simp [hx]
  rw [this, List.getLast?_append_cons, List.getLast?_singleton]

/-- The call `undoLastAction` on a delivery that was not a wicket succeeds as soon as the
journal row, the ball row, the innings row, the batsman's row and the bowler's row are
found, and then it is the four stat writes followed by `undoFinish`. -/
theorem undoLastAction_no_wicket {db : DB} {inningsId : RowId}
    {lastAction : ActionHistoryEntry} {lastBall : Ball} {innings : Innings}
    {batsman : BattingEntry} {bowler : BowlingEntry}
    (ha : (db.history.filter (fun h => h.innings_id == inningsId)).getLast? = some lastAction)
    (hb : (db.balls.filter (fun b => b.innings_id == inningsId)).getLast? = some lastBall)
    (hi : findInnings db inningsId = some innings)
    (hs : findBatting db inningsId lastBall.batsman_id = some batsman)
    (hw : findBowling db inningsId lastBall.bowler_id = some bowler)
    (hnw : lastBall.is_wicket = false) :
    undoLastAction db inningsId =
      (undoFinish
        { db with
          batting := db.batting.map (fun b =>
            if b.id == batsman.id then batsmanAfterUndo batsman lastBall b else b)
          bowling := db.bowling.map (fun b =>
            if b.id == bowler.id then bowlerAfterUndo bowler lastBall b else b)
          innings := db.innings.map (fun i =>
            if i.id == inningsId then inningsAfterUndo innings lastBall i else i)
          partnerships :=
            partnershipsAfterUndo db.partnerships (currentPartnership db inningsId) lastBall }
        inningsId lastAction lastBall, .ok true) := by
  have hw1 : ∀ bt : List BattingEntry,
      findBowling { db with batting := bt } inningsId lastBall.bowler_id = some bowler :=
    fun _ => hw
  unfold undoLastAction
  rw [ha]
  dsimp only
  rw [hb]
  dsimp only
  rw [hi]
  dsimp only
  rw [hs]
  dsimp only
  rw [hw1]
  dsimp only
  rw [hnw]
  rfl


/-- The tables after `undoLastAction` on a delivery that was not a wicket. -/
theorem undoLastAction_no_wicket_tables {db : DB} {inningsId : RowId}
    {lastAction : ActionHistoryEntry} {lastBall : Ball} {innings : Innings}
    {batsman : BattingEntry} {bowler : BowlingEntry}
    (ha : (db.history.filter (fun h => h.innings_id == inningsId)).getLast? = some lastAction)
    (hb : (db.balls.filter (fun b => b.innings_id == inningsId)).getLast? = some lastBall)
    (hi : findInnings db inningsId = some innings)
    (hs : findBatting db inningsId lastBall.batsman_id = some batsman)
    (hw : findBowling db inningsId lastBall.bowler_id = some bowler)
    (hnw : lastBall.is_wicket = false) :
    ∃ db2, undoLastAction db inningsId = (db2, .ok true) ∧
      db2.innings = db.innings.map (fun i =>
        if i.id == inningsId then inningsAfterUndo innings lastBall i else i) ∧
      db2.bowling = db.bowling.map (fun b =>
        if b.id == bowler.id then bowlerAfterUndo bowler lastBall b else b) ∧
      db2.partnerships =
        partnershipsAfterUndo db.partnerships (currentPartnership db inningsId) lastBall ∧
      ∃ f : BattingEntry → BattingEntry,
        db2.batting = (db.batting.map (fun b =>
          if b.id == batsman.id then batsmanAfterUndo batsman lastBall b else b)).map f ∧
        ∀ b, ∃ s, f b = { b with is_on_strike := s } := by
  refine ⟨_, undoLastAction_no_wicket ha hb hi hs hw hnw, rfl, rfl, rfl, ?_⟩
  unfold undoFinish
  dsimp only
  split
  · split
    · exact rotateStrike_eq_map _ _
    · exact ⟨id, by simp, fun b => ⟨b.is_on_strike, rfl⟩⟩
  · exact ⟨id, by simp, fun b => ⟨b.is_on_strike, rfl⟩⟩

theorem partnershipsAfterBall_current (ps : List Partnership) (d : BallData) (p : Partnership)
    (hp : single (ps.filter (fun q => q.innings_id == d.inningsId && q.is_current)) = some p) :
    single ((partnershipsAfterBall ps d).filter
        (fun q => q.innings_id == d.inningsId && q.is_current)) =
      some { p with
        runs_scored := p.runs_scored + (d.runs + d.extras)
        balls_faced := if countAsBall d.extraType then p.balls_faced + 1 else p.balls_faced } := by
  have hkey : (p.innings_id == d.inningsId && p.is_current) = true := by
    have hm : p ∈ ps.filter (fun q => q.innings_id == d.inningsId && q.is_current) := by
      rw [single_eq_some hp]; exact List.mem_singleton_self _
    exact (List.mem_filter.mp hm).2
  unfold partnershipsAfterBall
  rw [hp]
  dsimp only
  rw [single_filter_map_of_key, hp, Option.map_some', if_pos hkey]
  intro x
  split <;> rfl

/-- C28: for every delivery that is not a wicket, a successful `recordBall` followed by
`undoLastAction` on the same innings succeeds and restores every integer counter: the
innings' `total_runs`, `total_wickets`, `total_balls`, `extras`, `wides`, `no_balls`,
`byes` and `leg_byes`, the striker's `runs_scored`, `balls_faced`, `fours` and `sixes`,
the bowler's `balls_bowled`, `runs_conceded` and `wickets_taken`, and the current
partnership's `runs_scored` and `balls_faced`. -/
theorem record_then_undo_restores_counters (db db1 : DB) (d : BallData) (ball : Ball)
    (h : recordBall db d = (db1, .ok ball)) (hnw : d.isWicket = false) :
    ∃ db2 i i2 s s2 w w2,
      undoLastAction db1 d.inningsId = (db2, .ok true) ∧
      findInnings db d.inningsId = some i ∧ findInnings db2 d.inningsId = some i2 ∧
      findBatting db d.inningsId d.batsmanId = some s ∧
      findBatting db2 d.inningsId d.batsmanId = some s2 ∧
      findBowling db d.inningsId d.bowlerId = some w ∧
      findBowling db2 d.inningsId d.bowlerId = some w2 ∧
      (i2.total_runs = i.total_runs ∧ i2.total_wickets = i.total_wickets ∧
        i2.total_balls = i.total_balls ∧ i2.extras = i.extras ∧ i2.wides = i.wides ∧
        i2.no_balls = i.no_balls ∧ i2.byes = i.byes ∧ i2.leg_byes = i.leg_byes) ∧
      (s2.runs_scored = s.runs_scored ∧ s2.balls_faced = s.balls_faced ∧
        s2.fours = s.fours ∧ s2.sixes = s.sixes) ∧
      (w2.balls_bowled = w.balls_bowled ∧ w2.runs_conceded = w.runs_conceded ∧
        w2.wickets_taken = w.wickets_taken) ∧
      ∀ p, currentPartnership db d.inningsId = some p →
        ∃ p2, currentPartnership db2 d.inningsId = some p2 ∧
          p2.runs_scored = p.runs_scored ∧ p2.balls_faced = p.balls_faced := by
  obtain ⟨i, s, w, hi, hs, hw, hball, -, -, -, hP, hballs, hhist, -⟩ := recordBall_ok h
  obtain ⟨i', s', w', t, hi', hs', hw', -, hi1, hs1, hw1⟩ := recordBall_ok_lookups h
  rw [hi] at hi'; cases hi'
  rw [hs] at hs'; cases hs'
  rw [hw] at hw'; cases hw'
  have ha : (db1.history.filter (fun e => e.innings_id == d.inningsId)).getLast? =
      some (journalEntry db i d) := by
    rw [hhist]
    exact getLast?_filter_append_singleton _ _ _ (by simp [journalEntry])
  have hb : (db1.balls.filter (fun b => b.innings_id == d.inningsId)).getLast? = some ball := by
    rw [hballs]
    exact getLast?_filter_append_singleton _ _ _ (by simp [hball, ballRow])
  have hbat : ball.batsman_id = d.batsmanId := by rw [hball]; rfl
  have hbow : ball.bowler_id = d.bowlerId := by rw [hball]; rfl
  have hruns : ball.runs_scored = d.runs := by rw [hball]; rfl
  have hext : ball.extras = d.extras := by rw [hball]; rfl
  have htype : ball.extra_type = d.extraType := by rw [hball]; rfl
  have hwk : ball.is_wicket = false := by rw [hball]; exact hnw
  obtain ⟨db2, hundo, hI2, hW2, hP2, f, hB2, hf⟩ := undoLastAction_no_wicket_tables ha hb hi1
    (by rw [hbat]; exact hs1) (by rw [hbow]; exact hw1) hwk
  have hi2 : findInnings db2 d.inningsId =
      some (inningsAfterUndo (inningsAfterBall i d i) ball (inningsAfterBall i d i)) := by
    have hid : (inningsAfterBall i d i).id = d.inningsId := by
      have hm : inningsAfterBall i d i ∈ db1.innings.filter (fun x => x.id == d.inningsId) := by
        rw [single_eq_some hi1]; exact List.mem_singleton_self _
      simpa using (List.mem_filter.mp hm).2
    unfold findInnings at hi1 ⊢
    rw [hI2, single_filter_map_of_key, hi1, Option.map_some']
    · simp [hid]
    · intro x
      split <;> rfl
  have hs2 : ∃ u, findBatting db2 d.inningsId d.batsmanId =
      some { batsmanAfterUndo { batsmanAfterBall s d s with is_on_strike := t } ball
        { batsmanAfterBall s d s with is_on_strike := t } with is_on_strike := u } := by
    obtain ⟨u, hu⟩ := hf (batsmanAfterUndo { batsmanAfterBall s d s with is_on_strike := t } ball
        { batsmanAfterBall s d s with is_on_strike := t })
    refine ⟨u, ?_⟩
    unfold findBatting at hs1 ⊢
    rw [hB2, single_filter_map_of_key, single_filter_map_of_key, hs1, Option.map_some',
      Option.map_some', if_pos (by simp), hu]
    · intro x
      split <;> rfl
    · intro x
      obtain ⟨v, hv⟩ := hf x
      rw [hv]
  have hw2 : findBowling db2 d.inningsId d.bowlerId =
      some (bowlerAfterUndo (bowlerAfterBall w d w) ball (bowlerAfterBall w d w)) := by
    unfold findBowling at hw1 ⊢
    rw [hW2, single_filter_map_of_key, hw1, Option.map_some', if_pos (by simp)]
    intro x
    split
    · rw [(bowlerAfterUndo_keys _ _ x).2.1, (bowlerAfterUndo_keys _ _ x).2.2.1]
    · rfl
  obtain ⟨u, hs2⟩ := hs2
  refine ⟨db2, i, _, s, _, w, _, hundo, hi, hi2, hs, hs2, hw, hw2, ?_, ?_, ?_, ?_⟩
  · simp only [inningsAfterUndo, inningsAfterBall, hruns, hext, htype, hwk, hnw]
    refine ⟨by omega, by simp, ?_, by omega, by omega, by omega, by omega, by omega⟩
    split_ifs <;> omega
  · simp only [batsmanAfterUndo, batsmanAfterBall, hruns, hext, htype, hwk, hnw]
    refine ⟨by omega, ?_, ?_, ?_⟩ <;> split_ifs <;> omega
  · cases hc : countAsBall d.extraType <;>
      simp [bowlerAfterUndo, bowlerAfterBall, hc, htype, hruns, hext, hwk, hnw]
  · intro p hp
    have hp1 : currentPartnership db1 d.inningsId =
        some { p with
          runs_scored := p.runs_scored + (d.runs + d.extras)
          balls_faced :=
            if countAsBall d.extraType then p.balls_faced + 1 else p.balls_faced } := by
      unfold currentPartnership
      rw [hP, hnw]
      exact partnershipsAfterBall_current _ _ _ hp
    have hp2 : currentPartnership db2 d.inningsId =
        some { p with
          runs_scored := p.runs_scored + (d.runs + d.extras) - (ball.runs_scored + ball.extras)
          balls_faced :=
            if countAsBall ball.extra_type then
              (if countAsBall d.extraType then p.balls_faced + 1 else p.balls_faced) - 1
            else if countAsBall d.extraType then p.balls_faced + 1 else p.balls_faced } := by
      unfold currentPartnership at hp1 ⊢
      rw [hP2]
      unfold currentPartnership
      rw [hp1]
      unfold partnershipsAfterUndo
      dsimp only
      rw [single_filter_map_of_key, hp1, Option.map_some', if_pos (by simp)]
      intro x
      split <;> rfl
    refine ⟨_, hp2, ?_, ?_⟩
    · dsimp only
      rw [hruns, hext]
      omega
    · dsimp only
      rw [htype]
      split_ifs <;> omega

/-- C28, witness: the no-ball hit for four on the freshly set-up innings is recorded and
undone, and every counter is back at 0. -/
theorem record_then_undo_restores_counters_witness :
    ∃ db1 ball db2 i2 s2 w2 p2,
      recordBall dbStart noBallForFour = (db1, .ok ball) ∧
      undoLastAction db1 1 = (db2, .ok true) ∧
      findInnings db2 1 = some i2 ∧ findBatting db2 1 10 = some s2 ∧
      findBowling db2 1 20 = some w2 ∧ currentPartnership db2 1 = some p2 ∧
      i2.total_runs = 0 ∧ i2.extras = 0 ∧ i2.no_balls = 0 ∧ i2.total_balls = 0 ∧
      s2.runs_scored = 0 ∧ s2.fours = 0 ∧ w2.runs_conceded = 0 ∧ p2.runs_scored = 0 := by
  obtain ⟨db2, i, i2, s, s2, w, w2, hundo, hi, hi2, hs, hs2, hw, hw2, hI, hS, hW, hP⟩ :=
    record_then_undo_restores_counters dbStart _ noBallForFour _ rfl rfl
  obtain ⟨p2, hp2, hpr, -⟩ := hP _ rfl
  cases hi
  cases hs
  cases hw
  exact ⟨_, _, db2, i2, s2, w2, p2, rfl, hundo, hi2, hs2, hw2, hp2, hI.1, hI.2.2.2.1,
    hI.2.2.2.2.2.1, hI.2.2.1, hS.1, hS.2.2.1, hW.2.1, hpr⟩

/-! ### The replay law -/

theorem countAsBall_eq (t : Option ExtraType) :
    countAsBall t = (t == none || t == some .bye || t == some .leg_bye) := by
  cases t with
  | none => rfl
  | some e => cases e <;> rfl

theorem countsAsBallFaced_eq (t : Option ExtraType) : countsAsBallFaced t = countAsBall t := by
  cases t with
  | none => rfl
  | some e => cases e <;> rfl

theorem replayRuns_append (l : List Ball) (x : Ball) :
    replayRuns (l ++ [x]) = replayRuns l + (x.runs_scored + x.extras) := by
  simp [replayRuns]

theorem replayBatRuns_append (l : List Ball) (x : Ball) :
    replayBatRuns (l ++ [x]) = replayBatRuns l + x.runs_scored := by
  simp [replayBatRuns]

theorem replayLegalBalls_append (l : List Ball) (x : Ball) :
    replayLegalBalls (l ++ [x]) =
      replayLegalBalls l + (if countAsBall x.extra_type then 1 else 0) := by
  unfold replayLegalBalls
  rw [List.filter_append, List.length_append, countAsBall_eq]
  by_cases hx : (x.extra_type == none || x.extra_type == some .bye ||
      x.extra_type == some .leg_bye) = true
  · simp [List.filter_cons, hx]
  · simp [List.filter_cons, hx]

theorem replayWickets_append (l : List Ball) (x : Ball) :
    replayWickets (l ++ [x]) = replayWickets l + (if x.is_wicket then 1 else 0) := by
  unfold replayWickets
  rw [List.filter_append, List.length_append]
  by_cases hx : x.is_wicket = true
  · simp [List.filter_cons, hx]
  · simp [List.filter_cons, hx]

theorem facedBy_append (l : List Ball) (x : Ball) (p : RowId) :
    facedBy (l ++ [x]) p = if x.batsman_id = p then facedBy l p ++ [x] else facedBy l p := by
  unfold facedBy
  rw [List.filter_append]
  by_cases hx : x.batsman_id = p
  · simp [List.filter_cons, hx]
  · simp [List.filter_cons, hx]

theorem bowledBy_append (l : List Ball) (x : Ball) (p : RowId) :
    bowledBy (l ++ [x]) p = if x.bowler_id = p then bowledBy l p ++ [x] else bowledBy l p := by
  unfold bowledBy
  rw [List.filter_append]
  by_cases hx : x.bowler_id = p
  · simp [List.filter_cons, hx]
  · simp [List.filter_cons, hx]

/-- A row selected by `.single()` is the only row of the table with its key. -/
theorem eq_of_single_filter {α : Type} {p : α → Bool} {l : List α} {a x : α}
    (h : single (l.filter p) = some a) (hx : x ∈ l) (hp : p x = true) : x = a := by
  have hm : x ∈ l.filter p := List.mem_filter.mpr ⟨hx, hp⟩
  rw [single_eq_some h] at hm
  exact List.mem_singleton.mp hm

theorem mem_of_single_filter {α : Type} {p : α → Bool} {l : List α} {a : α}
    (h : single (l.filter p) = some a) : a ∈ l ∧ p a = true := by
  have hm : a ∈ l.filter p := by rw [single_eq_some h]; exact List.mem_singleton_self _
  exact List.mem_filter.mp hm

theorem findBatting_rows {db db' : DB} {F : BattingEntry → BattingEntry}
    (hF : ∀ x, (F x).innings_id = x.innings_id ∧ (F x).player_id = x.player_id)
    {B : List BattingEntry} (hbat : db'.batting = db.batting.map F ++ B) (j p : RowId)
    (hno : ∀ n ∈ B, ¬ (n.innings_id = j ∧ n.player_id = p)) :
    findBatting db' j p = (findBatting db j p).map F := by
  unfold findBatting
  rw [hbat, List.filter_append]
  have hnil : B.filter (fun b => b.innings_id == j && b.player_id == p) = [] := by
    rw [List.filter_eq_nil_iff]
    intro n hn
    simpa using hno n hn
  rw [hnil, List.append_nil, single_filter_map_of_key]
  intro x
  rw [(hF x).1, (hF x).2]

theorem findBowling_rows {db db' : DB} {G : BowlingEntry → BowlingEntry}
    (hG : ∀ x, (G x).innings_id = x.innings_id ∧ (G x).player_id = x.player_id)
    {W : List BowlingEntry} (hbow : db'.bowling = db.bowling.map G ++ W) (j p : RowId)
    (hno : ∀ n ∈ W, ¬ (n.innings_id = j ∧ n.player_id = p)) :
    findBowling db' j p = (findBowling db j p).map G := by
  unfold findBowling
  rw [hbow, List.filter_append]
  have hnil : W.filter (fun b => b.innings_id == j && b.player_id == p) = [] := by
    rw [List.filter_eq_nil_iff]
    intro n hn
    simpa using hno n hn
  rw [hnil, List.append_nil, single_filter_map_of_key]
  intro x
  rw [(hG x).1, (hG x).2]

theorem replayBatRuns_facedBy_nil {l : List Ball} {p : RowId}
    (h : ∀ r ∈ l, r.batsman_id ≠ p) :
    replayBatRuns (facedBy l p) = 0 ∧ replayLegalBalls (facedBy l p) = 0 := by
  have : facedBy l p = [] := by
    unfold facedBy
    rw [List.filter_eq_nil_iff]
    intro r hr
    simpa using h r hr
  rw [this]
  exact ⟨rfl, rfl⟩

theorem replayRuns_bowledBy_nil {l : List Ball} {p : RowId}
    (h : ∀ r ∈ l, r.bowler_id ≠ p) :
    replayRuns (bowledBy l p) = 0 ∧ replayLegalBalls (bowledBy l p) = 0 := by
  have : bowledBy l p = [] := by
    unfold bowledBy
    rw [List.filter_eq_nil_iff]
    intro r hr
    simpa using h r hr
  rw [this]
  exact ⟨rfl, rfl⟩

/-- The replay invariant survives a call that writes no ball row and no innings row,
changes only `is_on_strike` and `is_current_bowler` on existing rows, and adds only rows
with zero figures for players who had no row of their own. -/
theorem replayInvariant_of_rows {db db' : DB} {iid : RowId}
    (hinv : replayInvariant db iid)
    (hballs : db'.balls = db.balls) (hinn : db'.innings = db.innings)
    {F : BattingEntry → BattingEntry} (hF : ∀ x, ∃ s, F x = { x with is_on_strike := s })
    {B : List BattingEntry} (hbat : db'.batting = db.batting.map F ++ B)
    (hnewB : ∀ n ∈ B, n.runs_scored = 0 ∧ n.balls_faced = 0 ∧
      ∀ x ∈ db.batting, ¬ (x.innings_id = n.innings_id ∧ x.player_id = n.player_id))
    {G : BowlingEntry → BowlingEntry}
    (hG : ∀ x, ∃ c, G x = { x with is_current_bowler := c })
    {W : List BowlingEntry} (hbow : db'.bowling = db.bowling.map G ++ W)
    (hnewW : ∀ n ∈ W, n.runs_conceded = 0 ∧ n.balls_bowled = 0 ∧
      findBowling db n.innings_id n.player_id = none) :
    replayInvariant db' iid := by
  obtain ⟨⟨hI, hB, hW⟩, hK⟩ := hinv
  have hL : ledger db' iid = ledger db iid := by unfold ledger; rw [hballs]
  have hFk : ∀ x, (F x).innings_id = x.innings_id ∧ (F x).player_id = x.player_id := by
    intro x; obtain ⟨s, hs⟩ := hF x; rw [hs]; exact ⟨rfl, rfl⟩
  have hGk : ∀ x, (G x).innings_id = x.innings_id ∧ (G x).player_id = x.player_id := by
    intro x; obtain ⟨s, hs⟩ := hG x; rw [hs]; exact ⟨rfl, rfl⟩
  -- a ledger batsman is none of the new batsmen, a ledger bowler none of the new bowlers
  have hnoB : ∀ r ∈ ledger db iid, ∀ n ∈ B,
      ¬ (n.innings_id = iid ∧ n.player_id = r.batsman_id) := by
    intro r hr n hn hkey
    have hsome := (hK r hr).1
    obtain ⟨s, hs⟩ := Option.isSome_iff_exists.mp hsome
    obtain ⟨hsm, hsk⟩ := mem_of_single_filter hs
    simp only [Bool.and_eq_true, beq_iff_eq] at hsk
    exact (hnewB n hn).2.2 s hsm ⟨hsk.1.trans hkey.1.symm, hsk.2.trans hkey.2.symm⟩
  have hnoW : ∀ r ∈ ledger db iid, ∀ n ∈ W,
      ¬ (n.innings_id = iid ∧ n.player_id = r.bowler_id) := by
    intro r hr n hn hkey
    have hsome := (hK r hr).2
    have hnone := (hnewW n hn).2.2
    rw [hkey.1, hkey.2] at hnone
    rw [hnone] at hsome
    cases hsome
  refine ⟨⟨?_, ?_, ?_⟩, ?_⟩
  · rw [hinn, hL]; exact hI
  · intro b hb hbi
    rw [hL]
    rw [hbat] at hb
    rcases List.mem_append.mp hb with hb | hb
    · obtain ⟨x, hx, rfl⟩ := List.mem_map.mp hb
      obtain ⟨s, hs⟩ := hF x
      rw [hs] at hbi ⊢
      exact hB x hx hbi
    · obtain ⟨h1, h2, -⟩ := hnewB b hb
      have := replayBatRuns_facedBy_nil (l := ledger db iid) (p := b.player_id)
        (fun r hr he => hnoB r hr b hb ⟨hbi, he.symm⟩)
      rw [h1, h2, this.1, this.2]
      exact ⟨rfl, rfl⟩
  · intro b hb hbi
    rw [hL]
    rw [hbow] at hb
    rcases List.mem_append.mp hb with hb | hb
    · obtain ⟨x, hx, rfl⟩ := List.mem_map.mp hb
      obtain ⟨s, hs⟩ := hG x
      rw [hs] at hbi ⊢
      exact hW x hx hbi
    · obtain ⟨h1, h2, -⟩ := hnewW b hb
      have := replayRuns_bowledBy_nil (l := ledger db iid) (p := b.player_id)
        (fun r hr he => hnoW r hr b hb ⟨hbi, he.symm⟩)
      rw [h1, h2, this.1, this.2]
      exact ⟨rfl, rfl⟩
  · intro r hr
    rw [hL] at hr
    rw [findBatting_rows hFk hbat iid r.batsman_id (hnoB r hr),
      findBowling_rows hGk hbow iid r.bowler_id (hnoW r hr), Option.isSome_map',
      Option.isSome_map']
    exact hK r hr

theorem changeBowler_rows (db : DB) (j p : RowId) :
    ∃ (G : BowlingEntry → BowlingEntry) (W : List BowlingEntry),
      (∀ x, ∃ c, G x = { x with is_current_bowler := c }) ∧
      (changeBowler db j p).1.bowling = db.bowling.map G ++ W ∧
      (∀ n ∈ W, n.runs_conceded = 0 ∧ n.balls_bowled = 0 ∧
        findBowling db n.innings_id n.player_id = none) ∧
      (changeBowler db j p).1.batting = db.batting ∧
      (changeBowler db j p).1.balls = db.balls ∧
      (changeBowler db j p).1.innings = db.innings := by
  have hU : ∀ x : BowlingEntry, ∃ c,
      (if x.innings_id == j && x.is_current_bowler then
        { x with is_current_bowler := false } else x) = { x with is_current_bowler := c } := by
    intro x
    split
    · exact ⟨false, rfl⟩
    · exact ⟨x.is_current_bowler, rfl⟩
  have hfind : findBowling
      { db with bowling := db.bowling.map (fun b =>
          if b.innings_id == j && b.is_current_bowler then
            { b with is_current_bowler := false }
          else b) } j p =
      (findBowling db j p).map (fun b =>
          if b.innings_id == j && b.is_current_bowler then
            { b with is_current_bowler := false }
          else b) := by
    unfold findBowling
    rw [single_filter_map_of_key]
    intro x
    obtain ⟨c, hc⟩ := hU x
    rw [hc]
  unfold changeBowler
  dsimp only
  split
  · rename_i existingBowler hex
    refine ⟨fun x =>
      (fun b => if b.id == existingBowler.id then { b with is_current_bowler := true } else b)
        ((fun b => if b.innings_id == j && b.is_current_bowler then
            { b with is_current_bowler := false } else b) x), [], ?_, ?_, ?_, ?_⟩
    · intro x
      dsimp only
      split_ifs <;> exact ⟨_, rfl⟩
    · split <;> simp [List.map_map, Function.comp_def]
    · intro n hn; cases hn
    · split <;> exact ⟨rfl, rfl, rfl⟩
  · rename_i hnone
    refine ⟨_, [newBowlingEntry db.nextId j p], hU, rfl, ?_, rfl, rfl, rfl⟩
    intro n hn
    rw [List.mem_singleton] at hn
    subst hn
    refine ⟨rfl, rfl, ?_⟩
    rw [hfind] at hnone
    cases hf : findBowling db j p with
    | none => exact hf
    | some b => rw [hf] at hnone; cases hnone

theorem addNewBatsman_rows (db : DB) (j p : RowId) :
    ∃ (F : BattingEntry → BattingEntry),
      (∀ x, ∃ s, F x = { x with is_on_strike := s }) ∧
      (∃ (n : Int), (addNewBatsman db j p).1.batting =
        db.batting.map F ++ [newBattingEntry db.nextId j p n true]) ∧
      (addNewBatsman db j p).1.bowling = db.bowling ∧
      (addNewBatsman db j p).1.balls = db.balls ∧
      (addNewBatsman db j p).1.innings = db.innings := by
  refine ⟨fun b => if b.innings_id == j && !b.is_out then { b with is_on_strike := false } else b,
    ?_, ?_⟩
  · intro x
    dsimp only
    split
    · exact ⟨false, rfl⟩
    · exact ⟨x.is_on_strike, rfl⟩
  · unfold addNewBatsman
    dsimp only
    split
    · split
      · exact ⟨⟨_, rfl⟩, rfl, rfl, rfl⟩
      · exact ⟨⟨_, rfl⟩, rfl, rfl, rfl⟩
    · exact ⟨⟨_, rfl⟩, rfl, rfl, rfl⟩

theorem switchStrike_rows (db : DB) (j : RowId) :
    ∃ (F : BattingEntry → BattingEntry),
      (∀ x, ∃ s, F x = { x with is_on_strike := s }) ∧
      (switchStrike db j).1.batting = db.batting.map F ∧
      (switchStrike db j).1.bowling = db.bowling ∧
      (switchStrike db j).1.balls = db.balls ∧
      (switchStrike db j).1.innings = db.innings := by
  unfold switchStrike
  split
  · rename_i b0 b1 _
    split
    · rename_i striker nonStriker _ _
      refine ⟨fun b =>
        (fun b => if b.id == nonStriker.id then { b with is_on_strike := true } else b)
          ((fun b => if b.id == striker.id then { b with is_on_strike := false } else b) b),
        ?_, ?_, rfl, rfl, rfl⟩
      · intro x
        dsimp only
        split_ifs <;> exact ⟨_, rfl⟩
      · simp [setStrike, List.map_map, Function.comp_def]
    · refine ⟨fun b =>
        (fun b => if b.id == b1.id then { b with is_on_strike := false } else b)
          ((fun b => if b.id == b0.id then { b with is_on_strike := true } else b) b),
        ?_, ?_, rfl, rfl, rfl⟩
      · intro x
        dsimp only
        split_ifs <;> exact ⟨_, rfl⟩
      · simp [List.map_map, Function.comp_def]
  · exact ⟨id, fun x => ⟨x.is_on_strike, rfl⟩, by simp, rfl, rfl, rfl⟩

/-- The batting table after a successful `recordBall`, row by row. -/
theorem recordBall_batting_rows {db db' : DB} {d : BallData} {ball : Ball}
    (h : recordBall db d = (db', .ok ball)) :
    ∃ (s : BattingEntry) (F : BattingEntry → BattingEntry),
      findBatting db d.inningsId d.batsmanId = some s ∧
      db'.batting = db.batting.map F ∧
      ∀ x, ∃ t, F x =
        { (if x.innings_id == d.inningsId && x.player_id == d.batsmanId then
            batsmanAfterBall s d x else x) with is_on_strike := t } := by
  obtain ⟨i, s, w, -, hs, -, -, -, hB, -⟩ := recordBall_ok h
  refine ⟨s, ?_⟩
  split at hB
  · obtain ⟨f, hf, hfs⟩ := rotateStrike_eq_map (db.batting.map (fun b =>
      if b.innings_id == d.inningsId && b.player_id == d.batsmanId then
        batsmanAfterBall s d b
      else b)) d.inningsId
    refine ⟨fun x => f ((fun b =>
      if b.innings_id == d.inningsId && b.player_id == d.batsmanId then
        batsmanAfterBall s d b
      else b) x), hs, ?_, ?_⟩
    · rw [hB, hf, List.map_map]
      rfl
    · intro x
      exact hfs _
  · exact ⟨_, hs, hB, fun x => ⟨_, rfl⟩⟩

theorem recordBall_replayInvariant {db db' : DB} {d : BallData} {ball : Ball} {iid : RowId}
    (h : recordBall db d = (db', .ok ball)) (hinv : replayInvariant db iid) :
    replayInvariant db' iid := by
  obtain ⟨i, s0, w, hi, hs0, hw, hball, hI', -, hW', -, hballs, -⟩ := recordBall_ok h
  obtain ⟨s, F, hs, hB', hF⟩ := recordBall_batting_rows h
  obtain ⟨⟨hI, hB, hW⟩, hK⟩ := hinv
  have hFk : ∀ x, (F x).innings_id = x.innings_id ∧ (F x).player_id = x.player_id := by
    intro x
    obtain ⟨t, ht⟩ := hF x
    rw [ht]
    dsimp only
    split <;> exact ⟨rfl, rfl⟩
  have hGk : ∀ x : BowlingEntry,
      ((fun b => if b.innings_id == d.inningsId && b.player_id == d.bowlerId then
          bowlerAfterBall w d b else b) x).innings_id = x.innings_id ∧
      ((fun b => if b.innings_id == d.inningsId && b.player_id == d.bowlerId then
          bowlerAfterBall w d b else b) x).player_id = x.player_id := by
    intro x
    dsimp only
    split
    · exact ⟨(bowlerAfterBall_keys w d x).2.1, (bowlerAfterBall_keys w d x).2.2.1⟩
    · exact ⟨rfl, rfl⟩
  have hfb : ∀ q, findBatting db' iid q = (findBatting db iid q).map F := fun q =>
    findBatting_rows hFk (B := []) (by rw [hB', List.append_nil]) iid q
      (fun n hn => by cases hn)
  have hfw : ∀ q, findBowling db' iid q = (findBowling db iid q).map _ := fun q =>
    findBowling_rows hGk (W := []) (by rw [hW', List.append_nil]) iid q
      (fun n hn => by cases hn)
  have hbi : ball.innings_id = d.inningsId := by rw [hball]; rfl
  have hbb : ball.batsman_id = d.batsmanId := by rw [hball]; rfl
  have hbw : ball.bowler_id = d.bowlerId := by rw [hball]; rfl
  have hbr : ball.runs_scored = d.runs := by rw [hball]; rfl
  have hbe : ball.extras = d.extras := by rw [hball]; rfl
  have hbt : ball.extra_type = d.extraType := by rw [hball]; rfl
  have hbk : ball.is_wicket = d.isWicket := by rw [hball]; rfl
  by_cases hd : d.inningsId = iid
  · -- the delivery belongs to the innings
    have hL : ledger db' iid = ledger db iid ++ [ball] := by
      unfold ledger
      rw [hballs, List.filter_append]
      simp [hbi, hd]
    refine ⟨⟨?_, ?_, ?_⟩, ?_⟩
    · intro i' hi' hid
      rw [hI'] at hi'
      obtain ⟨x, hx, rfl⟩ := List.mem_map.mp hi'
      have hxid : x.id = iid := by
        split at hid
        · exact hid
        · exact hid
      have hxi : x = i :=
        eq_of_single_filter hi hx (by simp [hxid, hd])
      subst hxi
      obtain ⟨h1, h2, h3⟩ := hI x hx hxid
      rw [hL, replayRuns_append, replayLegalBalls_append, replayWickets_append, hbr, hbe, hbt,
        hbk, ← h1, ← h2, ← h3]
      simp only [hxid, hd, beq_self_eq_true, if_true, inningsAfterBall]
      refine ⟨trivial, ?_, trivial⟩
      split <;> simp
    · intro b' hb' hbi'
      rw [hB'] at hb'
      obtain ⟨x, hx, rfl⟩ := List.mem_map.mp hb'
      obtain ⟨t, ht⟩ := hF x
      have hxi : x.innings_id = iid := by rw [← (hFk x).1]; exact hbi'
      obtain ⟨h1, h2⟩ := hB x hx hxi
      rw [(hFk x).2, hL, facedBy_append, hbb]
      by_cases hp : x.player_id = d.batsmanId
      · have hxs : x = s := eq_of_single_filter hs hx (by simp [hxi, hd, hp])
        subst hxs
        rw [ht, if_pos hp.symm, replayBatRuns_append, replayLegalBalls_append, hbr, hbt,
          ← h1, ← h2]
        simp only [hxi, hd, hp, beq_self_eq_true, Bool.and_self, if_true, batsmanAfterBall,
          countsAsBallFaced_eq]
        refine ⟨trivial, ?_⟩
        split <;> simp
      · have : ¬ ((x.innings_id == d.inningsId && x.player_id == d.batsmanId) = true) := by
          simp [hp]
        rw [if_neg (show ¬ d.batsmanId = x.player_id from fun h => hp h.symm), ht, if_neg this]
        exact ⟨h1, h2⟩
    · intro b' hb' hbi'
      rw [hW'] at hb'
      obtain ⟨x, hx, rfl⟩ := List.mem_map.mp hb'
      have hxi : x.innings_id = iid := by rw [← (hGk x).1]; exact hbi'
      obtain ⟨h1, h2⟩ := hW x hx hxi
      rw [(hGk x).2, hL, bowledBy_append, hbw]
      by_cases hp : x.player_id = d.bowlerId
      · have hxs : x = w := eq_of_single_filter hw hx (by simp [hxi, hd, hp])
        subst hxs
        rw [if_pos hp.symm, replayRuns_append, replayLegalBalls_append, hbr, hbe, hbt,
          ← h1, ← h2]
        simp only [hxi, hd, hp, beq_self_eq_true, Bool.and_self, if_true, bowlerAfterBall]
        split <;> simp
      · have : ¬ ((x.innings_id == d.inningsId && x.player_id == d.bowlerId) = true) := by
          simp [hp]
        rw [if_neg (show ¬ d.bowlerId = x.player_id from fun h => hp h.symm)]
        rw [if_neg this]
        exact ⟨h1, h2⟩
    · intro r hr
      rw [hL] at hr
      rw [hfb, hfw, Option.isSome_map', Option.isSome_map']
      rcases List.mem_append.mp hr with hr | hr
      · exact hK r hr
      · rw [List.mem_singleton] at hr
        subst hr
        rw [hbb, hbw, ← hd, hs, hw]
        exact ⟨rfl, rfl⟩
  · -- the delivery belongs to another innings
    have hL : ledger db' iid = ledger db iid := by
      unfold ledger
      rw [hballs, List.filter_append]
      simp [hbi, hd]
    refine ⟨⟨?_, ?_, ?_⟩, ?_⟩
    · intro i' hi' hid
      rw [hI'] at hi'
      obtain ⟨x, hx, rfl⟩ := List.mem_map.mp hi'
      split at hid
      · rename_i hxd
        exact absurd ((beq_iff_eq.mp hxd).symm.trans hid) hd
      · rename_i hxd
        rw [if_neg hxd, hL]
        exact hI x hx hid
    · intro b' hb' hbi'
      rw [hB'] at hb'
      obtain ⟨x, hx, rfl⟩ := List.mem_map.mp hb'
      obtain ⟨t, ht⟩ := hF x
      have hxi : x.innings_id = iid := by rw [← (hFk x).1]; exact hbi'
      have : ¬ ((x.innings_id == d.inningsId && x.player_id == d.batsmanId) = true) := by
        simp [hxi, Ne.symm hd]
      rw [(hFk x).2, hL, ht, if_neg this]
      exact hB x hx hxi
    · intro b' hb' hbi'
      rw [hW'] at hb'
      obtain ⟨x, hx, rfl⟩ := List.mem_map.mp hb'
      have hxi : x.innings_id = iid := by rw [← (hGk x).1]; exact hbi'
      have : ¬ ((x.innings_id == d.inningsId && x.player_id == d.bowlerId) = true) := by
        simp [hxi, Ne.symm hd]
      rw [(hGk x).2, hL]
      rw [if_neg this]
      exact hW x hx hxi
    · intro r hr
      rw [hL] at hr
      rw [hfb, hfw, Option.isSome_map', Option.isSome_map']
      exact hK r hr

theorem replayStep_invariant (db : DB) (op : ScoringOp) (iid : RowId)
    (hstep : replayStep db op = true) (hinv : replayInvariant db iid) :
    replayInvariant (op.run db) iid := by
  cases op with
  | ball d =>
    have hok : ∃ ball, recordBall db d = ((recordBall db d).1, .ok ball) := by
      have hstep' : (recordBall db d).2.toBool = true := hstep
      cases hr : recordBall db d with
      | mk db' res =>
        rw [hr] at hstep'
        cases res with
        | error e => cases hstep'
        | ok ball => exact ⟨ball, rfl⟩
    obtain ⟨ball, hball⟩ := hok
    exact recordBall_replayInvariant hball hinv
  | bowler j p =>
    obtain ⟨G, W, hG, hbow, hnew, hbat, hballs, hinn⟩ := changeBowler_rows db j p
    exact replayInvariant_of_rows hinv hballs hinn (F := id) (B := [])
      (fun x => ⟨x.is_on_strike, rfl⟩) (by rw [List.map_id, List.append_nil]; exact hbat)
      (fun n hn => by cases hn) hG hbow hnew
  | batsman j p =>
    obtain ⟨F, hF, ⟨n, hbat⟩, hbow, hballs, hinn⟩ := addNewBatsman_rows db j p
    refine replayInvariant_of_rows hinv hballs hinn hF hbat ?_ (G := id) (W := [])
      (fun x => ⟨x.is_current_bowler, rfl⟩) (by rw [List.map_id, List.append_nil]; exact hbow)
      (fun n hn => by cases hn)
    intro m hm
    rw [List.mem_singleton] at hm
    subst hm
    refine ⟨rfl, rfl, ?_⟩
    intro x hx hkey
    have hall : db.batting.all (fun b => !(b.innings_id == j && b.player_id == p)) = true :=
      hstep
    rw [List.all_eq_true] at hall
    have := hall x hx
    have hj : x.innings_id = j := hkey.1
    have hp : x.player_id = p := hkey.2
    simp [hj, hp] at this
  | strike j =>
    obtain ⟨F, hF, hbat, hbow, hballs, hinn⟩ := switchStrike_rows db j
    exact replayInvariant_of_rows hinv hballs hinn hF (B := [])
      (by rw [List.append_nil]; exact hbat) (fun n hn => by cases hn) (G := id) (W := [])
      (fun x => ⟨x.is_current_bowler, rfl⟩) (by rw [List.map_id, List.append_nil]; exact hbow)
      (fun n hn => by cases hn)
  | undo j => cases hstep

theorem replaySession_invariant (ops : List ScoringOp) (db : DB) (iid : RowId)
    (hops : replaySession db ops = true) (hinv : replayInvariant db iid) :
    replayInvariant (runOps db ops) iid := by
  induction ops generalizing db with
  | nil => exact hinv
  | cons op ops ih =>
    have h : replayStep db op = true ∧ replaySession (op.run db) ops = true := by
      simpa [replaySession] using hops
    exact ih (op.run db) h.2 (replayStep_invariant db op iid h.1 hinv)

theorem initializeInnings_replayInvariant (db0 : DB) (iid b1 b2 w : RowId)
    (hfresh : freshInnings db0 iid = true) :
    replayInvariant (initializeInnings db0 iid b1 b2 w) iid := by
  unfold freshInnings at hfresh
  simp only [Bool.and_eq_true, List.all_eq_true] at hfresh
  obtain ⟨⟨⟨hballs, hbat⟩, hbow⟩, hinn⟩ := hfresh
  have hL : ledger (initializeInnings db0 iid b1 b2 w) iid = [] := by
    unfold ledger initializeInnings
    rw [List.filter_eq_nil_iff]
    intro r hr
    simpa using hballs r hr
  refine ⟨⟨?_, ?_, ?_⟩, ?_⟩
  · intro i hi hid
    rw [hL]
    have := hinn i hi
    simp only [hid, bne_self_eq_false, Bool.false_or, Bool.and_eq_true, beq_iff_eq] at this
    exact ⟨this.1.1, this.1.2, this.2⟩
  · intro b hb hbi
    rw [hL]
    rcases List.mem_append.mp hb with hb | hb
    · have := hbat b hb
      simp [hbi] at this
    · simp only [List.mem_cons, List.mem_singleton, List.not_mem_nil, or_false] at hb
      rcases hb with rfl | rfl <;> exact ⟨rfl, rfl⟩
  · intro b hb hbi
    rw [hL]
    rcases List.mem_append.mp hb with hb | hb
    · have := hbow b hb
      simp [hbi] at this
    · rw [List.mem_singleton] at hb
      subst hb
      exact ⟨rfl, rfl⟩
  · intro r hr
    rw [hL] at hr
    cases hr

/-- C23: on an innings nothing has been scored on, after `initializeInnings` and any
session without undo in which every `recordBall` succeeded (bowler changes, strike
switches and new batsmen allowed), the innings row is the replay of the ledger:
`total_runs` is the sum of `runs_scored + extras` over the innings' ball rows,
`total_balls` the number of rows with extra type none, bye or leg_bye, `total_wickets` the
number of rows with `is_wicket`; each batsman's `runs_scored` and `balls_faced` are the sum
of `runs_scored` and the number of legal rows among the rows carrying his `batsman_id`; and
each bowler's `runs_conceded` and `balls_bowled` are the sum of `runs_scored + extras` and
the number of legal rows among the rows carrying his `bowler_id`. -/
theorem replay_law (db0 : DB) (inningsId batsman1 batsman2 bowler : RowId)
    (ops : List ScoringOp) (hfresh : freshInnings db0 inningsId = true)
    (hops : replaySession (initializeInnings db0 inningsId batsman1 batsman2 bowler) ops =
      true) :
    (∀ i ∈ (runOps (initializeInnings db0 inningsId batsman1 batsman2 bowler) ops).innings,
      i.id = inningsId →
      i.total_runs = replayRuns
        (ledger (runOps (initializeInnings db0 inningsId batsman1 batsman2 bowler) ops)
          inningsId) ∧
      i.total_balls = replayLegalBalls
        (ledger (runOps (initializeInnings db0 inningsId batsman1 batsman2 bowler) ops)
          inningsId) ∧
      i.total_wickets = replayWickets
        (ledger (runOps (initializeInnings db0 inningsId batsman1 batsman2 bowler) ops)
          inningsId)) ∧
    (∀ b ∈ (runOps (initializeInnings db0 inningsId batsman1 batsman2 bowler) ops).batting,
      b.innings_id = inningsId →
      b.runs_scored = replayBatRuns (facedBy
        (ledger (runOps (initializeInnings db0 inningsId batsman1 batsman2 bowler) ops)
          inningsId) b.player_id) ∧
      b.balls_faced = replayLegalBalls (facedBy
        (ledger (runOps (initializeInnings db0 inningsId batsman1 batsman2 bowler) ops)
          inningsId) b.player_id)) ∧
    (∀ b ∈ (runOps (initializeInnings db0 inningsId batsman1 batsman2 bowler) ops).bowling,
      b.innings_id = inningsId →
      b.runs_conceded = replayRuns (bowledBy
        (ledger (runOps (initializeInnings db0 inningsId batsman1 batsman2 bowler) ops)
          inningsId) b.player_id) ∧
      b.balls_bowled = replayLegalBalls (bowledBy
        (ledger (runOps (initializeInnings db0 inningsId batsman1 batsman2 bowler) ops)
          inningsId) b.player_id)) :=
  (replaySession_invariant ops _ inningsId hops
    (initializeInnings_replayInvariant db0 inningsId batsman1 batsman2 bowler hfresh)).1

/-- C23, witness: a single, a dot ball, a bowler change, a no-ball hit for four, a wicket,
a new batsman and a strike switch on the freshly set-up innings; the innings row, the
four batting rows and the two bowling rows are the replay of the four ledger rows. -/
theorem replay_law_witness :
    freshInnings dbEmptyInnings 1 = true ∧ replaySession dbStart replayOps = true ∧
    (ledger (runOps dbStart replayOps) 1).length = 4 ∧
    (∀ i ∈ (runOps dbStart replayOps).innings, i.id = 1 →
      i.total_runs = replayRuns (ledger (runOps dbStart replayOps) 1) ∧
      i.total_balls = replayLegalBalls (ledger (runOps dbStart replayOps) 1) ∧
      i.total_wickets = replayWickets (ledger (runOps dbStart replayOps) 1)) ∧
    (∀ b ∈ (runOps dbStart replayOps).batting, b.innings_id = 1 →
      b.runs_scored = replayBatRuns
        (facedBy (ledger (runOps dbStart replayOps) 1) b.player_id) ∧
      b.balls_faced = replayLegalBalls
        (facedBy (ledger (runOps dbStart replayOps) 1) b.player_id)) ∧
    (∀ b ∈ (runOps dbStart replayOps).bowling, b.innings_id = 1 →
      b.runs_conceded = replayRuns
        (bowledBy (ledger (runOps dbStart replayOps) 1) b.player_id) ∧
      b.balls_bowled = replayLegalBalls
        (bowledBy (ledger (runOps dbStart replayOps) 1) b.player_id)) :=
  ⟨by decide, by decide, by decide,
    replay_law dbEmptyInnings 1 10 11 20 replayOps (by decide) (by decide)⟩

end CuetCricbuzz
